import Mathlib

/-!
# Projucer Visual Studio exporter

A shallow embedding of `extras/Projucer/Source/ProjectSaving/jucer_ProjectExport_MSVC.h`
(class `MSVCProjectExporterBase` with its nested `MSVCBuildConfiguration` and
`MSVCTargetBase`), followed by theorems about the emitted solution text, the
project document and the preprocessor-define list.

Conventions of the embedding:

* a JUCE `String` is a Lean `String`; `a + b` and `out << a` are `++`;
* an `OutputStream` is the text written so far, passed in and returned;
* a `for` loop over an array is a `List.foldl` over the state it updates;
* code that the header only calls (JUCE core, other Projucer files) is collected
  in the record `Externals` and passed to every function that needs it.
-/

namespace MSVC

/-! ## Data model -/

/-- The enumeration `ProjectType::Target::Type`. The header names the members
`GUIApp`, `ConsoleApp`, `StaticLibrary`, `DynamicLibrary`, `VSTPlugIn`, `VST3PlugIn`,
`AAXPlugIn`, `RTASPlugIn`, `StandalonePlugIn`, `SharedCodeTarget` and `AggregateTarget`;
the remaining members stand for the kinds this exporter does not support. -/
inductive TargetType where
  | GUIApp
  | ConsoleApp
  | StaticLibrary
  | DynamicLibrary
  | VSTPlugIn
  | VST3PlugIn
  | AAXPlugIn
  | RTASPlugIn
  | AudioUnitPlugIn
  | AudioUnitv3PlugIn
  | StandalonePlugIn
  | SharedCodeTarget
  | AggregateTarget
  | unspecified
  deriving DecidableEq, Repr

/-- A `juce::File`, identified by its full path. -/
structure File where
  fullPath : String
  deriving DecidableEq, Repr

/-- The method `String::isNotEmpty()`. -/
def isNotEmpty (s : String) : Bool := decide (s ≠ "")

/-- The method `String::isEmpty()`. -/
def isEmpty (s : String) : Bool := decide (s = "")

/-- The method `String::removeCharacters (charactersToRemove)`: drops every character
that occurs in `charactersToRemove`. -/
def removeCharacters (s charactersToRemove : String) : String :=
  String.mk (s.data.filter (fun c => !(charactersToRemove.data.contains c)))

/-- The enumeration `ProjectType::Target::TargetFileType`. -/
inductive TargetFileType where
  | executable
  | staticLibrary
  | sharedLibraryOrDLL
  | pluginBundle
  | macOSAppex
  | unknown
  deriving DecidableEq, Repr

/-- The queries of `ProjectType` that the header uses. -/
structure ProjectType where
  isCommandLineApp : Bool := false
  isStaticLibrary : Bool := false
  isAudioPlugin : Bool := false
  deriving DecidableEq, Repr

/-- The enumeration `RelativePath::RootFolder`. -/
inductive RootFolder where
  | unknown
  | projectFolder
  | buildTargetFolder
  deriving DecidableEq, Repr

/-- A `RelativePath`: a path string and the folder it is relative to. -/
structure RelativePath where
  path : String
  root : RootFolder
  deriving DecidableEq, Repr

/-- Modelled from the spec: the JUCE core class `StringPairArray`, which the header uses and
does not define. It is the ordered list of (key, value) pairs of a define set, in which
"later sources override earlier on key collision". -/
structure StringPairArray where
  pairs : List (String × String) := []
  deriving DecidableEq, Repr

namespace StringPairArray

/-- Replaces the value of the first pair whose key is `key`, or appends the pair
`(key, value)` when there is none. -/
def setPairs : List (String × String) → String → String → List (String × String)
  | [], key, value => [(key, value)]
  | (k, v) :: rest, key, value =>
    if k = key then (k, value) :: rest else (k, v) :: setPairs rest key value

/-- Modelled from the spec: the method `StringPairArray::set (key, value)`, last writer wins:
an existing key keeps its place and takes the new value, a new key is added at the end. -/
def set (a : StringPairArray) (key value : String) : StringPairArray :=
  ⟨setPairs a.pairs key value⟩

/-- The method `getAllKeys()`. -/
def getAllKeys (a : StringPairArray) : List String := a.pairs.map Prod.fst

/-- The method `getAllValues()`. -/
def getAllValues (a : StringPairArray) : List String := a.pairs.map Prod.snd

end StringPairArray

/-- Modelled from the spec: the Projucer helper `mergePreprocessorDefs (inheritedDefs,
overridingDefs)`, which the header calls and does not define: every overriding define is set
on the inherited ones, so "merging {A=1} then {A=2} yields {A=2}; merging {A=1} with {}
yields {A=1}". -/
def mergePreprocessorDefs (inheritedDefs overridingDefs : StringPairArray) : StringPairArray :=
  overridingDefs.pairs.foldl (fun defs kv => defs.set kv.1 kv.2) inheritedDefs

/-- Modelled from the spec: the JUCE core method `StringArray::joinIntoString (separator)`:
the strings in order with the separator between neighbours. -/
def joinIntoString : List String → String → String
  | [], _ => ""
  | [s], _ => s
  | s :: t :: rest, separator => s ++ separator ++ joinIntoString (t :: rest) separator

/-- The fields of `MSVCBuildConfiguration` (and of its base `BuildConfiguration`) that the
embedded functions read. -/
structure MSVCBuildConfiguration where
  /-- The value of `getName()`. -/
  name : String
  /-- The value of `isDebug()`. -/
  isDebug : Bool := false
  /-- The value of `architectureTypeValue.get()`. -/
  architectureTypeValue : String := "x64"
  /-- The value of `getTargetBinaryNameString()`. -/
  targetBinaryNameString : String := ""
  /-- The value of `getTargetBinaryRelativePathString()`. -/
  targetBinaryRelativePathString : String := ""
  /-- The value of `getIntermediatesPathString()`. -/
  intermediatesPathString : String := ""
  /-- The value of `getOptimisationLevelInt()`. -/
  optimisationLevelInt : Int := 1
  /-- The value of `shouldGenerateDebugSymbols()`. -/
  shouldGenerateDebugSymbols : Bool := false
  /-- The value of `getDebugInformationFormatString()`. -/
  debugInformationFormatString : String := "ProgramDatabase"
  /-- The value of `shouldGenerateManifest()`. -/
  shouldGenerateManifest : Bool := true
  /-- The value of `getHeaderSearchPaths()`. -/
  headerSearchPaths : List String := []
  /-- The value of `getLibrarySearchPaths()`. -/
  librarySearchPaths : List String := []
  /-- The value of `getWarningLevel()`. -/
  warningLevel : Int := 4
  /-- The value of `isFastMathEnabled()`. -/
  isFastMathEnabled : Bool := false
  /-- The value of `areWarningsTreatedAsErrors()`. -/
  areWarningsTreatedAsErrors : Bool := false
  /-- Whether `config [Ids::useRuntimeLibDLL]` is void, that is, the setting is not set. -/
  useRuntimeLibDLLIsVoid : Bool := true
  /-- The value of `isUsingRuntimeLibDLL()`. -/
  isUsingRuntimeLibDLL : Bool := true
  /-- The text of `config [Ids::msvcModuleDefinitionFile]`. -/
  msvcModuleDefinitionFile : String := ""
  /-- The text of `config [Ids::winArchitecture]`, empty when the setting is not set. -/
  winArchitectureSetting : String := ""
  /-- The value of `getPrebuildCommandString()`. -/
  prebuildCommandString : String := ""
  /-- The value of `getPostbuildCommandString()`. -/
  postbuildCommandString : String := ""
  /-- The value of `isPluginBinaryCopyStepEnabled()`. -/
  isPluginBinaryCopyStepEnabled : Bool := false
  /-- The value of `getVSTBinaryLocationString()`. -/
  vstBinaryLocationString : String := ""
  /-- The value of `getVST3BinaryLocationString()`. -/
  vst3BinaryLocationString : String := ""
  /-- The value of `getRTASBinaryLocationString()`. -/
  rtasBinaryLocationString : String := ""
  /-- The value of `getAAXBinaryLocationString()`. -/
  aaxBinaryLocationString : String := ""
  deriving DecidableEq, Repr

namespace MSVCBuildConfiguration

def get64BitArchName (_ : MSVCBuildConfiguration) : String := "x64"

def get32BitArchName (_ : MSVCBuildConfiguration) : String := "Win32"

def getArchitectureString (c : MSVCBuildConfiguration) : String := c.architectureTypeValue

def is64Bit (c : MSVCBuildConfiguration) : Bool :=
  decide (c.getArchitectureString = c.get64BitArchName)

def createMSVCConfigName (c : MSVCBuildConfiguration) : String :=
  c.name ++ "|" ++ (if c.is64Bit then "x64" else "Win32")

end MSVCBuildConfiguration

/-- A `juce::Colour`, by its four 8-bit components. -/
structure Colour where
  red : UInt8
  green : UInt8
  blue : UInt8
  alpha : UInt8
  deriving DecidableEq, Repr

/-- A `juce::Image` as the icon writer reads it: its dimensions, which are never negative,
and the colour that `Image::BitmapData::getPixelColour (x, y)` returns. -/
structure Image where
  width : Nat
  height : Nat
  getPixelColour : Nat → Nat → Colour

/-- The data of a `MemoryOutputStream` handed to `overwriteFileIfDifferentOrThrow`: the
bytes of the icon container or the text of the resource file. -/
inductive StreamData where
  | bytes (data : List Nat)
  | text (data : String)
  deriving DecidableEq, Repr

/-- The code this header calls but does not contain. -/
structure Externals where
  /-- The line terminator `newLine` streamed into an `OutputStream`. -/
  newLine : String
  /-- The helper `createGUID (seed)`. -/
  createGUID : String → String
  /-- The method `ProjectType::Target::getName()` of a target of the given type. -/
  getName : TargetType → String
  /-- The method `ProjectType::Target::getTargetFileType()` of a target of the given type. -/
  getTargetFileType : TargetType → TargetFileType
  /-- The method `File::getChildFile (relativePath)`. -/
  getChildFile : File → String → File
  /-- The method `File::withFileExtension (extension)`. -/
  withFileExtension : File → String → File
  /-- The method `File::getFileName()`. -/
  getFileName : File → String
  /-- The method `ProjectExporter::getAllPreprocessorDefs (config, targetType)`. -/
  getAllPreprocessorDefs : MSVCBuildConfiguration → TargetType → StringPairArray
  /-- The method `RelativePath::getChildFile (subpath)`. -/
  relativeChildFile : RelativePath → String → RelativePath
  /-- The method `ProjectExporter::rebaseFromProjectFolderToBuildTarget (path)`. -/
  rebaseFromProjectFolderToBuildTarget : RelativePath → RelativePath
  /-- The method `RelativePath::toWindowsStyle()`. -/
  toWindowsStyle : RelativePath → String
  /-- The helper `CppTokeniserFunctions::addEscapeChars (s)`. -/
  addEscapeChars : String → String
  /-- The method `String::quoted()`. -/
  quoted : String → String
  /-- The function `File::createLegalFileName (name)`. -/
  createLegalFileName : String → String
  /-- The method `String::trim()`. -/
  trim : String → String
  /-- The bytes that `PNGImageFormat::writeImageToStream (image, stream)` appends to the
  stream. -/
  pngEncode : Image → List Nat
  /-- The method `Project::getTargetTypeFromFilePath (file, true)`. -/
  getTargetTypeFromFilePath : File → TargetType
  /-- The path text that the constructor `RelativePath (file, rootFolder, root)` computes
  for a file and the folder it is made relative to. -/
  relativePathTo : File → File → String
  /-- The method `RelativePath::hasFileExtension (extensions)`. -/
  hasFileExtension : RelativePath → String → Bool
  /-- The constant `cOrCppFileExtensions`. -/
  cOrCppFileExtensions : String
  /-- The constant `asmFileExtensions`. -/
  asmFileExtensions : String
  /-- The constant `headerFileExtensions`. -/
  headerFileExtensions : String
  /-- The constant `objCFileExtensions`. -/
  objCFileExtensions : String
  /-- The constant `sourceFileExtensions`. -/
  sourceFileExtensions : String
  /-- The method `RelativePath::getFileNameWithoutExtension()`. -/
  getFileNameWithoutExtension : RelativePath → String
  /-- The method `String::startsWithIgnoreCase (other)`. -/
  startsWithIgnoreCase : String → String → Bool
  /-- The function `getCleanedStringArray (array)`. -/
  getCleanedStringArray : List String → List String
  /-- The method `ProjectExporter::replacePreprocessorTokens (config, text)`. -/
  replacePreprocessorTokens : MSVCBuildConfiguration → String → String
  /-- The method `ProjectExporter::getPathForModuleString (moduleID)`. -/
  getPathForModuleString : String → String
  /-- The function `File::isAbsolutePath (path)`. -/
  fileIsAbsolutePath : String → Bool
  /-- The function `FileHelpers::isAbsolutePath (path)`. -/
  isAbsolutePath : String → Bool
  /-- The function `FileHelpers::windowsStylePath (path)`. -/
  windowsStylePath : String → String
  /-- The method `RelativePath::isAbsolute()`. -/
  relativePathIsAbsolute : RelativePath → Bool
  /-- The method `RelativePath::rebased (originalRoot, newRoot, newRootType)`. -/
  rebased : RelativePath → File → File → RootFolder → RelativePath
  /-- The method `File::existsAsFile()`. -/
  existsAsFile : File → Bool
  /-- The method `String::replace (stringToReplace, stringToInsert)`. -/
  replace : String → String → String → String
  /-- The method `ProjectExporter::getBestIconForSize (size, returnNullIfNothingBigEnough)`. -/
  getBestIconForSize : Nat → Bool → Image
  /-- The method `Image::isValid()`. -/
  imageIsValid : Image → Bool
  /-- Whether `overwriteFileIfDifferentOrThrow (file, stream)` throws instead of
  returning. -/
  overwriteThrows : File → StreamData → Bool
  /-- The method `File::exists()`. -/
  fileExists : File → Bool
  /-- The value of `ProjectSaver::getJuceCodeGroupName()`. -/
  getJuceCodeGroupName : String
  /-- The method `String::containsNonWhitespaceChars()`. -/
  containsNonWhitespaceChars : String → Bool

/-- An `MSVCTargetBase`: the target type of its base class and the GUID computed by its
constructor. -/
structure MSVCTargetBase where
  type : TargetType
  projectGuid : String
  deriving DecidableEq, Repr

/-- The fields of `MSVCProjectExporterBase` (and of its base `ProjectExporter`) that the
embedded functions read or write. -/
structure MSVCProjectExporterBase where
  /-- The member `projectName`. -/
  projectName : String
  /-- The value of `getProject().getProjectUIDString()`. -/
  projectUIDString : String := ""
  /-- The value of `project.getProjectFilenameRootString()`. -/
  projectFilenameRootString : String := ""
  /-- The value of `getTargetFolder()`. -/
  targetFolder : File := ⟨""⟩
  /-- The member `targets`. -/
  targets : List MSVCTargetBase := []
  /-- The build configurations visited by `ConstConfigIterator`, in order. -/
  configs : List MSVCBuildConfiguration := []
  /-- The member `msvcExtraPreprocessorDefs` of `ProjectExporter`. -/
  msvcExtraPreprocessorDefs : StringPairArray := {}
  /-- The value of `getVisualStudioVersion()`. -/
  visualStudioVersion : Int := 15
  /-- The value of `getAAXPathValue().toString()`. -/
  aaxPathValue : String := ""
  /-- The value of `getRTASPathValue().toString()`. -/
  rtasPathValue : String := ""
  /-- The value of `project.getCppStandardString()`. -/
  cppStandardString : String := "14"
  /-- The member `windowsLibs` of `ProjectExporter`. -/
  windowsLibs : List String := []
  /-- The member `projectType` of `ProjectExporter`, also the value of
  `getProject().getProjectType()`. -/
  projectType : ProjectType := {}
  /-- The member `msvcDelayLoadedDLLs` of `ProjectExporter`. -/
  msvcDelayLoadedDLLs : String := ""
  /-- The member `extraSearchPaths` of `ProjectExporter`. -/
  extraSearchPaths : List String := []
  /-- The value of `getExtraCompilerFlagsString()`. -/
  extraCompilerFlagsString : String := ""
  /-- The value of `getExtraLinkerFlagsString()`. -/
  extraLinkerFlagsString : String := ""
  /-- The value of `getExternalLibrariesString()`. -/
  externalLibrariesString : String := ""
  /-- The member `projectFolder` of `ProjectExporter`. -/
  projectFolder : File := ⟨""⟩
  /-- The value of `getProject().getProjectFolder()`. -/
  getProjectFolder : File := ⟨""⟩
  /-- The mutable member `iconFile`; `File()` is the file with the empty path. -/
  iconFile : File := ⟨""⟩
  /-- The mutable member `rcFile`. -/
  rcFile : File := ⟨""⟩
  /-- The value of `project.getVersionString()`. -/
  versionString : String := ""
  /-- The value of `project.getCompanyNameString()`. -/
  companyNameString : String := ""
  /-- The value of `project.getCompanyCopyrightString()`. -/
  companyCopyrightString : String := ""
  /-- The value of `project.getProjectNameString()`. -/
  projectNameString : String := ""
  /-- The value of `getToolsVersion()`. -/
  toolsVersion : String := "15.0"

/-! ## Targets -/

namespace MSVCTargetBase

/-- The constructor `MSVCTargetBase (targetType, exporter)`. -/
def create (x : Externals) (owner : MSVCProjectExporterBase) (targetType : TargetType) :
    MSVCTargetBase :=
  { type := targetType
    projectGuid := x.createGUID (owner.projectUIDString ++ x.getName targetType) }

def getProjectGuid (t : MSVCTargetBase) : String := t.projectGuid

def getProjectFileSuffix (_ : MSVCTargetBase) : String := ".vcxproj"

end MSVCTargetBase

/-- The method `MSVCProjectExporterBase::getProjectFile (extension, target)`. -/
def getProjectFile (x : Externals) (e : MSVCProjectExporterBase) (extension target : String) :
    File :=
  let filename := e.projectFilenameRootString
  let filename :=
    if isNotEmpty target then filename ++ ("_" ++ removeCharacters target " ") else filename
  x.withFileExtension (x.getChildFile e.targetFolder filename) extension

/-- The method `MSVCTargetBase::getVCProjFile()`. -/
def getVCProjFile (x : Externals) (e : MSVCProjectExporterBase) (t : MSVCTargetBase) : File :=
  getProjectFile x e t.getProjectFileSuffix (x.getName t.type)

/-! ## The solution file -/

/-- The method `getSharedCodeGuid()`: the GUID of the first shared-code target, or the empty
string when there is none. -/
def getSharedCodeGuid : List MSVCTargetBase → String
  | [] => ""
  | target :: rest =>
    if target.type = TargetType.SharedCodeTarget then target.getProjectGuid
    else getSharedCodeGuid rest

/-- The method `writeProjectDependencies (out)`. -/
def writeProjectDependencies (x : Externals) (e : MSVCProjectExporterBase) (out : String) :
    String :=
  let sharedCodeGuid := getSharedCodeGuid e.targets
  (List.range (if isNotEmpty sharedCodeGuid then 2 else 1)).foldl
    (fun out addingOtherTargets =>
      e.targets.foldl
        (fun out target =>
          if isEmpty sharedCodeGuid
              || (decide (addingOtherTargets ≠ 0)
                    == decide (target.type ≠ TargetType.StandalonePlugIn)) then
            let out := out ++ "Project(\"{8BC9CEB8-8B4A-11D0-8D11-00A0C91BC942}\") = \""
              ++ e.projectName ++ " - "
              ++ x.getName target.type ++ "\", \""
              ++ x.getFileName (getVCProjFile x e target) ++ "\", \""
              ++ target.getProjectGuid ++ "\"" ++ x.newLine
            let out :=
              if isNotEmpty sharedCodeGuid
                  && decide (target.type ≠ TargetType.SharedCodeTarget) then
                out ++ "\tProjectSection(ProjectDependencies) = postProject" ++ x.newLine
                  ++ "\t\t" ++ sharedCodeGuid ++ " = " ++ sharedCodeGuid ++ x.newLine
                  ++ "\tEndProjectSection" ++ x.newLine
              else out
            out ++ "EndProject" ++ x.newLine
          else out)
        out)
    out

/-- The method `writeSolutionFile (out, versionString, commentString)`. -/
def writeSolutionFile (x : Externals) (e : MSVCProjectExporterBase)
    (out versionString commentString : String) : String :=
  let commentString :=
    if isNotEmpty commentString then commentString ++ x.newLine else commentString
  let out := out ++ "Microsoft Visual Studio Solution File, Format Version "
    ++ versionString ++ x.newLine
    ++ commentString ++ x.newLine
  let out := writeProjectDependencies x e out
  let out := out ++ "Global" ++ x.newLine
    ++ "\tGlobalSection(SolutionConfigurationPlatforms) = preSolution" ++ x.newLine
  let out := e.configs.foldl
    (fun out config =>
      let configName := config.createMSVCConfigName
      out ++ "\t\t" ++ configName ++ " = " ++ configName ++ x.newLine)
    out
  let out := out ++ "\tEndGlobalSection" ++ x.newLine
    ++ "\tGlobalSection(ProjectConfigurationPlatforms) = postSolution" ++ x.newLine
  let out := e.targets.foldl
    (fun out target =>
      e.configs.foldl
        (fun out config =>
          let configName := config.createMSVCConfigName
          ["ActiveCfg", "Build.0"].foldl
            (fun out suffix =>
              out ++ "\t\t" ++ target.getProjectGuid ++ "." ++ configName ++ "."
                ++ suffix ++ " = " ++ configName ++ x.newLine)
            out)
        out)
    out
  let out := out ++ "\tEndGlobalSection" ++ x.newLine
    ++ "\tGlobalSection(SolutionProperties) = preSolution" ++ x.newLine
    ++ "\t\tHideSolutionNode = FALSE" ++ x.newLine
    ++ "\tEndGlobalSection" ++ x.newLine
  out ++ "EndGlobal" ++ x.newLine

/-! ## Building the target list -/

/-- The method `addPlatformSpecificSettingsForProjectType (type)`.

`supportedTargets` lists the target types for which `callForAllSupportedTargets` invokes its
callback, in the order of the calls. The method returns `void` and has no error path: the
result is the updated exporter together with the truth value of the condition of its final
`jassert (targets.size() > 0)`. -/
def addPlatformSpecificSettingsForProjectType (x : Externals) (e : MSVCProjectExporterBase)
    (type : ProjectType) (supportedTargets : List TargetType) :
    MSVCProjectExporterBase × Bool :=
  let defs := e.msvcExtraPreprocessorDefs.set "_CRT_SECURE_NO_WARNINGS" ""
  let defs := if type.isCommandLineApp then defs.set "_CONSOLE" "" else defs
  let targets := supportedTargets.foldl
    (fun targets targetType =>
      let target := MSVCTargetBase.create x e targetType
      if targetType ≠ TargetType.AggregateTarget then targets ++ [target] else targets)
    e.targets
  ({ e with msvcExtraPreprocessorDefs := defs, targets := targets },
    decide (targets.length > 0))

/-! ## Preprocessor definitions -/

/-- The private method `MSVCProjectExporterBase::createRebasedPath (path)`. -/
def createRebasedPath (x : Externals) (e : MSVCProjectExporterBase) (path : RelativePath) :
    String :=
  let rebasedPath := x.toWindowsStyle (x.rebaseFromProjectFolderToBuildTarget path)
  if e.visualStudioVersion < 10 then x.addEscapeChars (x.quoted rebasedPath)
  else x.quoted (x.addEscapeChars rebasedPath)

/-- The method `MSVCTargetBase::addExtraPreprocessorDefines (defines)`. -/
def addExtraPreprocessorDefines (x : Externals) (e : MSVCProjectExporterBase)
    (t : MSVCTargetBase) (defines : StringPairArray) : StringPairArray :=
  match t.type with
  | TargetType.AAXPlugIn =>
    let aaxLibsFolder :=
      x.relativeChildFile ⟨e.aaxPathValue, RootFolder.projectFolder⟩ "Libs"
    defines.set "JucePlugin_AAXLibs_path" (createRebasedPath x e aaxLibsFolder)
  | TargetType.RTASPlugIn =>
    let rtasFolder : RelativePath := ⟨e.rtasPathValue, RootFolder.projectFolder⟩
    defines.set "JucePlugin_WinBag_path"
      (createRebasedPath x e (x.relativeChildFile rtasFolder "WinBag"))
  | _ => defines

/-- The define set that `getPreprocessorDefs` builds before it renders it (the statements up
to the declaration of `result`). -/
def getPreprocessorDefs_defines (x : Externals) (e : MSVCProjectExporterBase)
    (t : MSVCTargetBase) (config : MSVCBuildConfiguration) : StringPairArray :=
  let defines := e.msvcExtraPreprocessorDefs
  let defines := defines.set "WIN32" ""
  let defines := defines.set "_WINDOWS" ""
  let defines :=
    if config.isDebug then (defines.set "DEBUG" "").set "_DEBUG" ""
    else defines.set "NDEBUG" ""
  let defines := mergePreprocessorDefs defines (x.getAllPreprocessorDefs config t.type)
  let defines := addExtraPreprocessorDefines x e t defines
  if x.getTargetFileType t.type = TargetFileType.staticLibrary
      ∨ x.getTargetFileType t.type = TargetFileType.sharedLibraryOrDLL then
    defines.set "_LIB" ""
  else defines

/-- The method `MSVCTargetBase::getPreprocessorDefs (config, joinString)`. -/
def getPreprocessorDefs (x : Externals) (e : MSVCProjectExporterBase) (t : MSVCTargetBase)
    (config : MSVCBuildConfiguration) (joinString : String) : String :=
  let defines := getPreprocessorDefs_defines x e t config
  let result := defines.pairs.map
    (fun kv => if isNotEmpty kv.2 then kv.1 ++ "=" ++ kv.2 else kv.1)
  joinIntoString result joinString

/-! ## The project document -/

/-- An `XmlElement`: a tagged element with its attributes and children, or a text node. -/
inductive XmlElement where
  | element (tagName : String) (attributes : List (String × String))
      (children : List XmlElement)
  | text (text : String)

namespace XmlElement

/-- The method `XmlElement::setAttribute (name, value)`: the attribute takes the new value
when it exists and is added after the others when it does not. -/
def setAttribute : XmlElement → String → String → XmlElement
  | element tagName attributes children, name, value =>
    element tagName (StringPairArray.setPairs attributes name value) children
  | text s, _, _ => text s

/-- The value of the attribute `name`, when the element has it. -/
def getAttribute : XmlElement → String → Option String
  | element _ attributes _, name => (attributes.find? (fun a => decide (a.1 = name))).map Prod.snd
  | text _, _ => none

end XmlElement

/-- The method `MSVCTargetBase::setConditionAttribute (xml, config)`. -/
def setConditionAttribute (xml : XmlElement) (config : MSVCBuildConfiguration) : XmlElement :=
  xml.setAttribute "Condition"
    ("'$(Configuration)|$(Platform)'=='" ++ config.createMSVCConfigName ++ "'")

/-- The `ProjectConfiguration` element that the first block of `fillInProjectXml` creates
for one configuration. -/
def fillInProjectXml_projectConfiguration (config : MSVCBuildConfiguration) : XmlElement :=
  XmlElement.element "ProjectConfiguration" [("Include", config.createMSVCConfigName)]
    [ XmlElement.element "Configuration" [] [XmlElement.text config.name],
      XmlElement.element "Platform" []
        [XmlElement.text (if config.is64Bit then config.get64BitArchName
                          else config.get32BitArchName)] ]

/-- The first block of `MSVCTargetBase::fillInProjectXml`: the `ItemGroup` labelled
`ProjectConfigurations`, with one `ProjectConfiguration` element per configuration. -/
def fillInProjectXml_configsGroup (e : MSVCProjectExporterBase) : XmlElement :=
  XmlElement.element "ItemGroup" [("Label", "ProjectConfigurations")]
    (e.configs.map fillInProjectXml_projectConfiguration)

/-- The second block of `MSVCTargetBase::fillInProjectXml`: the `PropertyGroup` labelled
`Globals`, which holds the `ProjectGuid` element. -/
def fillInProjectXml_globals (t : MSVCTargetBase) : XmlElement :=
  XmlElement.element "PropertyGroup" [("Label", "Globals")]
    [XmlElement.element "ProjectGuid" [] [XmlElement.text t.getProjectGuid]]

/-- The end of the `ClCompile` block of `MSVCTargetBase::fillInProjectXml`: the
`LanguageStandard` element computed from the C++ standard of the project. -/
def fillInProjectXml_languageStandard (e : MSVCProjectExporterBase) : XmlElement :=
  let cppStandard := e.cppStandardString
  let cppStandard := if cppStandard = "11" then "14" else cppStandard
  XmlElement.element "LanguageStandard" [] [XmlElement.text ("stdcpp" ++ cppStandard)]

/-! ## Closed forms used to state the theorems -/

/-- Concatenation of a list of text blocks, first block first. -/
def concatBlocks : List String → String
  | [] => ""
  | s :: rest => s ++ concatBlocks rest

/-- The project-declaration line of one target in the solution text, with `guid` as the
identifier it ends with. -/
def projectDeclaration (x : Externals) (e : MSVCProjectExporterBase) (t : MSVCTargetBase)
    (guid : String) : String :=
  "Project(\"{8BC9CEB8-8B4A-11D0-8D11-00A0C91BC942}\") = \"" ++ e.projectName ++ " - "
    ++ x.getName t.type ++ "\", \"" ++ x.getFileName (getVCProjFile x e t) ++ "\", \""
    ++ guid ++ "\"" ++ x.newLine

/-- A `ProjectDependencies` sub-block whose single entry is `guid = guid`. -/
def projectDependenciesSection (x : Externals) (guid : String) : String :=
  "\tProjectSection(ProjectDependencies) = postProject" ++ x.newLine
    ++ "\t\t" ++ guid ++ " = " ++ guid ++ x.newLine
    ++ "\tEndProjectSection" ++ x.newLine

/-- The text written for one target by `writeProjectDependencies` when the shared-code GUID
is `sharedCodeGuid`: its declaration line with the identifier `guid`, the dependency
sub-block when `sharedCodeGuid` is not empty and the target is not the shared-code target,
and the closing `EndProject` line. -/
def projectBlock (x : Externals) (e : MSVCProjectExporterBase) (sharedCodeGuid : String)
    (t : MSVCTargetBase) (guid : String) : String :=
  projectDeclaration x e t guid
    ++ ((if isNotEmpty sharedCodeGuid && decide (t.type ≠ TargetType.SharedCodeTarget) then
          projectDependenciesSection x sharedCodeGuid else "")
      ++ ("EndProject" ++ x.newLine))

/-- The order in which `writeProjectDependencies` visits the targets: the list order when
there is no shared-code GUID, otherwise the stand-alone targets first and then the others. -/
def emissionOrder (targets : List MSVCTargetBase) : List MSVCTargetBase :=
  if getSharedCodeGuid targets = "" then targets
  else targets.filter (fun t => decide (t.type = TargetType.StandalonePlugIn))
    ++ targets.filter (fun t => decide (t.type ≠ TargetType.StandalonePlugIn))

/-- The first lines of the solution text: format version and comment. -/
def solutionHeader (x : Externals) (versionString commentString : String) : String :=
  "Microsoft Visual Studio Solution File, Format Version " ++ versionString ++ x.newLine
    ++ (if commentString = "" then "" else commentString ++ x.newLine) ++ x.newLine

/-- The project declarations of the solution text, where `guidOf` gives the identifier that
ends the declaration line of each target. -/
def solutionProjects (x : Externals) (e : MSVCProjectExporterBase)
    (guidOf : MSVCTargetBase → String) : String :=
  concatBlocks ((emissionOrder e.targets).map
    (fun t => projectBlock x e (getSharedCodeGuid e.targets) t (guidOf t)))

/-- One line of the `SolutionConfigurationPlatforms` section. -/
def solutionConfigurationLine (x : Externals) (configName : String) : String :=
  "\t\t" ++ configName ++ " = " ++ configName ++ x.newLine

/-- One entry of the `ProjectConfigurationPlatforms` section: the key is made of the target
identifier, the configuration name and the suffix, the right-hand side is the configuration
name. -/
def projectConfigurationEntry (x : Externals) (guid configName suffix : String) : String :=
  "\t\t" ++ guid ++ "." ++ configName ++ "." ++ suffix ++ " = " ++ configName ++ x.newLine

/-- The `SolutionConfigurationPlatforms` section made of the given lines. -/
def solutionConfigurationPlatforms (x : Externals) (lines : List String) : String :=
  "\tGlobalSection(SolutionConfigurationPlatforms) = preSolution" ++ x.newLine
    ++ concatBlocks lines ++ "\tEndGlobalSection" ++ x.newLine

/-- The `ProjectConfigurationPlatforms` section made of the given entries. -/
def projectConfigurationPlatforms (x : Externals) (entries : List String) : String :=
  "\tGlobalSection(ProjectConfigurationPlatforms) = postSolution" ++ x.newLine
    ++ concatBlocks entries ++ "\tEndGlobalSection" ++ x.newLine

/-- The `SolutionProperties` section and the end of the solution text. -/
def solutionFooter (x : Externals) : String :=
  "\tGlobalSection(SolutionProperties) = preSolution" ++ x.newLine
    ++ "\t\tHideSolutionNode = FALSE" ++ x.newLine
    ++ "\tEndGlobalSection" ++ x.newLine
    ++ "EndGlobal" ++ x.newLine

/-- The text of the first child element of `xml` that is named `name` and holds a single
text node. -/
def XmlElement.getChildElementText : XmlElement → String → Option String
  | XmlElement.element _ _ children, name =>
    children.findSome? (fun child =>
      match child with
      | XmlElement.element n _ [XmlElement.text s] => if n = name then some s else none
      | _ => none)
  | XmlElement.text _, _ => none

/-- The text of the `ProjectGuid` element in the project document of a target. -/
def documentProjectGuid (t : MSVCTargetBase) : String :=
  ((fillInProjectXml_globals t).getChildElementText "ProjectGuid").getD ""

/-- The value of the first pair of the list whose key is `key`. -/
def firstValue : List (String × String) → String → Option String
  | [], _ => none
  | (k, v) :: rest, key => if k = key then some v else firstValue rest key

/-- The value of the last pair of the list whose key is `key`. -/
def lastValue : List (String × String) → String → Option String
  | [], _ => none
  | (k, v) :: rest, key =>
    match lastValue rest key with
    | some w => some w
    | none => if k = key then some v else none

/-- The list of pairs after the pairs of `ops` have been set on it one after the other. -/
def setAll (l ops : List (String × String)) : List (String × String) :=
  ops.foldl (fun acc kv => StringPairArray.setPairs acc kv.1 kv.2) l

/-- The defines that `getPreprocessorDefs` sets on top of the exporter's base defines
`msvcExtraPreprocessorDefs`, in the order in which it sets them: the fixed platform and
debug defines, the defines of `getAllPreprocessorDefs`, the define added by
`addExtraPreprocessorDefines` for an AAX or RTAS target, and `_LIB` for a library. -/
def getPreprocessorDefs_overrides (x : Externals) (e : MSVCProjectExporterBase)
    (t : MSVCTargetBase) (config : MSVCBuildConfiguration) : List (String × String) :=
  [("WIN32", ""), ("_WINDOWS", "")]
    ++ (if config.isDebug then [("DEBUG", ""), ("_DEBUG", "")] else [("NDEBUG", "")])
    ++ (x.getAllPreprocessorDefs config t.type).pairs
    ++ (match t.type with
        | TargetType.AAXPlugIn =>
          [("JucePlugin_AAXLibs_path", createRebasedPath x e
              (x.relativeChildFile ⟨e.aaxPathValue, RootFolder.projectFolder⟩ "Libs"))]
        | TargetType.RTASPlugIn =>
          [("JucePlugin_WinBag_path", createRebasedPath x e
              (x.relativeChildFile ⟨e.rtasPathValue, RootFolder.projectFolder⟩ "WinBag"))]
        | _ => [])
    ++ (if x.getTargetFileType t.type = TargetFileType.staticLibrary
            ∨ x.getTargetFileType t.type = TargetFileType.sharedLibraryOrDLL then
          [("_LIB", "")] else [])

/-- The characters of a text in which every occurrence of the text `target` is replaced by
`replacement`, for at most `fuel` steps; the sample externals use it with the length of the
text as fuel. -/
def replaceChars : Nat → List Char → List Char → List Char → List Char
  | 0, s, _, _ => s
  | _ + 1, [], _, _ => []
  | fuel + 1, c :: cs, target, replacement =>
    if target.isPrefixOf (c :: cs) then
      replacement ++ replaceChars fuel ((c :: cs).drop target.length) target replacement
    else c :: replaceChars fuel cs target replacement

/-- Sample externals used to evaluate the definitions on concrete inputs. -/
def sampleExternals : Externals where
  newLine := "\r\n"
  createGUID := fun seed => "\x7b" ++ seed ++ "\x7d"
  getName := fun t =>
    match t with
    | TargetType.SharedCodeTarget => "Shared Code"
    | TargetType.VSTPlugIn => "VST"
    | TargetType.StandalonePlugIn => "Standalone Plugin"
    | TargetType.GUIApp => "App"
    | _ => "Other"
  getChildFile := fun f p => ⟨f.fullPath ++ "\\" ++ p⟩
  withFileExtension := fun f ext => ⟨f.fullPath ++ ext⟩
  getFileName := fun f => f.fullPath
  getTargetFileType := fun t =>
    match t with
    | TargetType.GUIApp => TargetFileType.executable
    | TargetType.ConsoleApp => TargetFileType.executable
    | TargetType.StandalonePlugIn => TargetFileType.executable
    | TargetType.StaticLibrary => TargetFileType.staticLibrary
    | TargetType.SharedCodeTarget => TargetFileType.staticLibrary
    | TargetType.DynamicLibrary => TargetFileType.sharedLibraryOrDLL
    | TargetType.AudioUnitv3PlugIn => TargetFileType.macOSAppex
    | TargetType.AggregateTarget => TargetFileType.unknown
    | TargetType.unspecified => TargetFileType.unknown
    | _ => TargetFileType.pluginBundle
  getAllPreprocessorDefs := fun _ _ => ⟨[("JUCE_APP_VERSION", "1.0.0")]⟩
  relativeChildFile := fun p c => ⟨p.path ++ "/" ++ c, p.root⟩
  rebaseFromProjectFolderToBuildTarget := fun p =>
    ⟨"../../" ++ p.path, RootFolder.buildTargetFolder⟩
  toWindowsStyle := fun p => String.mk (p.path.data.map (fun c => if c = '/' then '\\' else c))
  addEscapeChars := fun s => s
  quoted := fun s => "\"" ++ s ++ "\""
  createLegalFileName := fun s => s
  trim := fun s => s
  pngEncode := fun image => [137, 80, 78, 71, image.width % 256, image.height % 256]
  getTargetTypeFromFilePath := fun f =>
    if "VST/".data.isPrefixOf f.fullPath.data then TargetType.VSTPlugIn
    else TargetType.SharedCodeTarget
  relativePathTo := fun f _ => "../../" ++ f.fullPath
  hasFileExtension := fun p extensions =>
    (List.splitOn ';' extensions.data).contains
      (p.path.data.reverse.takeWhile (fun c => c != '.')).reverse
  cOrCppFileExtensions := "cpp;cc;cxx;c"
  asmFileExtensions := "s;S;asm"
  headerFileExtensions := "h;hpp;hxx;hh;inl"
  objCFileExtensions := "mm;m"
  sourceFileExtensions := "cpp;mm;m;c;cc;cxx;swift;s;asm;r"
  getFileNameWithoutExtension := fun p =>
    let name := (p.path.data.reverse.takeWhile (fun c => c != '/')).reverse
    String.mk (if name.contains '.' then
      ((name.reverse.dropWhile (fun c => c != '.')).drop 1).reverse else name)
  startsWithIgnoreCase := fun s other =>
    (other.data.map Char.toLower).isPrefixOf (s.data.map Char.toLower)
  getCleanedStringArray := fun array => (array.filter (fun s => decide (s ≠ ""))).dedup
  replacePreprocessorTokens := fun _ text => text
  getPathForModuleString := fun _ => "../../modules"
  fileIsAbsolutePath := fun path => path.data.head? == some '/' || path.data.head? == some '\\'
  isAbsolutePath := fun path =>
    path.data.head? == some '/' || path.data.head? == some '\\'
      || path.data.head? == some '$'
  windowsStylePath := fun path =>
    String.mk (path.data.map (fun c => if c = '/' then '\\' else c))
  relativePathIsAbsolute := fun p => p.path.data.head? == some '/'
  rebased := fun p _ _ root => ⟨"../../" ++ p.path, root⟩
  existsAsFile := fun _ => false
  replace := fun s target replacement =>
    if target = "" then s
    else String.mk (replaceChars s.data.length s.data target.data replacement.data)
  getBestIconForSize := fun size _ =>
    if size = 16 then ⟨16, 16, fun _ _ => ⟨10, 20, 30, 255⟩⟩ else ⟨0, 0, fun _ _ => ⟨0, 0, 0, 0⟩⟩
  imageIsValid := fun image => decide (0 < image.width ∧ 0 < image.height)
  overwriteThrows := fun _ _ => false
  fileExists := fun f => decide (f.fullPath ≠ "")
  getJuceCodeGroupName := "JUCE Library Code"
  containsNonWhitespaceChars := fun s => s.data.any (fun c => !c.isWhitespace)

/-- A plug-in project with a shared-code target, a VST wrapper and a stand-alone wrapper, in
two configurations. -/
def samplePluginExporter : MSVCProjectExporterBase where
  projectName := "Synth"
  projectUIDString := "uid"
  projectFilenameRootString := "Synth"
  targetFolder := ⟨"Builds"⟩
  targets :=
    [ (⟨TargetType.SharedCodeTarget, "\x7bS\x7d"⟩ : MSVCTargetBase),
      ⟨TargetType.VSTPlugIn, "\x7bV\x7d"⟩,
      ⟨TargetType.StandalonePlugIn, "\x7bA\x7d"⟩ ]
  configs := [ { name := "Debug", isDebug := true }, { name := "Release" } ]

/-- An exporter whose base defines set `A` to `1`, and externals whose project and module
defines set `A` to `2`. -/
def sampleDefinesExporter : MSVCProjectExporterBase where
  projectName := "Tool"
  msvcExtraPreprocessorDefs := ⟨[("A", "1")]⟩

def sampleDefinesExternals : Externals :=
  { sampleExternals with getAllPreprocessorDefs := fun _ _ => ⟨[("A", "2")]⟩ }

/-- An application project with a single target. -/
def sampleAppExporter : MSVCProjectExporterBase where
  projectName := "Tool"
  projectUIDString := "uid"
  projectFilenameRootString := "Tool"
  targetFolder := ⟨"Builds"⟩
  targets := [ (⟨TargetType.GUIApp, "\x7bG\x7d"⟩ : MSVCTargetBase) ]
  configs := [ { name := "Debug", isDebug := true } ]

/-- An AAX target, its exporter with an AAX SDK path, and externals whose project and user
defines set `JucePlugin_AAXLibs_path` themselves. -/
def sampleAAXTarget : MSVCTargetBase := ⟨TargetType.AAXPlugIn, "\x7bX\x7d"⟩

def sampleAAXExporter : MSVCProjectExporterBase where
  projectName := "Synth"
  aaxPathValue := "sdk"

def sampleUserDefinesExternals : Externals :=
  { sampleExternals with
    getAllPreprocessorDefs := fun _ _ => ⟨[("JucePlugin_AAXLibs_path", "user")]⟩ }

/-! ## Libraries to link -/

/-- The position of the last occurrence of the non-empty text `sub` in `s`. -/
def lastIndexOfChars : List Char → List Char → Option Nat
  | [], _ => none
  | c :: cs, sub =>
    match lastIndexOfChars cs sub with
    | some i => some (i + 1)
    | none => if sub.isPrefixOf (c :: cs) then some 0 else none

/-- Modelled from the spec: the JUCE core method `String::upToLastOccurrenceOf (sub,
includeSubString, false)`, which the header calls and does not define. It gives the part of
the string that ends at the last occurrence of `sub`, and the whole string when `sub` does
not occur; this is what makes the `Filter` text of a file "the matching virtual-folder path"
of the folder that holds it. The header only calls it without ignoring case. -/
def upToLastOccurrenceOf (s sub : String) (includeSubString : Bool) : String :=
  match lastIndexOfChars s.data sub.data with
  | none => s
  | some i => String.mk (s.data.take (if includeSubString then i + sub.data.length else i))

/-- The method `String::containsChar (character)`. -/
def containsChar (s : String) (character : Char) : Bool := s.data.contains character

/-- The method `MSVCBuildConfiguration::getOutputFilename (suffix, forceSuffix)`. -/
def MSVCBuildConfiguration.getOutputFilename (x : Externals) (config : MSVCBuildConfiguration)
    (suffix : String) (forceSuffix : Bool) : String :=
  let target := x.createLegalFileName (x.trim config.targetBinaryNameString)
  if forceSuffix || !(containsChar target '.') then
    upToLastOccurrenceOf target "." false ++ suffix
  else target

/-- The method `MSVCTargetBase::getTargetSuffix()`. -/
def getTargetSuffix (x : Externals) (t : MSVCTargetBase) : String :=
  let fileType := x.getTargetFileType t.type
  match fileType with
  | TargetFileType.executable => ".exe"
  | TargetFileType.staticLibrary => ".lib"
  | TargetFileType.sharedLibraryOrDLL => ".dll"
  | TargetFileType.pluginBundle =>
    match t.type with
    | TargetType.VST3PlugIn => ".vst3"
    | TargetType.AAXPlugIn => ".aaxdll"
    | TargetType.RTASPlugIn => ".dpm"
    | _ => ".dll"
  | _ => ""

/-- The method `MSVCTargetBase::getBinaryNameWithSuffix (config)`. -/
def getBinaryNameWithSuffix (x : Externals) (t : MSVCTargetBase)
    (config : MSVCBuildConfiguration) : String :=
  config.getOutputFilename x (getTargetSuffix x t) true

/-- The method `getSharedCodeTarget()`: the first shared-code target, if there is one. -/
def getSharedCodeTarget : List MSVCTargetBase → Option MSVCTargetBase
  | [] => none
  | target :: rest =>
    if target.type = TargetType.SharedCodeTarget then some target
    else getSharedCodeTarget rest

/-- The method `getModuleLibs()`. -/
def getModuleLibs (e : MSVCProjectExporterBase) : List String :=
  e.windowsLibs.foldl (fun result lib => result ++ [lib ++ ".lib"]) []

/-- The method `MSVCTargetBase::getExternalLibraries (config, otherLibs)`. -/
def getExternalLibraries (x : Externals) (e : MSVCProjectExporterBase) (t : MSVCTargetBase)
    (config : MSVCBuildConfiguration) (otherLibs : String) : String :=
  let libraries : List String := []
  let libraries := if isNotEmpty otherLibs then libraries ++ [otherLibs] else libraries
  let moduleLibs := getModuleLibs e
  let libraries := if !moduleLibs.isEmpty then libraries ++ moduleLibs else libraries
  let libraries :=
    if t.type ≠ TargetType.SharedCodeTarget then
      match getSharedCodeTarget e.targets with
      | some shared => libraries ++ [getBinaryNameWithSuffix x shared config]
      | none => libraries
    else libraries
  joinIntoString libraries ";"

/-- A plug-in exporter with two module libraries. -/
def sampleLibsExporter : MSVCProjectExporterBase :=
  { samplePluginExporter with windowsLibs := ["ws2_32", "version"] }


/-! ## The icon container

A `MemoryOutputStream` is the list of the bytes written so far, each a number below 256. The
values written here are never negative; a value that does not fit its field is cut to the
low bytes, as the `(char)`, `(short)` and `(int)` conversions of the source do. -/

/-- The method `OutputStream::writeByte (value)`. -/
def writeByte (out : List Nat) (value : Nat) : List Nat := out ++ [value % 256]

/-- The method `OutputStream::writeShort (value)`: two bytes, low byte first. -/
def writeShort (out : List Nat) (value : Nat) : List Nat :=
  out ++ [value % 256, value / 256 % 256]

/-- The method `OutputStream::writeInt (value)`: four bytes, low byte first. -/
def writeInt (out : List Nat) (value : Nat) : List Nat :=
  out ++ [value % 256, value / 256 % 256, value / 65536 % 256, value / 16777216 % 256]

/-- The function `writeBMPImage (image, w, h, out)`. The constant `4294967292` is `~3` as a
32-bit `int`. -/
def writeBMPImage (image : Image) (w h : Nat) (out : List Nat) : List Nat :=
  let maskStride := (w / 8 + 3) &&& 4294967292
  let out := writeInt out 40
  let out := writeInt out w
  let out := writeInt out (h * 2)
  let out := writeShort out 1
  let out := writeShort out 32
  let out := writeInt out 0
  let out := writeInt out ((h * w * 4) + (h * maskStride))
  let out := writeInt out 0
  let out := writeInt out 0
  let out := writeInt out 0
  let out := writeInt out 0
  let alphaThreshold := 5
  let out := (List.range h).reverse.foldl
    (fun out y =>
      (List.range w).foldl
        (fun out x =>
          let pixel := image.getPixelColour x y
          if pixel.alpha.toNat ≤ alphaThreshold then writeInt out 0
          else
            let out := writeByte out pixel.blue.toNat
            let out := writeByte out pixel.green.toNat
            let out := writeByte out pixel.red.toNat
            writeByte out pixel.alpha.toNat)
        out)
    out
  (List.range h).reverse.foldl
    (fun out y =>
      let state := (List.range w).foldl
        (fun (state : Nat × Nat × List Nat) x =>
          let mask := state.1
          let count := state.2.1
          let out := state.2.2
          let pixel := image.getPixelColour x y
          let mask := mask <<< 1
          let mask := if pixel.alpha.toNat ≤ alphaThreshold then mask ||| 1 else mask
          let count := count + 1
          if count = 8 then (0, 0, writeByte out mask) else (mask, count, out))
        (0, 0, out)
      let mask := state.1
      let out := state.2.2
      let out := if mask ≠ 0 then writeByte out mask else out
      (List.range (maskStride - w / 8)).foldl (fun out _ => writeByte out 0) out)
    out

/-- The function `writeIconFile (images, out)`. The result holds the stream and the truth
value of the condition of `jassert (out.getPosition() == dataBlockStart)`, where the position
is the number of bytes in the stream. -/
def writeIconFile (x : Externals) (images : List Image) (out : List Nat) : List Nat × Bool :=
  let out := writeShort out 0
  let out := writeShort out 1
  let out := writeShort out images.length
  let dataBlock : List Nat := []
  let imageDirEntrySize := 16
  let dataBlockStart := 6 + images.length * imageDirEntrySize
  let state := images.foldl
    (fun (state : List Nat × List Nat) image =>
      let out := state.1
      let dataBlock := state.2
      let oldDataSize := dataBlock.length
      let w := image.width
      let h := image.height
      let dataBlock :=
        if w ≥ 256 ∨ h ≥ 256 then dataBlock ++ x.pngEncode image
        else writeBMPImage image w h dataBlock
      let out := writeByte out w
      let out := writeByte out h
      let out := writeByte out 0
      let out := writeByte out 0
      let out := writeShort out 1
      let out := writeShort out 32
      let out := writeInt out (dataBlock.length - oldDataSize)
      let out := writeInt out (dataBlockStart + oldDataSize)
      (out, dataBlock))
    (out, dataBlock)
  let out := state.1
  let dataBlock := state.2
  (out ++ dataBlock, decide (out.length = dataBlockStart))

/-- The number that four bytes of the stream, from position `pos` on, hold as a 32-bit field
(low byte first). -/
def readInt (bytes : List Nat) (pos : Nat) : Nat :=
  bytes.getD pos 0 + 256 * bytes.getD (pos + 1) 0 + 65536 * bytes.getD (pos + 2) 0
    + 16777216 * bytes.getD (pos + 3) 0

/-- The encoded block of one image: PNG for an image 256 pixels wide or high or more, the
bitmap of `writeBMPImage` otherwise. -/
def iconBlock (x : Externals) (image : Image) : List Nat :=
  if image.width ≥ 256 ∨ image.height ≥ 256 then x.pngEncode image
  else writeBMPImage image image.width image.height []

/-- The 16 bytes of a directory entry for an image whose block has `length` bytes and whose
offset field is `offset`. -/
def iconDirEntry (image : Image) (length offset : Nat) : List Nat :=
  [image.width % 256, image.height % 256, 0, 0, 1, 0, 32, 0,
    length % 256, length / 256 % 256, length / 65536 % 256, length / 16777216 % 256,
    offset % 256, offset / 256 % 256, offset / 65536 % 256, offset / 16777216 % 256]

/-- The directory entries of a list of images when the blocks written before them take
`oldDataSize` bytes and the block region starts at `dataBlockStart`. -/
def iconDirectory (x : Externals) (dataBlockStart : Nat) : Nat → List Image → List (List Nat)
  | _, [] => []
  | oldDataSize, image :: rest =>
    iconDirEntry image (iconBlock x image).length (dataBlockStart + oldDataSize)
      :: iconDirectory x dataBlockStart (oldDataSize + (iconBlock x image).length) rest

/-- An opaque pixel and a transparent one. -/
def opaquePixel : Colour := ⟨10, 20, 30, 255⟩

def clearPixel : Colour := ⟨10, 20, 30, 0⟩

/-- An 8 by 1 image whose pixels are all opaque except the one at `x = 2`. -/
def sampleImage8 : Image where
  width := 8
  height := 1
  getPixelColour := fun x _ => if x = 2 then clearPixel else opaquePixel


/-- The row stride `(w / 8 + 3) & ~3` that `writeBMPImage` computes for the mask plane. -/
def maskStride (w : Nat) : Nat := (w / 8 + 3) &&& 4294967292

/-- The 40 bytes of the bitmap header that `writeBMPImage` writes first. -/
def bmpHeader (w h : Nat) : List Nat :=
  [40, 0, 0, 0,
    w % 256, w / 256 % 256, w / 65536 % 256, w / 16777216 % 256,
    h * 2 % 256, h * 2 / 256 % 256, h * 2 / 65536 % 256, h * 2 / 16777216 % 256,
    1, 0, 32, 0, 0, 0, 0, 0,
    (h * w * 4 + h * maskStride w) % 256, (h * w * 4 + h * maskStride w) / 256 % 256,
    (h * w * 4 + h * maskStride w) / 65536 % 256,
    (h * w * 4 + h * maskStride w) / 16777216 % 256,
    0, 0, 0, 0, 0, 0, 0, 0, 0, 0, 0, 0, 0, 0, 0, 0]

/-- The four colour-plane bytes of a pixel: zero for a pixel whose alpha is at most 5, and
blue, green, red, alpha otherwise. -/
def pixelBytes (pixel : Colour) : List Nat :=
  if pixel.alpha.toNat ≤ 5 then [0, 0, 0, 0]
  else [pixel.blue.toNat, pixel.green.toNat, pixel.red.toNat, pixel.alpha.toNat]

/-- The colour plane of the bitmap: the rows from the last to the first, each with the
bytes of its pixels from left to right. -/
def colourPlane (image : Image) (w h : Nat) : List Nat :=
  (List.range h).reverse.flatMap
    (fun y => (List.range w).flatMap (fun x => pixelBytes (image.getPixelColour x y)))

/-- One step of the mask loop of `writeBMPImage` over the pixels of row `y`: the state is
the mask being built, the number of its bits and the stream. -/
def maskStep (image : Image) (y : Nat) (state : Nat × Nat × List Nat) (x : Nat) :
    Nat × Nat × List Nat :=
  let mask := state.1 <<< 1
  let mask := if (image.getPixelColour x y).alpha.toNat ≤ 5 then mask ||| 1 else mask
  let count := state.2.1 + 1
  if count = 8 then (0, 0, writeByte state.2.2 mask) else (mask, count, state.2.2)

/-- The bytes that `writeBMPImage` writes for the mask of row `y`: the bytes completed by
the mask loop, one more byte when the unfinished mask is not zero, and the padding. -/
def maskRow (image : Image) (w y : Nat) : List Nat :=
  let state := (List.range w).foldl (maskStep image y) (0, 0, [])
  state.2.2 ++ (if state.1 ≠ 0 then [state.1 % 256] else [])
    ++ List.replicate (maskStride w - w / 8) 0

/-- The mask plane of the bitmap: the mask rows from the last row to the first. -/
def maskPlane (image : Image) (w h : Nat) : List Nat :=
  (List.range h).reverse.flatMap (maskRow image w)


/-- Whether `writeBMPImage` treats the pixel at `(x, y)` as transparent: its alpha is at
most the threshold 5. -/
def isTransparent (image : Image) (x y : Nat) : Bool :=
  decide ((image.getPixelColour x y).alpha.toNat ≤ 5)

/-- The mask of the mask loop after one more pixel: shifted left by one bit, with the low bit
set for a transparent pixel. -/
def pushBit (mask : Nat) (transparent : Bool) : Nat :=
  if transparent then mask <<< 1 ||| 1 else mask <<< 1

/-- The mask byte that the mask loop completes for the pixels `8 * g` to `8 * g + 7` of
row `y`. -/
def maskByte (image : Image) (y g : Nat) : Nat :=
  ([8 * g, 8 * g + 1, 8 * g + 2, 8 * g + 3, 8 * g + 4, 8 * g + 5, 8 * g + 6, 8 * g + 7].foldl
    (fun mask x => pushBit mask (isTransparent image x y)) 0) % 256

/-- A 9 by 1 image whose last pixel is transparent, and the same image without a
transparent pixel. -/
def sampleImage9 : Image where
  width := 9
  height := 1
  getPixelColour := fun x _ => if x = 8 then clearPixel else opaquePixel

def sampleImage9Opaque : Image where
  width := 9
  height := 1
  getPixelColour := fun _ _ => opaquePixel

/-- An 8 by 1 image whose only pixel that is not fully opaque, at `x = 2`, has alpha 5. -/
def sampleImageAlpha5 : Image where
  width := 8
  height := 1
  getPixelColour := fun x _ => if x = 2 then ⟨10, 20, 30, 5⟩ else opaquePixel


/-! ## The files of the project -/

/-- A file of the project tree as the two file loops read it: the values of `getName()`,
`getFile()`, `shouldBeAddedToTargetProject()` and `shouldBeCompiled()`. -/
structure FileItem where
  name : String
  file : File
  shouldBeAddedToTargetProject : Bool := true
  shouldBeCompiled : Bool := true
  deriving DecidableEq, Repr

/-- A `Project::Item`: a group with its name and its children, or a file. -/
inductive Item where
  | group (name : String) (children : List Item)
  | file (item : FileItem)

/-- The method `Project::Item::getName()`. -/
def Item.getName : Item → String
  | Item.group name _ => name
  | Item.file item => item.name

/-- The children of the four elements that the file loops fill: the compiled sources, the
headers, the other files and, in the filter document, the folder declarations. -/
structure FileLists where
  cpps : List XmlElement := []
  headers : List XmlElement := []
  otherFiles : List XmlElement := []
  groups : List XmlElement := []

/-- The method `XmlElement::createNewChildElement (tagName)` followed by the changes made to
the new child: the finished child stands after the other children. -/
def XmlElement.addChildElement : XmlElement → XmlElement → XmlElement
  | XmlElement.element tagName attributes children, child =>
    XmlElement.element tagName attributes (children ++ [child])
  | XmlElement.text s, _ => XmlElement.text s

/-- The function `shouldUseStdCall (path)`. -/
def shouldUseStdCall (x : Externals) (path : RelativePath) : Bool :=
  x.startsWithIgnoreCase (x.getFileNameWithoutExtension path) "juce_audio_plugin_client_RTAS_"

/-- The local constant `targetType` of `addFilesToCompile` and of `addFilesToFilter`: the
type of the target in an audio plug-in project, the shared-code type in any other. -/
def fileTargetType (e : MSVCProjectExporterBase) (t : MSVCTargetBase) : TargetType :=
  if e.projectType.isAudioPlugin then t.type else TargetType.SharedCodeTarget

/-- The local `RelativePath (projectItem.getFile(), getOwner().getTargetFolder(),
RelativePath::buildTargetFolder)` of both file loops. Its root is `buildTargetFolder` by
construction, which is what the `jassert` after it checks. -/
def fileRelativePath (x : Externals) (e : MSVCProjectExporterBase) (projectItem : FileItem) :
    RelativePath :=
  ⟨x.relativePathTo projectItem.file e.targetFolder, RootFolder.buildTargetFolder⟩

/-- The `ClCompile` element that `addFilesToCompile` creates for a source file. -/
def addFilesToCompile_clCompile (x : Externals) (path : RelativePath)
    (shouldBeCompiled : Bool) : XmlElement :=
  let e := (XmlElement.element "ClCompile" [] []).setAttribute "Include" (x.toWindowsStyle path)
  let e := if shouldUseStdCall x path then
      e.addChildElement (XmlElement.element "CallingConvention" [] [XmlElement.text "StdCall"])
    else e
  if !shouldBeCompiled then
    e.addChildElement (XmlElement.element "ExcludedFromBuild" [] [XmlElement.text "true"])
  else e

/-- The branch of `MSVCTargetBase::addFilesToCompile` for an item that is not a group. -/
def addFilesToCompile_file (x : Externals) (e : MSVCProjectExporterBase) (t : MSVCTargetBase)
    (projectItem : FileItem) (lists : FileLists) : FileLists :=
  let targetType := fileTargetType e t
  if projectItem.shouldBeAddedToTargetProject
      && decide (x.getTargetTypeFromFilePath projectItem.file = targetType) then
    let path := fileRelativePath x e projectItem
    if x.hasFileExtension path x.cOrCppFileExtensions
        || x.hasFileExtension path x.asmFileExtensions then
      if decide (targetType = TargetType.SharedCodeTarget) || projectItem.shouldBeCompiled then
        { lists with
          cpps := lists.cpps
            ++ [addFilesToCompile_clCompile x path projectItem.shouldBeCompiled] }
      else lists
    else if x.hasFileExtension path x.headerFileExtensions then
      { lists with
        headers := lists.headers
          ++ [(XmlElement.element "ClInclude" [] []).setAttribute "Include"
                (x.toWindowsStyle path)] }
    else if !x.hasFileExtension path x.objCFileExtensions then
      { lists with
        otherFiles := lists.otherFiles
          ++ [(XmlElement.element "None" [] []).setAttribute "Include"
                (x.toWindowsStyle path)] }
    else lists
  else lists

mutual
/-- The method `MSVCTargetBase::addFilesToCompile (projectItem, cpps, headers, otherFiles)`. -/
def addFilesToCompile (x : Externals) (e : MSVCProjectExporterBase) (t : MSVCTargetBase) :
    Item → FileLists → FileLists
  | Item.group _ children, lists => addFilesToCompile_children x e t children lists
  | Item.file projectItem, lists => addFilesToCompile_file x e t projectItem lists
/-- The loop of `addFilesToCompile` over the children of a group. -/
def addFilesToCompile_children (x : Externals) (e : MSVCProjectExporterBase)
    (t : MSVCTargetBase) : List Item → FileLists → FileLists
  | [], lists => lists
  | child :: rest, lists =>
    addFilesToCompile_children x e t rest (addFilesToCompile x e t child lists)
end

/-- The method `MSVCTargetBase::addFilterGroup (groups, path)`. -/
def addFilterGroup (x : Externals) (groups : List XmlElement) (path : String) :
    List XmlElement :=
  groups ++ [((XmlElement.element "Filter" [] []).setAttribute "Include" path).addChildElement
    (XmlElement.element "UniqueIdentifier" []
      [XmlElement.text (x.createGUID (path ++ "_guidpathsaltxhsdf"))])]

/-- The method `MSVCTargetBase::addFileToFilter (file, groupPath, cpps, headers,
otherFiles)`. -/
def addFileToFilter (x : Externals) (file : RelativePath) (groupPath : String)
    (lists : FileLists) : FileLists :=
  let finish := fun (e : XmlElement) =>
    (e.setAttribute "Include" (x.toWindowsStyle file)).addChildElement
      (XmlElement.element "Filter" [] [XmlElement.text groupPath])
  if x.hasFileExtension file x.headerFileExtensions then
    { lists with headers := lists.headers ++ [finish (XmlElement.element "ClInclude" [] [])] }
  else if x.hasFileExtension file x.sourceFileExtensions then
    { lists with cpps := lists.cpps ++ [finish (XmlElement.element "ClCompile" [] [])] }
  else
    { lists with otherFiles := lists.otherFiles ++ [finish (XmlElement.element "None" [] [])] }

/-- The branch of `MSVCTargetBase::addFilesToFilter` for an item that is not a group. -/
def addFilesToFilter_file (x : Externals) (e : MSVCProjectExporterBase) (t : MSVCTargetBase)
    (projectItem : FileItem) (path : String) (lists : FileLists) : Bool × FileLists :=
  let targetType := fileTargetType e t
  if projectItem.shouldBeAddedToTargetProject then
    let relativePath := fileRelativePath x e projectItem
    if decide (x.getTargetTypeFromFilePath projectItem.file = targetType)
        && (decide (targetType = TargetType.SharedCodeTarget)
            || projectItem.shouldBeCompiled) then
      (true, addFileToFilter x relativePath (upToLastOccurrenceOf path "\\" false) lists)
    else (false, lists)
  else (false, lists)

/-- The path that `addFilesToFilter` passes on for a child of the group at `path`. -/
def addFilesToFilter_childPath (path childName : String) : String :=
  (if isEmpty path then "" else path ++ "\\") ++ childName

mutual
/-- The method `MSVCTargetBase::addFilesToFilter (projectItem, path, cpps, headers,
otherFiles, groups)`: the value it returns and the lists it leaves. -/
def addFilesToFilter (x : Externals) (e : MSVCProjectExporterBase) (t : MSVCTargetBase) :
    Item → String → FileLists → Bool × FileLists
  | Item.group _ children, path, lists =>
    let r := addFilesToFilter_children x e t children path lists false
    if r.1 then (true, { r.2 with groups := addFilterGroup x r.2.groups path })
    else (false, r.2)
  | Item.file projectItem, path, lists => addFilesToFilter_file x e t projectItem path lists
/-- The loop of `addFilesToFilter` over the children of a group, with the local flag
`filesWereAdded`. -/
def addFilesToFilter_children (x : Externals) (e : MSVCProjectExporterBase)
    (t : MSVCTargetBase) : List Item → String → FileLists → Bool → Bool × FileLists
  | [], _, lists, filesWereAdded => (filesWereAdded, lists)
  | child :: rest, path, lists, filesWereAdded =>
    let r := addFilesToFilter x e t child (addFilesToFilter_childPath path child.getName) lists
    addFilesToFilter_children x e t rest path r.2 (if r.1 then true else filesWereAdded)
end

/-- The overload `MSVCTargetBase::addFilesToFilter (files, path, cpps, headers, otherFiles,
groups)` for a list of relative paths: the value it returns and the lists it leaves. -/
def addFilesToFilter_paths (x : Externals) (files : List RelativePath) (path : String)
    (lists : FileLists) : Bool × FileLists :=
  if files.length > 0 then
    (true, files.foldl (fun lists file => addFileToFilter x file path lists)
      { lists with groups := addFilterGroup x lists.groups path })
  else (false, lists)

/-! ## Closed forms of the file loops -/

mutual
/-- The files in the subtree of an item, in the order in which the loops visit them. -/
def Item.files : Item → List FileItem
  | Item.group _ children => Item.filesOfList children
  | Item.file item => [item]
/-- The files in the subtrees of the items of a list, in the order of the visit. -/
def Item.filesOfList : List Item → List FileItem
  | [] => []
  | child :: rest => child.files ++ Item.filesOfList rest
end

mutual
/-- The files in the subtree of an item visited by `addFilesToFilter` with the path `path`,
each with the path that the visit passes for it. -/
def Item.filterFiles : Item → String → List (FileItem × String)
  | Item.group _ children, path => Item.filterFilesOfList children path
  | Item.file item, path => [(item, path)]
/-- The files below the children of the group at `path`, each with its own path. -/
def Item.filterFilesOfList : List Item → String → List (FileItem × String)
  | [], _ => []
  | child :: rest, path =>
    child.filterFiles (addFilesToFilter_childPath path child.getName)
      ++ Item.filterFilesOfList rest path
end

mutual
/-- The files in the subtree of an item that stands in the group at `parent`, each with the
path of the group that directly contains it. -/
def Item.filesWithGroup : Item → String → List (FileItem × String)
  | Item.group name children, parent =>
    Item.filesWithGroupOfList children (addFilesToFilter_childPath parent name)
  | Item.file item, parent => [(item, parent)]
/-- The files below the children of the group at `path`, each with the path of the group
that directly contains it. -/
def Item.filesWithGroupOfList : List Item → String → List (FileItem × String)
  | [], _ => []
  | child :: rest, path => child.filesWithGroup path ++ Item.filesWithGroupOfList rest path
end

/-- The list of the project document into which `addFilesToCompile` puts a file, by the tag
of the entry it creates there; `none` when it puts the file in no list. -/
def compileSection (x : Externals) (e : MSVCProjectExporterBase) (t : MSVCTargetBase)
    (f : FileItem) : Option String :=
  if f.shouldBeAddedToTargetProject
      && decide (x.getTargetTypeFromFilePath f.file = fileTargetType e t) then
    if x.hasFileExtension (fileRelativePath x e f) x.cOrCppFileExtensions
        || x.hasFileExtension (fileRelativePath x e f) x.asmFileExtensions then
      if decide (fileTargetType e t = TargetType.SharedCodeTarget) || f.shouldBeCompiled then
        some "ClCompile"
      else none
    else if x.hasFileExtension (fileRelativePath x e f) x.headerFileExtensions then
      some "ClInclude"
    else if !x.hasFileExtension (fileRelativePath x e f) x.objCFileExtensions then
      some "None"
    else none
  else none

/-- The `Include` path of the entries of a file: `path.toWindowsStyle()`. -/
def includePath (x : Externals) (e : MSVCProjectExporterBase) (f : FileItem) : String :=
  x.toWindowsStyle (fileRelativePath x e f)

/-- The two children that a `ClCompile` entry of the project document can have. -/
def clCompileChildren (x : Externals) (e : MSVCProjectExporterBase) (f : FileItem) :
    List XmlElement :=
  (if shouldUseStdCall x (fileRelativePath x e f) then
      [XmlElement.element "CallingConvention" [] [XmlElement.text "StdCall"]] else [])
    ++ (if f.shouldBeCompiled then []
        else [XmlElement.element "ExcludedFromBuild" [] [XmlElement.text "true"]])

/-- The entry of a file in the project document, in the list with the given tag. -/
def compileEntry (x : Externals) (e : MSVCProjectExporterBase) (tag : String) (f : FileItem) :
    XmlElement :=
  XmlElement.element tag [("Include", includePath x e f)]
    (if tag = "ClCompile" then clCompileChildren x e f else [])

/-- The files of a list whose section, as given by `section`, carries the tag `tag`. -/
def routedTo {α : Type} (files : List α) (sectionOf : α → Option String) (tag : String) :
    List α :=
  files.filter (fun f => decide (sectionOf f = some tag))

/-- The lists of the project document after the entries of the given files are appended. -/
def appendCompileEntries (x : Externals) (e : MSVCProjectExporterBase) (t : MSVCTargetBase)
    (lists : FileLists) (files : List FileItem) : FileLists :=
  { cpps := lists.cpps
      ++ (routedTo files (compileSection x e t) "ClCompile").map (compileEntry x e "ClCompile")
    headers := lists.headers
      ++ (routedTo files (compileSection x e t) "ClInclude").map (compileEntry x e "ClInclude")
    otherFiles := lists.otherFiles
      ++ (routedTo files (compileSection x e t) "None").map (compileEntry x e "None")
    groups := lists.groups }

/-- The list of the filter document into which `addFilesToFilter` puts a file, by the tag of
the entry it creates there; `none` when it does not add the file. -/
def filterSection (x : Externals) (e : MSVCProjectExporterBase) (t : MSVCTargetBase)
    (f : FileItem) : Option String :=
  if f.shouldBeAddedToTargetProject
      && (decide (x.getTargetTypeFromFilePath f.file = fileTargetType e t)
          && (decide (fileTargetType e t = TargetType.SharedCodeTarget)
              || f.shouldBeCompiled)) then
    if x.hasFileExtension (fileRelativePath x e f) x.headerFileExtensions then some "ClInclude"
    else if x.hasFileExtension (fileRelativePath x e f) x.sourceFileExtensions then
      some "ClCompile"
    else some "None"
  else none

/-- The entry of a file in the filter document, in the list with the given tag, with the
text of its `Filter` child. -/
def filterEntry (x : Externals) (e : MSVCProjectExporterBase) (tag : String) (f : FileItem)
    (filterText : String) : XmlElement :=
  XmlElement.element tag [("Include", includePath x e f)]
    [XmlElement.element "Filter" [] [XmlElement.text filterText]]

/-- The `Filter` declaration of the folder `path`. -/
def filterDeclaration (x : Externals) (path : String) : XmlElement :=
  XmlElement.element "Filter" [("Include", path)]
    [XmlElement.element "UniqueIdentifier" []
      [XmlElement.text (x.createGUID (path ++ "_guidpathsaltxhsdf"))]]

/-- Whether at least one of the files is added to the filter document. -/
def anyAddedToFilter (x : Externals) (e : MSVCProjectExporterBase) (t : MSVCTargetBase)
    (files : List FileItem) : Bool :=
  files.any (fun f => (filterSection x e t f).isSome)

mutual
/-- The `Filter` declarations of the groups in the subtree of an item visited with the path
`path`: those of the groups below it first, its own last, each one present when a file of
the subtree of its group is added. -/
def Item.filterGroups (x : Externals) (e : MSVCProjectExporterBase) (t : MSVCTargetBase) :
    Item → String → List XmlElement
  | Item.group _ children, path =>
    Item.filterGroupsOfList x e t children path
      ++ (if anyAddedToFilter x e t (Item.filesOfList children) then
            [filterDeclaration x path] else [])
  | Item.file _, _ => []
/-- The `Filter` declarations of the groups below the children of the group at `path`. -/
def Item.filterGroupsOfList (x : Externals) (e : MSVCProjectExporterBase)
    (t : MSVCTargetBase) : List Item → String → List XmlElement
  | [], _ => []
  | child :: rest, path =>
    child.filterGroups x e t (addFilesToFilter_childPath path child.getName)
      ++ Item.filterGroupsOfList x e t rest path
end

/-- The lists of the filter document after the entries of the given files, each with the
text of its `Filter` child, and the given declarations are appended. -/
def appendFilterEntries (x : Externals) (e : MSVCProjectExporterBase) (t : MSVCTargetBase)
    (lists : FileLists) (files : List (FileItem × String)) (declarations : List XmlElement) :
    FileLists :=
  { cpps := lists.cpps
      ++ (routedTo files (fun p => filterSection x e t p.1) "ClCompile").map
          (fun p => filterEntry x e "ClCompile" p.1 p.2)
    headers := lists.headers
      ++ (routedTo files (fun p => filterSection x e t p.1) "ClInclude").map
          (fun p => filterEntry x e "ClInclude" p.1 p.2)
    otherFiles := lists.otherFiles
      ++ (routedTo files (fun p => filterSection x e t p.1) "None").map
          (fun p => filterEntry x e "None" p.1 p.2)
    groups := lists.groups ++ declarations }

/-- The text of the `Filter` child of a file visited with the path `path`. -/
def filterText (p : FileItem × String) : FileItem × String :=
  (p.1, upToLastOccurrenceOf p.2 "\\" false)

/-- The `Include` attributes of the entries of the three file lists. -/
def FileLists.includes (lists : FileLists) : List (Option String) :=
  (lists.cpps ++ lists.headers ++ lists.otherFiles).map (fun e => e.getAttribute "Include")

/-- A plug-in project and its VST target. -/
def samplePluginProject : MSVCProjectExporterBase :=
  { samplePluginExporter with projectType := { isAudioPlugin := true } }

def sampleVSTTarget : MSVCTargetBase := ⟨TargetType.VSTPlugIn, "\x7bV\x7d"⟩

def sampleSharedTarget : MSVCTargetBase := ⟨TargetType.SharedCodeTarget, "\x7bS\x7d"⟩

/-- A header of the VST wrapper that is not compiled. -/
def sampleWrapperHeader : FileItem :=
  { name := "Extra.h", file := ⟨"VST/Extra.h"⟩, shouldBeCompiled := false }

/-- A source file of the VST wrapper that is not compiled. -/
def sampleWrapperSource : FileItem :=
  { name := "Unused.cpp", file := ⟨"VST/Unused.cpp"⟩, shouldBeCompiled := false }

/-- An Objective-C++ file of the shared code. -/
def sampleObjCFile : FileItem :=
  { name := "Mac.mm", file := ⟨"Source/Mac.mm"⟩ }

/-- A project tree with shared sources, wrapper files, a text file and an empty group. -/
def sampleTree : Item :=
  Item.group "Synth"
    [ Item.group "Source"
        [ Item.file { name := "Main.cpp", file := ⟨"Source/Main.cpp"⟩ },
          Item.file { name := "Main.h", file := ⟨"Source/Main.h"⟩ },
          Item.file { name := "juce_audio_plugin_client_RTAS_1.cpp",
                      file := ⟨"Source/juce_audio_plugin_client_RTAS_1.cpp"⟩,
                      shouldBeCompiled := false },
          Item.file sampleObjCFile ],
      Item.group "VST"
        [ Item.file { name := "Wrapper.cpp", file := ⟨"VST/Wrapper.cpp"⟩ },
          Item.file sampleWrapperHeader,
          Item.file sampleWrapperSource ],
      Item.file { name := "Notes.txt", file := ⟨"Notes.txt"⟩ },
      Item.group "Empty" [] ]

/-! ## Paths and settings of a configuration -/

/-- The method `String::endsWithChar (character)`. -/
def endsWithChar (s : String) (character : Char) : Bool :=
  s.data.getLast? == some character

/-- The method `String::startsWithChar (character)`. -/
def startsWithChar (s : String) (character : Char) : Bool :=
  s.data.head? == some character

/-- The enumerator `optimisationOff` of `OptimisationLevel`. -/
def optimisationOff : Int := 1
/-- The enumerator `optimiseMinSize` of `OptimisationLevel`. -/
def optimiseMinSize : Int := 2
/-- The enumerator `optimiseFull` of `OptimisationLevel`. -/
def optimiseFull : Int := 3
/-- The enumerator `optimiseMaxSpeed` of `OptimisationLevel`. -/
def optimiseMaxSpeed : Int := 4

/-- The function `MSVCTargetBase::getOptimisationLevelString (level)`. -/
def getOptimisationLevelString (level : Int) : String :=
  if level = optimiseMinSize then "MinSpace"
  else if level = optimiseMaxSpeed then "MaxSpeed"
  else if level = optimiseFull then "Full"
  else "Disabled"

/-- The method `MSVCProjectExporterBase::hasTarget (type)`. -/
def hasTarget : List MSVCTargetBase → TargetType → Bool
  | [], _ => false
  | target :: rest, type => if target.type = type then true else hasTarget rest type

/-- The method `MSVCTargetBase::shouldUseRuntimeDLL (config)`. -/
def shouldUseRuntimeDLL (e : MSVCProjectExporterBase) (config : MSVCBuildConfiguration) :
    Bool :=
  if config.useRuntimeLibDLLIsVoid then
    hasTarget e.targets TargetType.AAXPlugIn || hasTarget e.targets TargetType.RTASPlugIn
  else config.isUsingRuntimeLibDLL

/-- The function `prependDot (filename)`. -/
def prependDot (x : Externals) (filename : String) : String :=
  if x.isAbsolutePath filename then filename else ".\\" ++ filename

/-- The function `MSVCProjectExporterBase::prependIfNotAbsolute (file, prefix)`. -/
def prependIfNotAbsolute (x : Externals) (file pre : String) : String :=
  let pre := if x.fileIsAbsolutePath file || startsWithChar file '$' then "" else pre
  pre ++ x.windowsStylePath file

/-- The method `MSVCProjectExporterBase::getIntDirFile (config, file)`. -/
def getIntDirFile (x : Externals) (config : MSVCBuildConfiguration) (file : String) : String :=
  prependIfNotAbsolute x (x.replacePreprocessorTokens config file) "$(IntDir)\\"

/-- The method `MSVCProjectExporterBase::getOutDirFile (config, file)`. -/
def getOutDirFile (x : Externals) (config : MSVCBuildConfiguration) (file : String) : String :=
  prependIfNotAbsolute x (x.replacePreprocessorTokens config file) "$(OutDir)\\"

/-- The method `MSVCTargetBase::getSolutionTargetPath (config)`. -/
def getSolutionTargetPath (x : Externals) (e : MSVCProjectExporterBase)
    (config : MSVCBuildConfiguration) : String :=
  let binaryPath := x.trim config.targetBinaryRelativePathString
  if isEmpty binaryPath then "$(SolutionDir)$(Platform)\\$(Configuration)"
  else
    let binaryRelPath : RelativePath := ⟨binaryPath, RootFolder.projectFolder⟩
    if x.relativePathIsAbsolute binaryRelPath then x.toWindowsStyle binaryRelPath
    else prependDot x (x.toWindowsStyle
      (x.rebased binaryRelPath e.projectFolder e.targetFolder RootFolder.buildTargetFolder))

/-- The method `MSVCTargetBase::getConfigTargetPath (config)`. -/
def getConfigTargetPath (x : Externals) (e : MSVCProjectExporterBase) (t : MSVCTargetBase)
    (config : MSVCBuildConfiguration) : String :=
  let solutionTargetFolder := getSolutionTargetPath x e config
  solutionTargetFolder ++ "\\" ++ x.getName t.type

/-- The method `MSVCTargetBase::getIntermediatesPath (config)`. -/
def getIntermediatesPath (x : Externals) (t : MSVCTargetBase)
    (config : MSVCBuildConfiguration) : String :=
  let intDir := if isNotEmpty config.intermediatesPathString then
      config.intermediatesPathString else "$(Platform)\\$(Configuration)"
  let intDir := if !endsWithChar intDir '\\' then intDir.push '\\' else intDir
  intDir ++ x.getName t.type

/-- The method `MSVCTargetBase::getOutputFilePath (config)`. -/
def getOutputFilePath (x : Externals) (t : MSVCTargetBase) (config : MSVCBuildConfiguration) :
    String :=
  getOutDirFile x config (getBinaryNameWithSuffix x t config)

/-- The method `MSVCTargetBase::getLibrarySearchPaths (config)`. -/
def getLibrarySearchPaths (x : Externals) (e : MSVCProjectExporterBase) (t : MSVCTargetBase)
    (config : MSVCBuildConfiguration) : List String :=
  let librarySearchPaths := config.librarySearchPaths
  if t.type ≠ TargetType.SharedCodeTarget then
    match getSharedCodeTarget e.targets with
    | some shared => librarySearchPaths ++ [getConfigTargetPath x e shared config]
    | none => librarySearchPaths
  else librarySearchPaths

/-- The method `MSVCProjectExporterBase::getHeaderSearchPaths (config)`. -/
def getHeaderSearchPaths (x : Externals) (e : MSVCProjectExporterBase)
    (config : MSVCBuildConfiguration) : List String :=
  let searchPaths := e.extraSearchPaths
  let searchPaths := searchPaths ++ config.headerSearchPaths
  x.getCleanedStringArray searchPaths

/-- The table `p` of `getExtraSearchPaths`. -/
def getExtraSearchPaths_p : List String :=
  [ "AlturaPorts/TDMPlugins/PluginLibrary/EffectClasses",
    "AlturaPorts/TDMPlugins/PluginLibrary/ProcessClasses",
    "AlturaPorts/TDMPlugins/PluginLibrary/ProcessClasses/Interfaces",
    "AlturaPorts/TDMPlugins/PluginLibrary/Utilities",
    "AlturaPorts/TDMPlugins/PluginLibrary/RTASP_Adapt",
    "AlturaPorts/TDMPlugins/PluginLibrary/CoreClasses",
    "AlturaPorts/TDMPlugins/PluginLibrary/Controls",
    "AlturaPorts/TDMPlugins/PluginLibrary/Meters",
    "AlturaPorts/TDMPlugins/PluginLibrary/ViewClasses",
    "AlturaPorts/TDMPlugins/PluginLibrary/DSPClasses",
    "AlturaPorts/TDMPlugins/PluginLibrary/Interfaces",
    "AlturaPorts/TDMPlugins/common",
    "AlturaPorts/TDMPlugins/common/Platform",
    "AlturaPorts/TDMPlugins/common/Macros",
    "AlturaPorts/TDMPlugins/SignalProcessing/Public",
    "AlturaPorts/TDMPlugIns/DSPManager/Interfaces",
    "AlturaPorts/SADriver/Interfaces",
    "AlturaPorts/DigiPublic/Interfaces",
    "AlturaPorts/DigiPublic",
    "AlturaPorts/Fic/Interfaces/DAEClient",
    "AlturaPorts/NewFileLibs/Cmn",
    "AlturaPorts/NewFileLibs/DOA",
    "AlturaPorts/AlturaSource/PPC_H",
    "AlturaPorts/AlturaSource/AppSupport",
    "AvidCode/AVX2sdk/AVX/avx2/avx2sdk/inc",
    "xplat/AVX/avx2/avx2sdk/inc" ]

/-- The method `MSVCTargetBase::getExtraSearchPaths()`. -/
def getExtraSearchPaths (x : Externals) (e : MSVCProjectExporterBase) (t : MSVCTargetBase) :
    List String :=
  if t.type = TargetType.RTASPlugIn then
    let rtasFolder : RelativePath := ⟨e.rtasPathValue, RootFolder.projectFolder⟩
    getExtraSearchPaths_p.foldl
      (fun searchPaths path =>
        searchPaths ++ [createRebasedPath x e (x.relativeChildFile rtasFolder path)]) []
  else []

/-- The method `MSVCTargetBase::getDelayLoadedDLLs()`. -/
def getDelayLoadedDLLs (e : MSVCProjectExporterBase) (t : MSVCTargetBase) : String :=
  let delayLoadedDLLs := e.msvcDelayLoadedDLLs
  if t.type = TargetType.RTASPlugIn then
    delayLoadedDLLs ++ ("DAE.dll; DigiExt.dll; DSI.dll; PluginLib.dll; "
      ++ "DSPManager.dll; DSPManager.dll; DSPManagerClientLib.dll; RTASClientLib.dll")
  else delayLoadedDLLs

/-- The method `MSVCTargetBase::getModuleDefinitions (config)`. -/
def getModuleDefinitions (x : Externals) (e : MSVCProjectExporterBase) (t : MSVCTargetBase)
    (config : MSVCBuildConfiguration) : String :=
  let moduleDefinitions := config.msvcModuleDefinitionFile
  if isNotEmpty moduleDefinitions then moduleDefinitions
  else if t.type = TargetType.RTASPlugIn then
    let moduleDefPath :=
      x.relativeChildFile (x.relativeChildFile (x.relativeChildFile
        ⟨x.getPathForModuleString "juce_audio_plugin_client", RootFolder.projectFolder⟩
        "juce_audio_plugin_client") "RTAS") "juce_RTAS_WinExports.def"
    prependDot x (x.toWindowsStyle
      (x.rebased moduleDefPath e.getProjectFolder e.targetFolder RootFolder.buildTargetFolder))
  else ""

/-! ## Build steps -/

/-- The method `MSVCTargetBase::getAAXIconFile()`. -/
def getAAXIconFile (x : Externals) (e : MSVCProjectExporterBase) : RelativePath :=
  let aaxSDK : RelativePath := ⟨e.aaxPathValue, RootFolder.projectFolder⟩
  let projectIcon : RelativePath := ⟨"icon.ico", RootFolder.buildTargetFolder⟩
  if x.existsAsFile (x.getChildFile e.targetFolder "icon.ico") then
    x.rebased projectIcon e.targetFolder e.getProjectFolder RootFolder.projectFolder
  else x.relativeChildFile (x.relativeChildFile aaxSDK "Utilities") "PlugIn.ico"

/-- The local `pkgScript` of `getExtraPostBuildSteps` for an AAX target. -/
def getExtraPostBuildSteps_pkgScript (x : Externals) (e : MSVCProjectExporterBase)
    (t : MSVCTargetBase) (config : MSVCBuildConfiguration) : String :=
  let aaxSDK : RelativePath := ⟨e.aaxPathValue, RootFolder.projectFolder⟩
  let bundleScript := x.relativeChildFile (x.relativeChildFile aaxSDK "Utilities")
    "CreatePackage.bat"
  let iconFilePath := getAAXIconFile x e
  let is64Bit := decide (config.winArchitectureSetting = "x64")
  let outputFilename := config.getOutputFilename x ".aaxplugin" true
  let bundleDir := getOutDirFile x config outputFilename
  let bundleContents := bundleDir ++ "\\Contents"
  let macOSDir := bundleContents ++ "\\" ++ (if is64Bit then "x64" else "Win32")
  let executable := macOSDir ++ "\\" ++ outputFilename
  "copy /Y " ++ x.quoted (getOutputFilePath x t config) ++ " " ++ x.quoted executable
    ++ "\r\ncall " ++ createRebasedPath x e bundleScript ++ " " ++ x.quoted macOSDir ++ " "
    ++ createRebasedPath x e iconFilePath

/-- The method `MSVCTargetBase::getExtraPostBuildSteps (config)`. -/
def getExtraPostBuildSteps (x : Externals) (e : MSVCProjectExporterBase) (t : MSVCTargetBase)
    (config : MSVCBuildConfiguration) : String :=
  if t.type = TargetType.AAXPlugIn then
    let outputFilename := config.getOutputFilename x ".aaxplugin" true
    let bundleDir := getOutDirFile x config outputFilename
    let pkgScript := getExtraPostBuildSteps_pkgScript x e t config
    if config.isPluginBinaryCopyStepEnabled then
      pkgScript ++ "\r\n" ++ "xcopy " ++ x.quoted bundleDir ++ " "
        ++ x.quoted (config.aaxBinaryLocationString ++ "\\" ++ outputFilename ++ "\\")
        ++ " /E /Y /H /K"
    else pkgScript
  else if config.isPluginBinaryCopyStepEnabled then
    let copyScript := "copy /Y \"$(OutDir)$(TargetFileName)\"" ++ " \"$COPYDIR$\\$(TargetFileName)\""
    if t.type = TargetType.VSTPlugIn then
      x.replace copyScript "$COPYDIR$" config.vstBinaryLocationString
    else if t.type = TargetType.VST3PlugIn then
      x.replace copyScript "$COPYDIR$" config.vst3BinaryLocationString
    else if t.type = TargetType.RTASPlugIn then
      x.replace copyScript "$COPYDIR$" config.rtasBinaryLocationString
    else ""
  else ""

/-- The method `MSVCTargetBase::getExtraPreBuildSteps (config)`. -/
def getExtraPreBuildSteps (x : Externals) (t : MSVCTargetBase)
    (config : MSVCBuildConfiguration) : String :=
  if t.type = TargetType.AAXPlugIn then
    let script := ""
    let is64Bit := decide (config.winArchitectureSetting = "x64")
    let bundleDir := getOutDirFile x config (config.getOutputFilename x ".aaxplugin" false)
    let bundleContents := bundleDir ++ "\\Contents"
    let macOSDir := bundleContents ++ "\\" ++ (if is64Bit then "x64" else "Win32")
    [bundleDir, bundleContents, macOSDir].foldl
      (fun script folder =>
        script ++ ("if not exist \"" ++ folder ++ "\" mkdir \"" ++ folder ++ "\"\r\n"))
      script
  else ""

/-- The method `MSVCTargetBase::getPostBuildSteps (config)`. -/
def getPostBuildSteps (x : Externals) (e : MSVCProjectExporterBase) (t : MSVCTargetBase)
    (config : MSVCBuildConfiguration) : String :=
  let postBuild := config.postbuildCommandString
  let extraPostBuild := getExtraPostBuildSteps x e t config
  postBuild ++ (if isNotEmpty postBuild && isNotEmpty extraPostBuild then "\r\n" else "")
    ++ extraPostBuild

/-- The method `MSVCTargetBase::getPreBuildSteps (config)`. -/
def getPreBuildSteps (x : Externals) (t : MSVCTargetBase) (config : MSVCBuildConfiguration) :
    String :=
  let preBuild := config.prebuildCommandString
  let extraPreBuild := getExtraPreBuildSteps x t config
  preBuild ++ (if isNotEmpty preBuild && isNotEmpty extraPreBuild then "\r\n" else "")
    ++ extraPreBuild

/-! ## The blocks of a configuration in the project document -/

/-- The method `XmlElement::getChildByName (name)`: the first child element with the tag
`name`. -/
def XmlElement.getChildByName : XmlElement → String → Option XmlElement
  | XmlElement.element _ _ children, name =>
    children.find? (fun child =>
      match child with
      | XmlElement.element n _ _ => decide (n = name)
      | XmlElement.text _ => false)
  | XmlElement.text _, _ => none

/-- Whether an element carries the tag `name`. -/
def XmlElement.hasTagName : XmlElement → String → Bool
  | XmlElement.element n _ _, name => decide (n = name)
  | XmlElement.text _, _ => false

/-- The elements that one pass of the configuration loop of the second `PropertyGroup` of
`MSVCTargetBase::fillInProjectXml` creates: `OutDir`, `IntDir`, `TargetName`,
`GenerateManifest` and `LibraryPath`. -/
def fillInProjectXml_configProperties (x : Externals) (e : MSVCProjectExporterBase)
    (t : MSVCTargetBase) (config : MSVCBuildConfiguration) : List XmlElement :=
  (if isNotEmpty (getConfigTargetPath x e t config) then
      [setConditionAttribute
        (XmlElement.element "OutDir" []
          [XmlElement.text (x.windowsStylePath (getConfigTargetPath x e t config) ++ "\\")])
        config]
    else [])
  ++ [ setConditionAttribute
        (XmlElement.element "IntDir" []
          [XmlElement.text
            (let intermediatesPath := getIntermediatesPath x t config
             let intermediatesPath :=
               if !endsWithChar intermediatesPath '\\' then intermediatesPath.push '\\'
               else intermediatesPath
             x.windowsStylePath intermediatesPath)])
        config,
       setConditionAttribute
        (XmlElement.element "TargetName" []
          [XmlElement.text (config.getOutputFilename x "" false)])
        config,
       setConditionAttribute
        (XmlElement.element "GenerateManifest" []
          [XmlElement.text (if config.shouldGenerateManifest then "true" else "false")])
        config ]
  ++ (let librarySearchPaths := getLibrarySearchPaths x e t config
      if librarySearchPaths.length > 0 then
        [setConditionAttribute
          (XmlElement.element "LibraryPath" []
            [XmlElement.text ("$(LibraryPath);" ++ joinIntoString librarySearchPaths ";")])
          config]
      else [])

/-- The second `PropertyGroup` of `MSVCTargetBase::fillInProjectXml`. -/
def fillInProjectXml_properties (x : Externals) (e : MSVCProjectExporterBase)
    (t : MSVCTargetBase) : XmlElement :=
  XmlElement.element "PropertyGroup" []
    ([ XmlElement.element "_ProjectFileVersion" [] [XmlElement.text "10.0.30319.1"],
       XmlElement.element "TargetExt" [] [XmlElement.text (getTargetSuffix x t)] ]
      ++ e.configs.flatMap (fillInProjectXml_configProperties x e t))

/-- The `ClCompile` element that `MSVCTargetBase::fillInProjectXml` creates in the
`ItemDefinitionGroup` of a configuration. -/
def fillInProjectXml_clCompile (x : Externals) (e : MSVCProjectExporterBase)
    (t : MSVCTargetBase) (config : MSVCBuildConfiguration) : XmlElement :=
  let isDebug := config.isDebug
  let includePaths := getHeaderSearchPaths x e config
  let includePaths := includePaths ++ getExtraSearchPaths x e t
  let includePaths := includePaths ++ ["%(AdditionalIncludeDirectories)"]
  let runtimeDLL := shouldUseRuntimeDLL e config
  let extraFlags := x.trim (x.replacePreprocessorTokens config e.extraCompilerFlagsString)
  XmlElement.element "ClCompile" []
    ([ XmlElement.element "Optimization" []
        [XmlElement.text (getOptimisationLevelString config.optimisationLevelInt)] ]
      ++ (if isDebug || config.shouldGenerateDebugSymbols then
            [XmlElement.element "DebugInformationFormat" []
              [XmlElement.text config.debugInformationFormatString]]
          else [])
      ++ [ XmlElement.element "AdditionalIncludeDirectories" []
            [XmlElement.text (joinIntoString includePaths ";")],
           XmlElement.element "PreprocessorDefinitions" []
            [XmlElement.text (getPreprocessorDefs x e t config ";"
              ++ ";%(PreprocessorDefinitions)")],
           XmlElement.element "RuntimeLibrary" []
            [XmlElement.text
              (if runtimeDLL then
                (if isDebug then "MultiThreadedDebugDLL" else "MultiThreadedDLL")
               else (if isDebug then "MultiThreadedDebug" else "MultiThreaded"))],
           XmlElement.element "RuntimeTypeInfo" [] [XmlElement.text "true"],
           XmlElement.element "PrecompiledHeader" [] [],
           XmlElement.element "AssemblerListingLocation" [] [XmlElement.text "$(IntDir)\\"],
           XmlElement.element "ObjectFileName" [] [XmlElement.text "$(IntDir)\\"],
           XmlElement.element "ProgramDataBaseFileName" [] [XmlElement.text "$(IntDir)\\"],
           XmlElement.element "WarningLevel" []
            [XmlElement.text ("Level" ++ toString config.warningLevel)],
           XmlElement.element "SuppressStartupBanner" [] [XmlElement.text "true"],
           XmlElement.element "MultiProcessorCompilation" [] [XmlElement.text "true"] ]
      ++ (if config.isFastMathEnabled then
            [XmlElement.element "FloatingPointModel" [] [XmlElement.text "Fast"]]
          else [])
      ++ (if isNotEmpty extraFlags then
            [XmlElement.element "AdditionalOptions" []
              [XmlElement.text (extraFlags ++ " %(AdditionalOptions)")]]
          else [])
      ++ (if config.areWarningsTreatedAsErrors then
            [XmlElement.element "TreatWarningAsError" [] [XmlElement.text "true"]]
          else [])
      ++ [fillInProjectXml_languageStandard e])

/-- The `Link` element that `MSVCTargetBase::fillInProjectXml` creates in the
`ItemDefinitionGroup` of a configuration. The local `isUsingEditAndContinue` is always
`false`, so `ImageHasSafeExceptionHandlers` is never created. -/
def fillInProjectXml_link (x : Externals) (e : MSVCProjectExporterBase)
    (t : MSVCTargetBase) (config : MSVCBuildConfiguration) : XmlElement :=
  let isDebug := config.isDebug
  let externalLibraries := getExternalLibraries x e t config e.externalLibrariesString
  let additionalDependencies :=
    if isNotEmpty externalLibraries then
      x.trim (x.replacePreprocessorTokens config externalLibraries)
        ++ ";%(AdditionalDependencies)"
    else ""
  let librarySearchPaths := config.librarySearchPaths
  let additionalLibraryDirs :=
    if librarySearchPaths.length > 0 then
      x.replacePreprocessorTokens config (joinIntoString librarySearchPaths ";")
        ++ ";%(AdditionalLibraryDirectories)"
    else ""
  let extraLinkerOptions := e.extraLinkerFlagsString
  let delayLoadedDLLs := getDelayLoadedDLLs e t
  let moduleDefinitionsFile := getModuleDefinitions x e t config
  XmlElement.element "Link" []
    ([ XmlElement.element "OutputFile" [] [XmlElement.text (getOutputFilePath x t config)],
       XmlElement.element "SuppressStartupBanner" [] [XmlElement.text "true"],
       XmlElement.element "IgnoreSpecificDefaultLibraries" []
        [XmlElement.text
          (if isDebug then "libcmt.lib; msvcrt.lib;;%(IgnoreSpecificDefaultLibraries)"
           else "%(IgnoreSpecificDefaultLibraries)")],
       XmlElement.element "GenerateDebugInformation" []
        [XmlElement.text
          (if isDebug || config.shouldGenerateDebugSymbols then "true" else "false")],
       XmlElement.element "ProgramDatabaseFile" []
        [XmlElement.text (getIntDirFile x config (config.getOutputFilename x ".pdb" true))],
       XmlElement.element "SubSystem" []
        [XmlElement.text
          (if t.type = TargetType.ConsoleApp then "Console" else "Windows")] ]
      ++ (if !config.is64Bit then
            [XmlElement.element "TargetMachine" [] [XmlElement.text "MachineX86"]]
          else [])
      ++ (if !isDebug then
            [ XmlElement.element "OptimizeReferences" [] [XmlElement.text "true"],
              XmlElement.element "EnableCOMDATFolding" [] [XmlElement.text "true"] ]
          else [])
      ++ (if isNotEmpty additionalLibraryDirs then
            [XmlElement.element "AdditionalLibraryDirectories" []
              [XmlElement.text additionalLibraryDirs]]
          else [])
      ++ [XmlElement.element "LargeAddressAware" [] [XmlElement.text "true"]]
      ++ (if isNotEmpty additionalDependencies then
            [XmlElement.element "AdditionalDependencies" []
              [XmlElement.text additionalDependencies]]
          else [])
      ++ (if isNotEmpty extraLinkerOptions then
            [XmlElement.element "AdditionalOptions" []
              [XmlElement.text
                (x.trim (x.replacePreprocessorTokens config extraLinkerOptions)
                  ++ " %(AdditionalOptions)")]]
          else [])
      ++ (if isNotEmpty delayLoadedDLLs then
            [XmlElement.element "DelayLoadDLLs" [] [XmlElement.text delayLoadedDLLs]]
          else [])
      ++ (if isNotEmpty moduleDefinitionsFile then
            [XmlElement.element "ModuleDefinitionFile" []
              [XmlElement.text moduleDefinitionsFile]]
          else []))

/-! ## Closed forms and samples for the blocks of a configuration -/

/-- The names of a `;`-separated list of DLL names, without the blanks that lead them. -/
def delayLoadNames (s : String) : List String :=
  (List.splitOn ';' s.data).map (fun name => String.mk (name.dropWhile (fun c => c = ' ')))

/-- The names that `getDelayLoadedDLLs` appends for an RTAS target, in the order of the
text. -/
def rtasDelayLoadedDLLs : List String :=
  [ "DAE.dll", "DigiExt.dll", "DSI.dll", "PluginLib.dll", "DSPManager.dll", "DSPManager.dll",
    "DSPManagerClientLib.dll", "RTASClientLib.dll" ]

/-- The text of the `IntDir` element of a configuration before `windowsStylePath`. -/
def intDirPath (x : Externals) (t : MSVCTargetBase) (config : MSVCBuildConfiguration) :
    String :=
  if endsWithChar (getIntermediatesPath x t config) '\\' then getIntermediatesPath x t config
  else getIntermediatesPath x t config ++ "\\"

/-- The template of the copy command of `getExtraPostBuildSteps`. -/
def copyScriptTemplate : String :=
  "copy /Y \"$(OutDir)$(TargetFileName)\" \"$COPYDIR$\\$(TargetFileName)\""

/-- The `xcopy` line that `getExtraPostBuildSteps` adds for an AAX target when the copy
step is enabled. -/
def aaxCopyLine (x : Externals) (config : MSVCBuildConfiguration) : String :=
  "xcopy " ++ x.quoted (getOutDirFile x config (config.getOutputFilename x ".aaxplugin" true))
    ++ " "
    ++ x.quoted (config.aaxBinaryLocationString ++ "\\"
        ++ config.getOutputFilename x ".aaxplugin" true ++ "\\")
    ++ " /E /Y /H /K"

/-- An RTAS target. -/
def sampleRTASTarget : MSVCTargetBase := ⟨TargetType.RTASPlugIn, "\x7bR\x7d"⟩

/-- A plug-in exporter whose target list holds the shared code and an RTAS wrapper. -/
def sampleRTASExporter : MSVCProjectExporterBase :=
  { samplePluginExporter with
    targets := [⟨TargetType.SharedCodeTarget, "\x7bS\x7d"⟩, sampleRTASTarget]
    rtasPathValue := "sdk/rtas" }

/-- A debug configuration with a binary name, a copy step and a library search path. -/
def sampleDebugConfig : MSVCBuildConfiguration :=
  { name := "Debug", isDebug := true, targetBinaryNameString := "Synth"
    isPluginBinaryCopyStepEnabled := true, vstBinaryLocationString := "C:\\VST"
    librarySearchPaths := ["libs"], headerSearchPaths := ["include"]
    postbuildCommandString := "echo done" }

/-- A release configuration with its own intermediates path and runtime setting. -/
def sampleReleaseConfig : MSVCBuildConfiguration :=
  { name := "Release", targetBinaryNameString := "Synth", intermediatesPathString := "obj\\"
    useRuntimeLibDLLIsVoid := false, isUsingRuntimeLibDLL := false
    optimisationLevelInt := 3 }

/-- The `LibraryPath` elements that one pass of the configuration loop of the second
`PropertyGroup` creates: one when the library search paths of the target are not empty. -/
def libraryPathElements (x : Externals) (e : MSVCProjectExporterBase) (t : MSVCTargetBase)
    (config : MSVCBuildConfiguration) : List XmlElement :=
  if getLibrarySearchPaths x e t config = [] then []
  else
    [setConditionAttribute
      (XmlElement.element "LibraryPath" []
        [XmlElement.text
          ("$(LibraryPath);" ++ joinIntoString (getLibrarySearchPaths x e t config) ";")])
      config]

/-- The children of an element; a text node has none. -/
def XmlElement.childElements : XmlElement → List XmlElement
  | XmlElement.element _ _ children => children
  | XmlElement.text _ => []

/-! ## Project type, module library folder and version number -/

/-- The method `MSVCTargetBase::getProjectType()`. -/
def getProjectType (x : Externals) (t : MSVCTargetBase) : String :=
  match x.getTargetFileType t.type with
  | TargetFileType.executable => "Application"
  | TargetFileType.staticLibrary => "StaticLibrary"
  | _ => "DynamicLibrary"

/-- The method `MSVCBuildConfiguration::getModuleLibraryArchName()`. -/
def MSVCBuildConfiguration.getModuleLibraryArchName (config : MSVCBuildConfiguration) :
    String :=
  let result := "$(Platform)\\"
  let result := result ++ (if config.isUsingRuntimeLibDLL then "MD" else "MT")
  if config.isDebug then result ++ "d" else result

/-- The method `String::contains (text)`. -/
def containsText (s text : String) : Bool := (lastIndexOfChars s.data text.data).isSome

/-- Modelled from the spec: the JUCE core method `StringArray::addTokens (text,
breakCharacters, "")`, which the header calls and does not define. The version string
"splits on ',' and '.'": the tokens are the pieces of the text between the break characters,
and an empty text has no token. -/
def addTokens (text breakCharacters : String) : List String :=
  if text = "" then []
  else (text.data.splitOnP (fun c => breakCharacters.data.contains c)).map String.mk

/-- The loop `while (versionParts.size() < 4) versionParts.add ("0")` of
`getCommaSeparatedVersionNumber`. -/
def getCommaSeparatedVersionNumber_pad (versionParts : List String) : List String :=
  if versionParts.length < 4 then getCommaSeparatedVersionNumber_pad (versionParts ++ ["0"])
  else versionParts
termination_by 4 - versionParts.length
decreasing_by simp_wf; omega

/-- The function `getCommaSeparatedVersionNumber (version)`. `StringArray::trim()` trims
every entry and `StringArray::removeEmptyStrings()` drops the entries that hold no
character other than white space. -/
def getCommaSeparatedVersionNumber (x : Externals) (version : String) : String :=
  let versionParts := addTokens version ",."
  let versionParts := versionParts.map x.trim
  let versionParts := versionParts.filter x.containsNonWhitespaceChars
  let versionParts := getCommaSeparatedVersionNumber_pad versionParts
  joinIntoString versionParts ","

/-- The version parts of a version string before the padding: the trimmed tokens that hold
a character other than white space. -/
def versionParts (x : Externals) (version : String) : List String :=
  ((addTokens version ",.").map x.trim).filter x.containsNonWhitespaceChars

/-- The bundle directory that the pre-build script of an AAX target creates. -/
def preBuildBundleDir (x : Externals) (config : MSVCBuildConfiguration) : String :=
  getOutDirFile x config (config.getOutputFilename x ".aaxplugin" false)

/-- The bundle directory into which the post-build script of an AAX target copies. -/
def postBuildBundleDir (x : Externals) (config : MSVCBuildConfiguration) : String :=
  getOutDirFile x config (config.getOutputFilename x ".aaxplugin" true)

/-- The architecture folder of the AAX bundle, from the architecture setting. -/
def bundleArchitecture (config : MSVCBuildConfiguration) : String :=
  if config.winArchitectureSetting = "x64" then "x64" else "Win32"

/-- A configuration whose binary name holds a dot. -/
def sampleDottedConfig : MSVCBuildConfiguration :=
  { name := "Release", targetBinaryNameString := "My.Plugin" }

/-- A configuration with the runtime setting not set, in a project without AAX or RTAS
target: `isUsingRuntimeLibDLL()` then gives `true`, the default that the constructor passes
to `useRuntimeLibDLLValue`. -/
def sampleUnsetRuntimeConfig : MSVCBuildConfiguration :=
  { name := "Release", useRuntimeLibDLLIsVoid := true, isUsingRuntimeLibDLL := true }

/-- One line of the pre-build script of an AAX target: it creates `folder` when it does not
exist. -/
def mkdirLine (folder : String) : String :=
  "if not exist \"" ++ folder ++ "\" mkdir \"" ++ folder ++ "\"\r\n"

/-- Whether a `RuntimeLibrary` token names a DLL runtime. -/
def isDLLRuntimeToken (token : String) : Bool :=
  decide (token = "MultiThreadedDebugDLL") || decide (token = "MultiThreadedDLL")

/-- Whether a `RuntimeLibrary` token names a debug runtime. -/
def isDebugRuntimeToken (token : String) : Bool :=
  decide (token = "MultiThreadedDebugDLL") || decide (token = "MultiThreadedDebug")

/-- The `RuntimeLibrary` token of the compile block of a configuration. -/
def runtimeLibraryToken (x : Externals) (e : MSVCProjectExporterBase) (t : MSVCTargetBase)
    (config : MSVCBuildConfiguration) : String :=
  ((fillInProjectXml_clCompile x e t config).getChildElementText "RuntimeLibrary").getD ""

/-- The colour bytes that `writeBMPImage` writes for row `y`: those of its pixels from left
to right. -/
def colourRow (image : Image) (w y : Nat) : List Nat :=
  (List.range w).flatMap (fun x => pixelBytes (image.getPixelColour x y))

/-- An 8 by 2 image whose row 0 is opaque and whose row 1 is transparent. -/
def sampleImage8x2 : Image where
  width := 8
  height := 2
  getPixelColour := fun _ y => if y = 0 then opaquePixel else clearPixel

/-- The number that two bytes of the stream, from position `pos` on, hold as a 16-bit field
(low byte first). -/
def readShort (bytes : List Nat) (pos : Nat) : Nat :=
  bytes.getD pos 0 + 256 * bytes.getD (pos + 1) 0

/-- The project-declaration lines of the solution text, in the order in which they are
written. -/
def declarationLines (x : Externals) (e : MSVCProjectExporterBase) : List String :=
  (emissionOrder e.targets).map (fun t => projectDeclaration x e t t.projectGuid)

/-- What follows the declaration line of a target in its block of the solution text: the
dependency sub-block, if any, and the `EndProject` line. -/
def projectBlockTail (x : Externals) (e : MSVCProjectExporterBase) (t : MSVCTargetBase) :
    String :=
  (if isNotEmpty (getSharedCodeGuid e.targets)
      && decide (t.type ≠ TargetType.SharedCodeTarget) then
    projectDependenciesSection x (getSharedCodeGuid e.targets) else "")
  ++ ("EndProject" ++ x.newLine)

/-! ## Resources and icon -/

/-- The method `hasResourceFile()`. -/
def hasResourceFile (e : MSVCProjectExporterBase) : Bool := !e.projectType.isStaticLibrary

/-- The function `writeRCValue (mo, name, value)`. -/
def writeRCValue (x : Externals) (mo name value : String) : String :=
  if isNotEmpty value then
    mo ++ "      VALUE \"" ++ name ++ "\",  \"" ++ x.addEscapeChars value ++ "\\0\""
      ++ x.newLine
  else mo

/-- A call of `overwriteFileIfDifferentOrThrow (file, stream)` that returned. -/
structure FileWrite where
  file : File
  data : StreamData
  deriving DecidableEq, Repr

/-- What `createResourcesAndIcon` can change: the mutable members `iconFile` and `rcFile`
of the exporter, the files handed to `overwriteFileIfDifferentOrThrow` so far, and whether
an exception has left the function. -/
structure ResourceState where
  iconFile : File := ⟨""⟩
  rcFile : File := ⟨""⟩
  written : List FileWrite := []
  thrown : Bool := false
  deriving DecidableEq, Repr

/-- The text that `createRCFile` builds in its stream `mo`, for the value that the member
`iconFile` has at that time. -/
def createRCFile_text (x : Externals) (e : MSVCProjectExporterBase) (iconFile : File) :
    String :=
  let version := e.versionString
  let mo := ""
  let mo := mo ++ "#ifdef JUCE_USER_DEFINED_RC_FILE" ++ x.newLine
    ++ " #include JUCE_USER_DEFINED_RC_FILE" ++ x.newLine
    ++ "#else" ++ x.newLine
    ++ x.newLine
    ++ "#undef  WIN32_LEAN_AND_MEAN" ++ x.newLine
    ++ "#define WIN32_LEAN_AND_MEAN" ++ x.newLine
    ++ "#include <windows.h>" ++ x.newLine
    ++ x.newLine
    ++ "VS_VERSION_INFO VERSIONINFO" ++ x.newLine
    ++ "FILEVERSION  " ++ getCommaSeparatedVersionNumber x version ++ x.newLine
    ++ "BEGIN" ++ x.newLine
    ++ "  BLOCK \"StringFileInfo\"" ++ x.newLine
    ++ "  BEGIN" ++ x.newLine
    ++ "    BLOCK \"040904E4\"" ++ x.newLine
    ++ "    BEGIN" ++ x.newLine
  let mo := writeRCValue x mo "CompanyName" e.companyNameString
  let mo := writeRCValue x mo "LegalCopyright" e.companyCopyrightString
  let mo := writeRCValue x mo "FileDescription" e.projectNameString
  let mo := writeRCValue x mo "FileVersion" version
  let mo := writeRCValue x mo "ProductName" e.projectNameString
  let mo := writeRCValue x mo "ProductVersion" version
  let mo := mo ++ "    END" ++ x.newLine
    ++ "  END" ++ x.newLine
    ++ x.newLine
    ++ "  BLOCK \"VarFileInfo\"" ++ x.newLine
    ++ "  BEGIN" ++ x.newLine
    ++ "    VALUE \"Translation\", 0x409, 1252" ++ x.newLine
    ++ "  END" ++ x.newLine
    ++ "END" ++ x.newLine
    ++ x.newLine
    ++ "#endif" ++ x.newLine
  if iconFile ≠ ⟨""⟩ then
    mo ++ x.newLine
      ++ "IDI_ICON1 ICON DISCARDABLE " ++ x.quoted (x.getFileName iconFile)
      ++ x.newLine
      ++ "IDI_ICON2 ICON DISCARDABLE " ++ x.quoted (x.getFileName iconFile)
  else mo

/-- The method `createRCFile()`. -/
def createRCFile (x : Externals) (e : MSVCProjectExporterBase) (s : ResourceState) :
    ResourceState :=
  let rcFile := x.getChildFile e.targetFolder "resources.rc"
  let mo := createRCFile_text x e s.iconFile
  if x.overwriteThrows rcFile (StreamData.text mo) then
    { s with rcFile := rcFile, thrown := true }
  else { s with rcFile := rcFile, written := s.written ++ [⟨rcFile, StreamData.text mo⟩] }

/-- The method `createResourcesAndIcon()`. -/
def createResourcesAndIcon (x : Externals) (e : MSVCProjectExporterBase) (s : ResourceState) :
    ResourceState :=
  if hasResourceFile e then
    let sizes := [16, 32, 48, 256]
    let images := sizes.foldl
      (fun (images : List Image) size =>
        let im := x.getBestIconForSize size true
        if x.imageIsValid im then images ++ [im] else images)
      []
    if images.length > 0 then
      let iconFile := x.getChildFile e.targetFolder "icon.ico"
      let mo := (writeIconFile x images []).1
      if x.overwriteThrows iconFile (StreamData.bytes mo) then
        { s with iconFile := iconFile, thrown := true }
      else
        createRCFile x e
          { s with
            iconFile := iconFile
            written := s.written ++ [⟨iconFile, StreamData.bytes mo⟩] }
    else createRCFile x e s
  else s

/-- The method `Project::Item::getNumChildren()`. -/
def Item.getNumChildren : Item → Nat
  | Item.group _ children => children.length
  | Item.file _ => 0

/-- The file lists that the loop of `fillInProjectXml` over `getAllGroups()` fills. -/
def fillInProjectXml_fileLists (x : Externals) (e : MSVCProjectExporterBase)
    (t : MSVCTargetBase) (allGroups : List Item) : FileLists :=
  allGroups.foldl
    (fun lists group =>
      if group.getNumChildren > 0 then addFilesToCompile x e t group lists else lists)
    {}

/-- The elements that `MSVCTargetBase::fillInProjectXml` adds to the project document after
the blocks of the configurations: the groups of the compiled sources, of the headers and,
when it is not empty, of the other files with the icon, the group of the resource file, and
the two import elements. -/
def fillInProjectXml_files (x : Externals) (e : MSVCProjectExporterBase) (t : MSVCTargetBase)
    (allGroups : List Item) : List XmlElement :=
  let lists := fillInProjectXml_fileLists x e t allGroups
  let otherFiles :=
    if e.iconFile ≠ ⟨""⟩ then
      lists.otherFiles
        ++ [(XmlElement.element "None" [] []).setAttribute "Include"
              (prependDot x (x.getFileName e.iconFile))]
    else lists.otherFiles
  [ XmlElement.element "ItemGroup" [] lists.cpps,
    XmlElement.element "ItemGroup" [] lists.headers ]
  ++ (if otherFiles.length > 0 then [XmlElement.element "ItemGroup" [] otherFiles] else [])
  ++ (if hasResourceFile e then
        [XmlElement.element "ItemGroup" []
          [(XmlElement.element "ResourceCompile" [] []).setAttribute "Include"
            (prependDot x (x.getFileName e.rcFile))]]
      else [])
  ++ [ (XmlElement.element "Import" [] []).setAttribute "Project"
          "$(VCTargetsPath)\\Microsoft.Cpp.targets",
       (XmlElement.element "ImportGroup" [] []).setAttribute "Label" "ExtensionTargets" ]

/-- The file lists that the loop of `fillInFiltersXml` over `getAllGroups()` fills. -/
def fillInFiltersXml_fileLists (x : Externals) (e : MSVCProjectExporterBase)
    (t : MSVCTargetBase) (allGroups : List Item) : FileLists :=
  allGroups.foldl
    (fun lists group =>
      if group.getNumChildren > 0 then (addFilesToFilter x e t group group.getName lists).2
      else lists)
    {}

/-- The elements that `MSVCTargetBase::fillInFiltersXml` adds to the filter document: the
groups of the folders, of the compiled sources, of the headers and, when it is not empty, of
the other files with the icon, and the group of the resource file. -/
def fillInFiltersXml_groups (x : Externals) (e : MSVCProjectExporterBase) (t : MSVCTargetBase)
    (allGroups : List Item) : List XmlElement :=
  let lists := fillInFiltersXml_fileLists x e t allGroups
  let otherFiles :=
    if x.fileExists e.iconFile then
      lists.otherFiles
        ++ [((XmlElement.element "None" [] []).setAttribute "Include"
              (prependDot x (x.getFileName e.iconFile))).addChildElement
              (XmlElement.element "Filter" [] [XmlElement.text x.getJuceCodeGroupName])]
    else lists.otherFiles
  [ XmlElement.element "ItemGroup" [] lists.groups,
    XmlElement.element "ItemGroup" [] lists.cpps,
    XmlElement.element "ItemGroup" [] lists.headers ]
  ++ (if otherFiles.length > 0 then [XmlElement.element "ItemGroup" [] otherFiles] else [])
  ++ (if hasResourceFile e then
        [XmlElement.element "ItemGroup" []
          [((XmlElement.element "ResourceCompile" [] []).setAttribute "Include"
              (prependDot x (x.getFileName e.rcFile))).addChildElement
              (XmlElement.element "Filter" [] [XmlElement.text x.getJuceCodeGroupName])]]
      else [])

/-- The method `MSVCTargetBase::fillInFiltersXml (filterXml)`, for an element `filterXml`
with the given attributes and children. -/
def fillInFiltersXml (x : Externals) (e : MSVCProjectExporterBase) (t : MSVCTargetBase)
    (allGroups : List Item) (tagName : String) (attributes : List (String × String))
    (children : List XmlElement) : XmlElement :=
  let filterXml := XmlElement.element tagName attributes children
  let filterXml := filterXml.setAttribute "ToolsVersion" e.toolsVersion
  let filterXml := filterXml.setAttribute "xmlns"
    "http://schemas.microsoft.com/developer/msbuild/2003"
  match filterXml with
  | XmlElement.element n a c =>
    XmlElement.element n a (c ++ fillInFiltersXml_groups x e t allGroups)
  | XmlElement.text s => XmlElement.text s

/-- The items of a list of groups that are `ResourceCompile` items. -/
def resourceCompileItems (elements : List XmlElement) : List XmlElement :=
  (elements.flatMap XmlElement.childElements).filter (fun el => el.hasTagName "ResourceCompile")

/-- The icons that `createResourcesAndIcon` collects: the valid ones among the best icons
for the sizes 16, 32, 48 and 256. -/
def validIcons (x : Externals) : List Image :=
  ([16, 32, 48, 256].map (fun size => x.getBestIconForSize size true)).filter x.imageIsValid

/-- A static library project and an application project with their resource files set. -/
def sampleStaticLibExporter : MSVCProjectExporterBase :=
  { sampleAppExporter with projectType := { isStaticLibrary := true } }

def sampleResourceExporter : MSVCProjectExporterBase :=
  { sampleAppExporter with iconFile := ⟨"Builds\\icon.ico"⟩, rcFile := ⟨"Builds\\resources.rc"⟩ }

/-! ## Lemmas on loops that append to a stream -/

theorem concatBlocks_append (l₁ l₂ : List String) :
    concatBlocks (l₁ ++ l₂) = concatBlocks l₁ ++ concatBlocks l₂ := by
  induction l₁ with
  | nil => simp [concatBlocks]
  | cons s l ih => simp [concatBlocks, ih, String.append_assoc]

theorem foldl_cond_append {α : Type} (p : α → Bool) (blk : α → String) (l : List α)
    (out : String) :
    l.foldl (fun out a => if p a then out ++ blk a else out) out
      = out ++ concatBlocks ((l.filter p).map blk) := by
  induction l generalizing out with
  | nil => simp [concatBlocks]
  | cons a l ih =>
    simp only [List.foldl_cons, ih]
    by_cases h : p a
    · simp [h, List.filter_cons, concatBlocks, String.append_assoc]
    · simp [h, List.filter_cons]

theorem foldl_append_blocks {α : Type} (blk : α → String) (l : List α) (out : String) :
    l.foldl (fun out a => out ++ blk a) out = out ++ concatBlocks (l.map blk) := by
  induction l generalizing out with
  | nil => simp [concatBlocks]
  | cons a l ih => simp [List.foldl_cons, ih, concatBlocks, String.append_assoc]

theorem isNotEmpty_eq_true {s : String} : isNotEmpty s = true ↔ s ≠ "" := by
  simp [isNotEmpty]

theorem isEmpty_eq_true {s : String} : isEmpty s = true ↔ s = "" := by
  simp [isEmpty]

/-! ## The project declarations of the solution file -/

theorem writeProjectDependencies_pass (x : Externals) (e : MSVCProjectExporterBase)
    (n : Nat) (out : String) :
    e.targets.foldl
        (fun out target =>
          if isEmpty (getSharedCodeGuid e.targets)
              || (decide (n ≠ 0)
                    == decide (target.type ≠ TargetType.StandalonePlugIn)) then
            let out := out ++ "Project(\"{8BC9CEB8-8B4A-11D0-8D11-00A0C91BC942}\") = \""
              ++ e.projectName ++ " - "
              ++ x.getName target.type ++ "\", \""
              ++ x.getFileName (getVCProjFile x e target) ++ "\", \""
              ++ target.getProjectGuid ++ "\"" ++ x.newLine
            let out :=
              if isNotEmpty (getSharedCodeGuid e.targets)
                  && decide (target.type ≠ TargetType.SharedCodeTarget) then
                out ++ "\tProjectSection(ProjectDependencies) = postProject" ++ x.newLine
                  ++ "\t\t" ++ getSharedCodeGuid e.targets ++ " = "
                  ++ getSharedCodeGuid e.targets ++ x.newLine
                  ++ "\tEndProjectSection" ++ x.newLine
              else out
            out ++ "EndProject" ++ x.newLine
          else out)
        out
      = out ++ concatBlocks ((e.targets.filter (fun target =>
            isEmpty (getSharedCodeGuid e.targets)
              || (decide (n ≠ 0)
                    == decide (target.type ≠ TargetType.StandalonePlugIn)))).map
          (fun t => projectBlock x e (getSharedCodeGuid e.targets) t t.projectGuid)) := by
  rw [← foldl_cond_append]
  congr 1
  funext out target
  by_cases h1 : (isEmpty (getSharedCodeGuid e.targets)
      || (decide (n ≠ 0) == decide (target.type ≠ TargetType.StandalonePlugIn))) = true
  · rw [if_pos h1, if_pos h1]
    by_cases h2 : (isNotEmpty (getSharedCodeGuid e.targets)
        && decide (target.type ≠ TargetType.SharedCodeTarget)) = true
    · simp only [projectBlock, projectDeclaration, projectDependenciesSection, if_pos h2,
        MSVCTargetBase.getProjectGuid, String.append_assoc]
    · simp only [projectBlock, projectDeclaration, if_neg h2,
        MSVCTargetBase.getProjectGuid, String.append_assoc, String.empty_append]
  · rw [if_neg h1, if_neg h1]

/-- Closed form of `writeProjectDependencies`: every target of the emission order
contributes exactly its block, appended to the text written so far. -/
theorem writeProjectDependencies_eq (x : Externals) (e : MSVCProjectExporterBase)
    (out : String) :
    writeProjectDependencies x e out
      = out ++ solutionProjects x e (fun t => t.projectGuid) := by
  unfold writeProjectDependencies solutionProjects emissionOrder
  by_cases hg : getSharedCodeGuid e.targets = ""
  · have h1 : (if isNotEmpty (getSharedCodeGuid e.targets) = true then 2 else 1) = 1 := by
      simp [isNotEmpty, hg]
    have h2 : isEmpty (getSharedCodeGuid e.targets) = true := by simp [isEmpty, hg]
    have hr : List.range 1 = [0] := rfl
    rw [if_pos hg]
    dsimp only
    rw [h1, hr, List.foldl_cons, List.foldl_nil, writeProjectDependencies_pass]
    simp [h2]
  · have h1 : (if isNotEmpty (getSharedCodeGuid e.targets) = true then 2 else 1) = 2 := by
      simp [isNotEmpty, hg]
    have h2 : isEmpty (getSharedCodeGuid e.targets) = false := by simp [isEmpty, hg]
    have hr : List.range 2 = [0, 1] := rfl
    rw [if_neg hg]
    dsimp only
    rw [h1, hr, List.foldl_cons, List.foldl_cons, List.foldl_nil,
      writeProjectDependencies_pass, writeProjectDependencies_pass]
    simp [h2, String.append_assoc, concatBlocks_append]

theorem foldl_append_fun {α : Type} (F : String → α → String) (B : α → String)
    (h : ∀ out a, F out a = out ++ B a) (l : List α) (out : String) :
    l.foldl F out = out ++ concatBlocks (l.map B) := by
  have hF : F = fun out a => out ++ B a := by
    funext out a
    exact h out a
  rw [hF]
  exact foldl_append_blocks B l out

theorem concatBlocks_flatMap {α : Type} (f : α → List String) (l : List α) :
    concatBlocks (l.flatMap f) = concatBlocks (l.map (fun a => concatBlocks (f a))) := by
  induction l with
  | nil => rfl
  | cons a l ih => simp [List.flatMap_cons, concatBlocks_append, concatBlocks, ih]

/-- Closed form of `writeSolutionFile`: header, project declarations, the two configuration
sections and the footer, appended to the text written so far. -/
theorem writeSolutionFile_eq (x : Externals) (e : MSVCProjectExporterBase)
    (out versionString commentString : String) :
    writeSolutionFile x e out versionString commentString
      = out ++ (solutionHeader x versionString commentString
          ++ (solutionProjects x e (fun t => t.projectGuid)
          ++ ("Global" ++ x.newLine
          ++ (solutionConfigurationPlatforms x
                (e.configs.map (fun c => solutionConfigurationLine x c.createMSVCConfigName))
          ++ (projectConfigurationPlatforms x
                (e.targets.flatMap (fun t => e.configs.flatMap (fun c =>
                  [ projectConfigurationEntry x t.projectGuid c.createMSVCConfigName
                      "ActiveCfg",
                    projectConfigurationEntry x t.projectGuid c.createMSVCConfigName
                      "Build.0" ])))
          ++ solutionFooter x))))) := by
  have hcfg : ∀ (o : String), e.configs.foldl
      (fun out config =>
        let configName := config.createMSVCConfigName
        out ++ "\t\t" ++ configName ++ " = " ++ configName ++ x.newLine) o
      = o ++ concatBlocks
          (e.configs.map (fun c => solutionConfigurationLine x c.createMSVCConfigName)) := by
    intro o
    apply foldl_append_fun
    intro out c
    simp only [solutionConfigurationLine, String.append_assoc]
  have hmap : ∀ (o : String), e.targets.foldl
      (fun out target =>
        e.configs.foldl
          (fun out config =>
            let configName := config.createMSVCConfigName
            ["ActiveCfg", "Build.0"].foldl
              (fun out suffix =>
                out ++ "\t\t" ++ target.getProjectGuid ++ "." ++ configName ++ "."
                  ++ suffix ++ " = " ++ configName ++ x.newLine)
              out)
          out) o
      = o ++ concatBlocks
          (e.targets.flatMap (fun t => e.configs.flatMap (fun c =>
            [ projectConfigurationEntry x t.projectGuid c.createMSVCConfigName "ActiveCfg",
              projectConfigurationEntry x t.projectGuid c.createMSVCConfigName
                "Build.0" ]))) := by
    intro o
    rw [concatBlocks_flatMap]
    apply foldl_append_fun
    intro out t
    rw [concatBlocks_flatMap]
    apply foldl_append_fun
    intro out c
    simp only [List.foldl_cons, List.foldl_nil, projectConfigurationEntry, concatBlocks,
      MSVCTargetBase.getProjectGuid, String.append_assoc, String.append_empty]
  unfold writeSolutionFile
  dsimp only
  rw [hmap, hcfg, writeProjectDependencies_eq]
  by_cases hc : commentString = ""
  · simp only [solutionHeader, solutionConfigurationPlatforms, projectConfigurationPlatforms,
      solutionFooter, isNotEmpty, hc, String.append_assoc, ne_eq, not_true_eq_false,
      decide_False, Bool.false_eq_true, if_false, if_true]
  · simp only [solutionHeader, solutionConfigurationPlatforms, projectConfigurationPlatforms,
      solutionFooter, isNotEmpty, hc, String.append_assoc, ne_eq, not_false_eq_true,
      decide_True, if_false, if_true]

theorem getSharedCodeGuid_of_none (targets : List MSVCTargetBase)
    (h : ∀ t ∈ targets, t.type ≠ TargetType.SharedCodeTarget) :
    getSharedCodeGuid targets = "" := by
  induction targets with
  | nil => rfl
  | cons t rest ih =>
    have ht : t.type ≠ TargetType.SharedCodeTarget := h t (List.mem_cons_self _ _)
    simp only [getSharedCodeGuid, if_neg ht]
    exact ih (fun u hu => h u (List.mem_cons_of_mem _ hu))

theorem getSharedCodeGuid_of_some (targets : List MSVCTargetBase)
    (h : ∃ t ∈ targets, t.type = TargetType.SharedCodeTarget) :
    ∃ s ∈ targets, s.type = TargetType.SharedCodeTarget
      ∧ getSharedCodeGuid targets = s.projectGuid := by
  induction targets with
  | nil => simp at h
  | cons t rest ih =>
    by_cases ht : t.type = TargetType.SharedCodeTarget
    · exact ⟨t, List.mem_cons_self _ _, ht, by
        simp [getSharedCodeGuid, ht, MSVCTargetBase.getProjectGuid]⟩
    · have h' : ∃ u ∈ rest, u.type = TargetType.SharedCodeTarget := by
        obtain ⟨u, hu, hty⟩ := h
        rcases List.mem_cons.1 hu with rfl | hu
        · exact absurd hty ht
        · exact ⟨u, hu, hty⟩
      obtain ⟨s, hs, hty, hgs⟩ := ih h'
      exact ⟨s, List.mem_cons_of_mem _ hs, hty, by
        simp only [getSharedCodeGuid, if_neg ht]; exact hgs⟩

/-- C1: when the target list contains a shared-code target (whose GUID, like every GUID, is
not empty), `writeProjectDependencies` appends one block per target, each target exactly
once (stand-alone targets first, then the others); the block of every target that is not a
shared-code target contains exactly one `ProjectDependencies` sub-block, whose single entry
is `guid = guid` for the GUID of the shared-code target, and the block of a shared-code
target contains no such sub-block. -/
theorem writeProjectDependencies_with_shared_code (x : Externals)
    (e : MSVCProjectExporterBase) (out : String)
    (hs : ∃ t ∈ e.targets, t.type = TargetType.SharedCodeTarget)
    (hg : ∀ t ∈ e.targets, t.type = TargetType.SharedCodeTarget → t.projectGuid ≠ "") :
    ∃ s ∈ e.targets, s.type = TargetType.SharedCodeTarget
      ∧ getSharedCodeGuid e.targets = s.projectGuid
      ∧ (e.targets.filter (fun t => decide (t.type = TargetType.StandalonePlugIn))
          ++ e.targets.filter (fun t => decide (t.type ≠ TargetType.StandalonePlugIn))).Perm
            e.targets
      ∧ writeProjectDependencies x e out
          = out ++ concatBlocks
              ((e.targets.filter (fun t => decide (t.type = TargetType.StandalonePlugIn))
                ++ e.targets.filter
                    (fun t => decide (t.type ≠ TargetType.StandalonePlugIn))).map
                (fun t => projectDeclaration x e t t.projectGuid
                  ++ ((if t.type = TargetType.SharedCodeTarget then ""
                        else projectDependenciesSection x s.projectGuid)
                    ++ ("EndProject" ++ x.newLine)))) := by
  obtain ⟨s, hsmem, hsty, hsg⟩ := getSharedCodeGuid_of_some e.targets hs
  have hne : getSharedCodeGuid e.targets ≠ "" := by
    rw [hsg]; exact hg s hsmem hsty
  refine ⟨s, hsmem, hsty, hsg, ?_, ?_⟩
  · have := List.filter_append_perm
      (fun t : MSVCTargetBase => decide (t.type = TargetType.StandalonePlugIn)) e.targets
    simpa using this
  · rw [writeProjectDependencies_eq, solutionProjects, emissionOrder, if_neg hne]
    congr 3
    funext t
    have h1 : isNotEmpty (getSharedCodeGuid e.targets) = true := by
      simp [isNotEmpty, hne]
    by_cases ht : t.type = TargetType.SharedCodeTarget
    · simp [projectBlock, h1, ht]
    · rw [hsg] at h1
      simp [projectBlock, h1, ht, hsg]

/-- C3: when no target is a shared-code target, `writeProjectDependencies` appends, for
every target in target-list order, exactly its declaration line followed by the closing
`EndProject` line, so the text it adds holds one declaration per target and no
`ProjectDependencies` sub-block. -/
theorem writeProjectDependencies_without_shared_code (x : Externals)
    (e : MSVCProjectExporterBase) (out : String)
    (hn : ∀ t ∈ e.targets, t.type ≠ TargetType.SharedCodeTarget) :
    writeProjectDependencies x e out
      = out ++ concatBlocks
          (e.targets.map
            (fun t => projectDeclaration x e t t.projectGuid ++ ("EndProject" ++ x.newLine))) := by
  have hg : getSharedCodeGuid e.targets = "" := getSharedCodeGuid_of_none e.targets hn
  rw [writeProjectDependencies_eq, solutionProjects, emissionOrder, if_pos hg, hg]
  congr 3

theorem writeProjectDependencies_with_shared_code_witness :
    (∃ t ∈ samplePluginExporter.targets, t.type = TargetType.SharedCodeTarget)
      ∧ (∀ t ∈ samplePluginExporter.targets,
          t.type = TargetType.SharedCodeTarget → t.projectGuid ≠ "")
      ∧ ∃ s ∈ samplePluginExporter.targets, s.type = TargetType.SharedCodeTarget
        ∧ getSharedCodeGuid samplePluginExporter.targets = s.projectGuid
        ∧ (samplePluginExporter.targets.filter
              (fun t => decide (t.type = TargetType.StandalonePlugIn))
            ++ samplePluginExporter.targets.filter
              (fun t => decide (t.type ≠ TargetType.StandalonePlugIn))).Perm
              samplePluginExporter.targets
        ∧ writeProjectDependencies sampleExternals samplePluginExporter ""
            = "" ++ concatBlocks
                ((samplePluginExporter.targets.filter
                    (fun t => decide (t.type = TargetType.StandalonePlugIn))
                  ++ samplePluginExporter.targets.filter
                      (fun t => decide (t.type ≠ TargetType.StandalonePlugIn))).map
                  (fun t => projectDeclaration sampleExternals samplePluginExporter t
                      t.projectGuid
                    ++ ((if t.type = TargetType.SharedCodeTarget then ""
                          else projectDependenciesSection sampleExternals s.projectGuid)
                      ++ ("EndProject" ++ sampleExternals.newLine)))) :=
  ⟨by decide, by decide,
    writeProjectDependencies_with_shared_code sampleExternals samplePluginExporter ""
      (by decide) (by decide)⟩

theorem writeProjectDependencies_without_shared_code_witness :
    (∀ t ∈ sampleAppExporter.targets, t.type ≠ TargetType.SharedCodeTarget)
      ∧ writeProjectDependencies sampleExternals sampleAppExporter ""
          = "" ++ concatBlocks
              (sampleAppExporter.targets.map
                (fun t => projectDeclaration sampleExternals sampleAppExporter t t.projectGuid
                  ++ ("EndProject" ++ sampleExternals.newLine))) :=
  ⟨by decide,
    writeProjectDependencies_without_shared_code sampleExternals sampleAppExporter ""
      (by decide)⟩

/-! ## The target list -/

theorem addPlatformSpecificSettingsForProjectType_loop (x : Externals)
    (e : MSVCProjectExporterBase) (supportedTargets : List TargetType)
    (targets : List MSVCTargetBase) :
    supportedTargets.foldl
        (fun targets targetType =>
          let target := MSVCTargetBase.create x e targetType
          if targetType ≠ TargetType.AggregateTarget then targets ++ [target] else targets)
        targets
      = targets ++ (supportedTargets.filter
          (fun ty => decide (ty ≠ TargetType.AggregateTarget))).map
            (MSVCTargetBase.create x e) := by
  induction supportedTargets generalizing targets with
  | nil => simp
  | cons ty rest ih =>
    rw [List.foldl_cons, ih]
    by_cases h : ty = TargetType.AggregateTarget
    · simp [h]
    · simp [h, List.filter_cons]

theorem addPlatformSpecificSettingsForProjectType_appends (x : Externals)
    (e : MSVCProjectExporterBase) (type : ProjectType) (supportedTargets : List TargetType) :
    (addPlatformSpecificSettingsForProjectType x e type supportedTargets).1.targets
      = e.targets ++ (supportedTargets.filter
          (fun ty => decide (ty ≠ TargetType.AggregateTarget))).map
            (MSVCTargetBase.create x e) := by
  unfold addPlatformSpecificSettingsForProjectType
  exact addPlatformSpecificSettingsForProjectType_loop x e supportedTargets e.targets

theorem length_filter_not_aggregate (l : List TargetType) :
    (l.filter (fun ty => decide (ty ≠ TargetType.AggregateTarget))).length
      = (l.filter (fun ty => decide (ty ≠ TargetType.SharedCodeTarget
            ∧ ty ≠ TargetType.AggregateTarget))).length
        + l.count TargetType.SharedCodeTarget := by
  induction l with
  | nil => rfl
  | cons ty rest ih =>
    by_cases h1 : ty = TargetType.SharedCodeTarget
    · subst h1
      simp only [List.filter_cons, List.count_cons] at ih ⊢
      simp at ih ⊢
      omega
    · by_cases h2 : ty = TargetType.AggregateTarget
      · subst h2
        simp only [List.filter_cons, List.count_cons] at ih ⊢
        simp at ih ⊢
        omega
      · have h3 : ¬ TargetType.SharedCodeTarget = ty := fun h => h1 h.symm
        simp only [List.filter_cons, List.count_cons] at ih ⊢
        simp [h1, h2, h3] at ih ⊢
        omega

theorem length_filter_shared_create (x : Externals) (e : MSVCProjectExporterBase)
    (l : List TargetType) :
    (((l.filter (fun ty => decide (ty ≠ TargetType.AggregateTarget))).map
        (MSVCTargetBase.create x e)).filter
          (fun t => decide (t.type = TargetType.SharedCodeTarget))).length
      = l.count TargetType.SharedCodeTarget := by
  induction l with
  | nil => rfl
  | cons ty rest ih =>
    by_cases h1 : ty = TargetType.SharedCodeTarget
    · subst h1
      simp only [List.filter_cons, List.count_cons] at ih ⊢
      simp [MSVCTargetBase.create] at ih ⊢
      omega
    · by_cases h2 : ty = TargetType.AggregateTarget
      · subst h2
        simp only [List.filter_cons, List.count_cons] at ih ⊢
        simp [MSVCTargetBase.create] at ih ⊢
        omega
      · have h3 : ¬ TargetType.SharedCodeTarget = ty := fun h => h1 h.symm
        simp only [List.filter_cons, List.count_cons] at ih ⊢
        simp [MSVCTargetBase.create, h1, h2, h3] at ih ⊢
        omega

/-- C2: `addPlatformSpecificSettingsForProjectType` appends to the target list one target
for every enumerated target type other than `AggregateTarget`, in enumeration order, and no
target for `AggregateTarget`: the types of the appended targets are the enumerated types
without `AggregateTarget`, for every enumeration. The list grows by the number of wrapper
types plus the number of times the shared-code type is enumerated; hence, when the
enumeration holds the shared-code type once, the list grows by the number of wrapper types
plus one and exactly one of the new targets is the shared-code target (so a list that starts
empty ends with N + 1 targets, one of them shared code). -/
theorem addPlatformSpecificSettingsForProjectType_targets (x : Externals)
    (e : MSVCProjectExporterBase) (type : ProjectType) (supportedTargets : List TargetType) :
    (addPlatformSpecificSettingsForProjectType x e type supportedTargets).1.targets
        = e.targets ++ (supportedTargets.filter
            (fun ty => decide (ty ≠ TargetType.AggregateTarget))).map
              (MSVCTargetBase.create x e)
      ∧ ((supportedTargets.filter
            (fun ty => decide (ty ≠ TargetType.AggregateTarget))).map
              (MSVCTargetBase.create x e)).map (fun t => t.type)
          = supportedTargets.filter (fun ty => decide (ty ≠ TargetType.AggregateTarget))
      ∧ (addPlatformSpecificSettingsForProjectType x e type supportedTargets).1.targets.length
        = e.targets.length
          + (supportedTargets.filter (fun ty => decide (ty ≠ TargetType.SharedCodeTarget
              ∧ ty ≠ TargetType.AggregateTarget))).length
          + supportedTargets.count TargetType.SharedCodeTarget
      ∧ ((addPlatformSpecificSettingsForProjectType x e type
            supportedTargets).1.targets.filter
          (fun t => decide (t.type = TargetType.SharedCodeTarget))).length
        = (e.targets.filter
            (fun t => decide (t.type = TargetType.SharedCodeTarget))).length
          + supportedTargets.count TargetType.SharedCodeTarget
      ∧ (supportedTargets.count TargetType.SharedCodeTarget = 1 →
          (addPlatformSpecificSettingsForProjectType x e type
              supportedTargets).1.targets.length
            = e.targets.length
              + (supportedTargets.filter (fun ty => decide (ty ≠ TargetType.SharedCodeTarget
                  ∧ ty ≠ TargetType.AggregateTarget))).length + 1
          ∧ ((addPlatformSpecificSettingsForProjectType x e type
                supportedTargets).1.targets.filter
              (fun t => decide (t.type = TargetType.SharedCodeTarget))).length
            = (e.targets.filter
                (fun t => decide (t.type = TargetType.SharedCodeTarget))).length + 1) := by
  have hlen : (addPlatformSpecificSettingsForProjectType x e type
        supportedTargets).1.targets.length
      = e.targets.length
        + (supportedTargets.filter (fun ty => decide (ty ≠ TargetType.SharedCodeTarget
            ∧ ty ≠ TargetType.AggregateTarget))).length
        + supportedTargets.count TargetType.SharedCodeTarget := by
    rw [addPlatformSpecificSettingsForProjectType_appends, List.length_append,
      List.length_map, length_filter_not_aggregate]
    omega
  have hshared : ((addPlatformSpecificSettingsForProjectType x e type
        supportedTargets).1.targets.filter
        (fun t => decide (t.type = TargetType.SharedCodeTarget))).length
      = (e.targets.filter
          (fun t => decide (t.type = TargetType.SharedCodeTarget))).length
        + supportedTargets.count TargetType.SharedCodeTarget := by
    rw [addPlatformSpecificSettingsForProjectType_appends, List.filter_append,
      List.length_append, length_filter_shared_create]
  refine ⟨addPlatformSpecificSettingsForProjectType_appends x e type supportedTargets,
    ?_, hlen, hshared, ?_⟩
  · rw [List.map_map]
    have hty : ((fun t : MSVCTargetBase => t.type) ∘ MSVCTargetBase.create x e)
        = (id : TargetType → TargetType) := by
      funext ty; rfl
    rw [hty, List.map_id]
  · intro hc
    rw [hlen, hshared, hc]
    exact ⟨rfl, rfl⟩

theorem addPlatformSpecificSettingsForProjectType_targets_witness :
    ((addPlatformSpecificSettingsForProjectType sampleExternals
          { projectName := "Tool", projectUIDString := "uid" } {}
          [TargetType.GUIApp]).1.targets.map (fun t => t.type) = [TargetType.GUIApp])
      ∧ [TargetType.SharedCodeTarget, TargetType.VSTPlugIn, TargetType.VST3PlugIn,
          TargetType.AggregateTarget].count TargetType.SharedCodeTarget = 1
      ∧ (addPlatformSpecificSettingsForProjectType sampleExternals
            { projectName := "Synth", projectUIDString := "uid" } {}
            [TargetType.SharedCodeTarget, TargetType.VSTPlugIn, TargetType.VST3PlugIn,
              TargetType.AggregateTarget]).1.targets.length = 0 + 2 + 1 :=
  ⟨by
    rw [(addPlatformSpecificSettingsForProjectType_targets sampleExternals
      { projectName := "Tool", projectUIDString := "uid" } {} [TargetType.GUIApp]).1]
    decide,
    by decide,
    ((addPlatformSpecificSettingsForProjectType_targets sampleExternals
      { projectName := "Synth", projectUIDString := "uid" } {}
      [TargetType.SharedCodeTarget, TargetType.VSTPlugIn, TargetType.VST3PlugIn,
        TargetType.AggregateTarget]).2.2.2.2 (by decide)).1⟩

/-- C4: when the enumeration hands over no target type for an exporter without targets,
the method returns the exporter with an empty target list, and the condition of its own
final `jassert (targets.size() > 0)`, which its comment reserves for an exporter that
supports none of the targets, is false: the situation is not turned into an error. -/
theorem addPlatformSpecificSettingsForProjectType_returns_empty :
    (addPlatformSpecificSettingsForProjectType sampleExternals
        { projectName := "Synth", projectUIDString := "uid" } {} []).1.targets = []
      ∧ (addPlatformSpecificSettingsForProjectType sampleExternals
        { projectName := "Synth", projectUIDString := "uid" } {} []).2 = false := by
  decide

/-- The method `addPlatformSpecificSettingsForProjectType` always returns the updated
exporter; its target list is empty exactly when the list was empty before and every
enumerated type is `AggregateTarget` (no target is appended), and this is exactly the case
in which the condition of its final `jassert (targets.size() > 0)` is false. -/
theorem addPlatformSpecificSettingsForProjectType_assertion (x : Externals)
    (e : MSVCProjectExporterBase) (type : ProjectType) (supportedTargets : List TargetType) :
    ((addPlatformSpecificSettingsForProjectType x e type supportedTargets).1.targets = []
        ↔ e.targets = [] ∧ ∀ ty ∈ supportedTargets, ty = TargetType.AggregateTarget)
      ∧ ((addPlatformSpecificSettingsForProjectType x e type supportedTargets).2 = false
        ↔ (addPlatformSpecificSettingsForProjectType x e type supportedTargets).1.targets
            = []) := by
  constructor
  · rw [addPlatformSpecificSettingsForProjectType_appends]
    simp [List.filter_eq_nil_iff]
  · unfold addPlatformSpecificSettingsForProjectType
    simp [List.length_eq_zero]

/-! ## Canonical configuration names -/

theorem configName_suffix_ne (a b : String) : a ++ "|" ++ "x64" ≠ b ++ "|" ++ "Win32" := by
  intro h
  have hd := congrArg (fun s : String => s.data.reverse) h
  simp [String.data_append] at hd

theorem append_right_cancel_string (a b s : String) (h : a ++ s = b ++ s) : a = b := by
  have hd := congrArg String.data h
  rw [String.data_append, String.data_append] at hd
  exact String.ext (List.append_cancel_right hd)

/-- C5, as stated, fails: two configurations named `Debug` whose architecture strings are
`Win32` and `32-bit` differ as (name, architecture string) pairs and get the same canonical
name `Debug|Win32`. -/
theorem createMSVCConfigName_not_injective_on_architecture_string :
    (("Debug", "Win32") : String × String) ≠ ("Debug", "32-bit")
      ∧ MSVCBuildConfiguration.createMSVCConfigName
          { name := "Debug", architectureTypeValue := "Win32" }
        = MSVCBuildConfiguration.createMSVCConfigName
          { name := "Debug", architectureTypeValue := "32-bit" } := by
  decide

/-- C5, amended: `createMSVCConfigName` is injective on (configuration name, 64-bit flag):
two configurations get the same canonical name exactly when their names are equal and both
or neither are 64-bit, where a configuration is 64-bit exactly when its architecture string
is `x64`; the canonical name ends in `x64` for that architecture string and in `Win32` for
every other one. -/
theorem createMSVCConfigName_eq_iff (c₁ c₂ : MSVCBuildConfiguration) :
    (c₁.createMSVCConfigName = c₂.createMSVCConfigName
        ↔ c₁.name = c₂.name ∧ c₁.is64Bit = c₂.is64Bit)
      ∧ (c₁.is64Bit = true ↔ c₁.architectureTypeValue = "x64")
      ∧ c₁.createMSVCConfigName
        = c₁.name ++ "|" ++ (if c₁.architectureTypeValue = "x64" then "x64" else "Win32") := by
  refine ⟨?_, ?_, ?_⟩
  · constructor
    · intro h
      unfold MSVCBuildConfiguration.createMSVCConfigName at h
      cases h1 : c₁.is64Bit <;> cases h2 : c₂.is64Bit <;> rw [h1, h2] at h
      · simp only [Bool.false_eq_true, if_false] at h
        have := append_right_cancel_string _ _ _ h
        exact ⟨append_right_cancel_string _ _ _ this, rfl⟩
      · simp only [Bool.false_eq_true, if_false, if_true] at h
        exact absurd h.symm (configName_suffix_ne _ _)
      · simp only [Bool.false_eq_true, if_false, if_true] at h
        exact absurd h (configName_suffix_ne _ _)
      · simp only [if_true] at h
        have := append_right_cancel_string _ _ _ h
        exact ⟨append_right_cancel_string _ _ _ this, rfl⟩
    · rintro ⟨hn, hb⟩
      unfold MSVCBuildConfiguration.createMSVCConfigName
      rw [hn, hb]
  · simp [MSVCBuildConfiguration.is64Bit, MSVCBuildConfiguration.getArchitectureString,
      MSVCBuildConfiguration.get64BitArchName]
  · simp [MSVCBuildConfiguration.createMSVCConfigName, MSVCBuildConfiguration.is64Bit,
      MSVCBuildConfiguration.getArchitectureString, MSVCBuildConfiguration.get64BitArchName]

/-! ## The configuration sections of the solution file -/

theorem documentProjectGuid_eq (t : MSVCTargetBase) : documentProjectGuid t = t.projectGuid := by
  simp [documentProjectGuid, fillInProjectXml_globals, XmlElement.getChildElementText,
    MSVCTargetBase.getProjectGuid]

/-- C7: the `ProjectGuid` element that `fillInProjectXml` writes for a target holds a single
text, and this text is, for every target, the identifier that ends its project-declaration
line and that starts each of its mapping entries in the solution text. -/
theorem solution_identifiers_match_project_documents (x : Externals)
    (e : MSVCProjectExporterBase) (out versionString commentString : String) :
    (∀ t : MSVCTargetBase,
        fillInProjectXml_globals t
          = XmlElement.element "PropertyGroup" [("Label", "Globals")]
              [XmlElement.element "ProjectGuid" [] [XmlElement.text (documentProjectGuid t)]])
      ∧ writeSolutionFile x e out versionString commentString
        = out ++ (solutionHeader x versionString commentString
            ++ (concatBlocks ((emissionOrder e.targets).map (fun t =>
                  projectDeclaration x e t (documentProjectGuid t)
                    ++ ((if isNotEmpty (getSharedCodeGuid e.targets)
                            && decide (t.type ≠ TargetType.SharedCodeTarget) then
                          projectDependenciesSection x (getSharedCodeGuid e.targets) else "")
                      ++ ("EndProject" ++ x.newLine))))
            ++ ("Global" ++ x.newLine
            ++ (solutionConfigurationPlatforms x
                  (e.configs.map (fun c => solutionConfigurationLine x c.createMSVCConfigName))
            ++ (projectConfigurationPlatforms x
                  (e.targets.flatMap (fun t => e.configs.flatMap (fun c =>
                    [ projectConfigurationEntry x (documentProjectGuid t)
                        c.createMSVCConfigName "ActiveCfg",
                      projectConfigurationEntry x (documentProjectGuid t)
                        c.createMSVCConfigName "Build.0" ])))
            ++ solutionFooter x))))) := by
  have hg : documentProjectGuid = fun t => t.projectGuid := by
    funext t
    exact documentProjectGuid_eq t
  constructor
  · intro t
    rw [documentProjectGuid_eq]
    rfl
  · rw [writeSolutionFile_eq, hg]
    rfl

theorem find_setPairs (attributes : List (String × String)) (name value : String) :
    ((StringPairArray.setPairs attributes name value).find?
        (fun a => decide (a.1 = name))).map Prod.snd = some value := by
  induction attributes with
  | nil => simp [StringPairArray.setPairs]
  | cons a rest ih =>
    obtain ⟨k, w⟩ := a
    by_cases h : k = name
    · simp [StringPairArray.setPairs, h]
    · simp only [StringPairArray.setPairs, if_neg h, List.find?_cons]
      simp only [h, decide_False]
      exact ih

/-- C8: for every configuration the canonical name `createMSVCConfigName` is the `Include`
attribute of its `ProjectConfiguration` element and equals the text of the `Configuration`
child, then `|`, then the text of the `Platform` child; `setConditionAttribute` sets the
`Condition` attribute to a comparison with that same string; and the
`SolutionConfigurationPlatforms` section of the solution is made, in order, of one line
`name = name` per configuration with that same string. -/
theorem canonical_configuration_name_shared (x : Externals) (e : MSVCProjectExporterBase)
    (out versionString commentString : String) :
    (∀ c : MSVCBuildConfiguration, ∃ configuration platform : String,
        fillInProjectXml_projectConfiguration c
          = XmlElement.element "ProjectConfiguration"
              [("Include", configuration ++ "|" ++ platform)]
              [ XmlElement.element "Configuration" [] [XmlElement.text configuration],
                XmlElement.element "Platform" [] [XmlElement.text platform] ]
        ∧ c.createMSVCConfigName = configuration ++ "|" ++ platform
        ∧ ∀ (tagName : String) (attributes : List (String × String))
            (children : List XmlElement),
            (setConditionAttribute (XmlElement.element tagName attributes children)
                c).getAttribute "Condition"
              = some ("'$(Configuration)|$(Platform)'=='" ++ (configuration ++ "|" ++ platform)
                  ++ "'"))
      ∧ fillInProjectXml_configsGroup e
          = XmlElement.element "ItemGroup" [("Label", "ProjectConfigurations")]
              (e.configs.map fillInProjectXml_projectConfiguration)
      ∧ writeSolutionFile x e out versionString commentString
        = out ++ (solutionHeader x versionString commentString
            ++ (solutionProjects x e (fun t => t.projectGuid)
            ++ ("Global" ++ x.newLine
            ++ (("\tGlobalSection(SolutionConfigurationPlatforms) = preSolution" ++ x.newLine
                  ++ concatBlocks (e.configs.map (fun c =>
                      "\t\t" ++ c.createMSVCConfigName ++ " = " ++ c.createMSVCConfigName
                        ++ x.newLine))
                  ++ "\tEndGlobalSection" ++ x.newLine)
            ++ (projectConfigurationPlatforms x
                  (e.targets.flatMap (fun t => e.configs.flatMap (fun c =>
                    [ projectConfigurationEntry x t.projectGuid c.createMSVCConfigName
                        "ActiveCfg",
                      projectConfigurationEntry x t.projectGuid c.createMSVCConfigName
                        "Build.0" ])))
            ++ solutionFooter x))))) := by
  refine ⟨?_, rfl, ?_⟩
  · intro c
    refine ⟨c.name, if c.is64Bit then "x64" else "Win32", ?_, rfl, ?_⟩
    · unfold fillInProjectXml_projectConfiguration
        MSVCBuildConfiguration.createMSVCConfigName
        MSVCBuildConfiguration.get64BitArchName MSVCBuildConfiguration.get32BitArchName
      rfl
    · intro tagName attributes children
      unfold setConditionAttribute XmlElement.setAttribute XmlElement.getAttribute
      exact find_setPairs attributes "Condition" _
  · rw [writeSolutionFile_eq]
    rfl

/-- C9: the `LanguageStandard` element written by `fillInProjectXml` holds `stdcpp14` when
the requested C++ standard is `11` and `stdcpp` followed by the requested standard in every
other case; a request for `17` gives `stdcpp17`. -/
theorem fillInProjectXml_languageStandard_token (e : MSVCProjectExporterBase) :
    fillInProjectXml_languageStandard e
        = XmlElement.element "LanguageStandard" []
            [XmlElement.text (if e.cppStandardString = "11" then "stdcpp14"
                              else "stdcpp" ++ e.cppStandardString)]
      ∧ fillInProjectXml_languageStandard { e with cppStandardString := "17" }
        = XmlElement.element "LanguageStandard" [] [XmlElement.text "stdcpp17"] := by
  constructor
  · unfold fillInProjectXml_languageStandard
    by_cases h : e.cppStandardString = "11"
    · simp [h]
    · simp [h]
  · unfold fillInProjectXml_languageStandard
    simp

/-! ## Preprocessor definitions -/

theorem firstValue_setPairs (l : List (String × String)) (k v key : String) :
    firstValue (StringPairArray.setPairs l k v) key
      = if k = key then some v else firstValue l key := by
  induction l with
  | nil => simp [StringPairArray.setPairs, firstValue]
  | cons a rest ih =>
    obtain ⟨k0, v0⟩ := a
    by_cases h : k0 = k
    · subst h
      by_cases h2 : k0 = key
      · simp [StringPairArray.setPairs, firstValue, h2]
      · simp [StringPairArray.setPairs, firstValue, h2]
    · by_cases h2 : k0 = key
      · have h3 : ¬ k = key := fun hk => h (h2.trans hk.symm)
        simp only [StringPairArray.setPairs, if_neg h, firstValue, if_pos h2, if_neg h3]
      · simp [StringPairArray.setPairs, firstValue, h, h2, ih]

theorem keys_setPairs (l : List (String × String)) (k v : String) :
    (StringPairArray.setPairs l k v).map Prod.fst
      = if k ∈ l.map Prod.fst then l.map Prod.fst else l.map Prod.fst ++ [k] := by
  induction l with
  | nil => simp [StringPairArray.setPairs]
  | cons a rest ih =>
    obtain ⟨k0, v0⟩ := a
    by_cases h : k0 = k
    · simp [StringPairArray.setPairs, h]
    · have h' : ¬ k = k0 := fun hk => h hk.symm
      simp only [StringPairArray.setPairs, if_neg h, List.map_cons, ih, List.mem_cons, h',
        false_or]
      by_cases hm : k ∈ rest.map Prod.fst
      · simp [hm]
      · simp [hm]

theorem nodup_keys_setPairs (l : List (String × String)) (k v : String)
    (h : (l.map Prod.fst).Nodup) : ((StringPairArray.setPairs l k v).map Prod.fst).Nodup := by
  rw [keys_setPairs]
  by_cases hm : k ∈ l.map Prod.fst
  · rw [if_pos hm]
    exact h
  · rw [if_neg hm]
    refine List.Nodup.append h (List.nodup_singleton k) ?_
    intro a ha hk
    rw [List.mem_singleton] at hk
    exact hm (hk ▸ ha)

theorem mem_keys_setPairs (l : List (String × String)) (k v key : String) :
    key ∈ (StringPairArray.setPairs l k v).map Prod.fst
      ↔ key ∈ l.map Prod.fst ∨ key = k := by
  rw [keys_setPairs]
  by_cases hm : k ∈ l.map Prod.fst
  · rw [if_pos hm]
    constructor
    · exact Or.inl
    · rintro (h | h)
      · exact h
      · exact h ▸ hm
  · rw [if_neg hm, List.mem_append, List.mem_singleton]

theorem setAll_cons (l : List (String × String)) (a : String × String)
    (rest : List (String × String)) :
    setAll l (a :: rest) = setAll (StringPairArray.setPairs l a.1 a.2) rest := rfl

theorem setAll_append (l ops₁ ops₂ : List (String × String)) :
    setAll l (ops₁ ++ ops₂) = setAll (setAll l ops₁) ops₂ := by
  unfold setAll
  rw [List.foldl_append]

/-- The effect of setting a list of pairs one after the other: keys stay distinct, every key
takes the value of the last pair that set it, and the keys are those present before
together with those set. -/
theorem setAll_spec (ops l : List (String × String)) (h : (l.map Prod.fst).Nodup) :
    ((setAll l ops).map Prod.fst).Nodup
      ∧ (∀ key, firstValue (setAll l ops) key
          = match lastValue ops key with
            | some w => some w
            | none => firstValue l key)
      ∧ (∀ key, key ∈ (setAll l ops).map Prod.fst
          ↔ key ∈ l.map Prod.fst ∨ key ∈ ops.map Prod.fst) := by
  induction ops generalizing l with
  | nil => simp [setAll, lastValue, h]
  | cons a rest ih =>
    obtain ⟨k, v⟩ := a
    obtain ⟨h1, h2, h3⟩ := ih (StringPairArray.setPairs l k v) (nodup_keys_setPairs l k v h)
    refine ⟨h1, ?_, ?_⟩
    · intro key
      rw [setAll_cons, h2 key, firstValue_setPairs]
      simp only [lastValue]
      cases lastValue rest key
      · by_cases hk : k = key
        · simp [hk]
        · simp [hk]
      · rfl
    · intro key
      rw [setAll_cons, h3 key, mem_keys_setPairs]
      simp only [List.map_cons, List.mem_cons]
      tauto

theorem mergePreprocessorDefs_pairs (d o : StringPairArray) :
    (mergePreprocessorDefs d o).pairs = setAll d.pairs o.pairs := by
  unfold mergePreprocessorDefs setAll
  generalize o.pairs = ops
  induction ops generalizing d with
  | nil => rfl
  | cons a rest ih => rw [List.foldl_cons, List.foldl_cons, ih]; rfl

theorem addExtraPreprocessorDefines_pairs (x : Externals) (e : MSVCProjectExporterBase)
    (t : MSVCTargetBase) (d : StringPairArray) :
    (addExtraPreprocessorDefines x e t d).pairs
      = setAll d.pairs
          (match t.type with
          | TargetType.AAXPlugIn =>
            [("JucePlugin_AAXLibs_path", createRebasedPath x e
                (x.relativeChildFile ⟨e.aaxPathValue, RootFolder.projectFolder⟩ "Libs"))]
          | TargetType.RTASPlugIn =>
            [("JucePlugin_WinBag_path", createRebasedPath x e
                (x.relativeChildFile ⟨e.rtasPathValue, RootFolder.projectFolder⟩ "WinBag"))]
          | _ => []) := by
  obtain ⟨ty, guid⟩ := t
  cases ty <;> rfl

theorem getPreprocessorDefs_defines_eq (x : Externals) (e : MSVCProjectExporterBase)
    (t : MSVCTargetBase) (config : MSVCBuildConfiguration) :
    (getPreprocessorDefs_defines x e t config).pairs
      = setAll e.msvcExtraPreprocessorDefs.pairs (getPreprocessorDefs_overrides x e t config) := by
  unfold getPreprocessorDefs_defines getPreprocessorDefs_overrides
  simp only [setAll_append]
  by_cases hl : (x.getTargetFileType t.type = TargetFileType.staticLibrary
      ∨ x.getTargetFileType t.type = TargetFileType.sharedLibraryOrDLL)
  · rw [if_pos hl, if_pos hl]
    show StringPairArray.setPairs (addExtraPreprocessorDefines x e t _).pairs "_LIB" "" = _
    rw [addExtraPreprocessorDefines_pairs, mergePreprocessorDefs_pairs]
    cases config.isDebug <;> rfl
  · rw [if_neg hl, if_neg hl]
    rw [addExtraPreprocessorDefines_pairs, mergePreprocessorDefs_pairs]
    cases config.isDebug <;> rfl

/-- C10: in the define list that `getPreprocessorDefs` builds from base defines with
distinct keys, every key occurs once; the keys are those of the base defines and those set
afterwards; each key carries the value of the last source that set it (the base value when
no later source set it); every define is rendered as the bare key when its value is empty
and as `key=value` otherwise, and the renderings are joined with the separator; merging an
empty define set changes nothing. -/
theorem getPreprocessorDefs_last_writer_wins (x : Externals) (e : MSVCProjectExporterBase)
    (t : MSVCTargetBase) (config : MSVCBuildConfiguration) (joinString : String)
    (hb : e.msvcExtraPreprocessorDefs.getAllKeys.Nodup) :
    (getPreprocessorDefs_defines x e t config).getAllKeys.Nodup
      ∧ (∀ key, key ∈ (getPreprocessorDefs_defines x e t config).getAllKeys
          ↔ key ∈ e.msvcExtraPreprocessorDefs.getAllKeys
            ∨ key ∈ (getPreprocessorDefs_overrides x e t config).map Prod.fst)
      ∧ (∀ key, firstValue (getPreprocessorDefs_defines x e t config).pairs key
          = match lastValue (getPreprocessorDefs_overrides x e t config) key with
            | some w => some w
            | none => firstValue e.msvcExtraPreprocessorDefs.pairs key)
      ∧ getPreprocessorDefs x e t config joinString
          = joinIntoString
              ((getPreprocessorDefs_defines x e t config).pairs.map
                (fun kv => if kv.2 = "" then kv.1 else kv.1 ++ "=" ++ kv.2))
              joinString
      ∧ (∀ d : StringPairArray, mergePreprocessorDefs d {} = d) := by
  obtain ⟨h1, h2, h3⟩ :=
    setAll_spec (getPreprocessorDefs_overrides x e t config) e.msvcExtraPreprocessorDefs.pairs hb
  refine ⟨?_, ?_, ?_, ?_, ?_⟩
  · unfold StringPairArray.getAllKeys
    rw [getPreprocessorDefs_defines_eq]
    exact h1
  · intro key
    unfold StringPairArray.getAllKeys
    rw [getPreprocessorDefs_defines_eq]
    exact h3 key
  · intro key
    rw [getPreprocessorDefs_defines_eq]
    exact h2 key
  · unfold getPreprocessorDefs
    dsimp only
    congr 1
    apply List.map_congr_left
    intro kv _
    by_cases hv : kv.2 = ""
    · simp [isNotEmpty, hv]
    · simp [isNotEmpty, hv]
  · intro d
    rfl

theorem getPreprocessorDefs_last_writer_wins_witness :
    sampleDefinesExporter.msvcExtraPreprocessorDefs.getAllKeys.Nodup
      ∧ firstValue sampleDefinesExporter.msvcExtraPreprocessorDefs.pairs "A" = some "1"
      ∧ firstValue (sampleDefinesExternals.getAllPreprocessorDefs { name := "Release" }
          TargetType.GUIApp).pairs "A" = some "2"
      ∧ getPreprocessorDefs sampleDefinesExternals sampleDefinesExporter
          ⟨TargetType.GUIApp, "\x7bG\x7d"⟩ { name := "Release" } ";"
        = "A=2;WIN32;_WINDOWS;NDEBUG"
      ∧ firstValue (getPreprocessorDefs_defines sampleDefinesExternals sampleDefinesExporter
          ⟨TargetType.GUIApp, "\x7bG\x7d"⟩ { name := "Release" }).pairs "A"
        = match lastValue (getPreprocessorDefs_overrides sampleDefinesExternals
              sampleDefinesExporter ⟨TargetType.GUIApp, "\x7bG\x7d"⟩ { name := "Release" }) "A"
            with
          | some w => some w
          | none => firstValue sampleDefinesExporter.msvcExtraPreprocessorDefs.pairs "A" :=
  ⟨by decide, by decide, by decide, by decide,
    (getPreprocessorDefs_last_writer_wins sampleDefinesExternals sampleDefinesExporter
      ⟨TargetType.GUIApp, "\x7bG\x7d"⟩ { name := "Release" } ";" (by decide)).2.2.1 "A"⟩

/-! ## Order of the define sources -/

theorem firstValue_setAll (ops l : List (String × String)) (key : String) :
    firstValue (setAll l ops) key
      = match lastValue ops key with
        | some w => some w
        | none => firstValue l key := by
  induction ops generalizing l with
  | nil => rfl
  | cons a rest ih =>
    obtain ⟨k, v⟩ := a
    rw [setAll_cons, ih, firstValue_setPairs]
    simp only [lastValue]
    cases lastValue rest key
    · by_cases hk : k = key
      · simp [hk]
      · simp [hk]
    · rfl

theorem lastValue_append (a b : List (String × String)) (key : String) :
    lastValue (a ++ b) key
      = match lastValue b key with
        | some w => some w
        | none => lastValue a key := by
  induction a with
  | nil => cases h : lastValue b key <;> simp [lastValue, h]
  | cons p rest ih =>
    obtain ⟨k, v⟩ := p
    rw [List.cons_append]
    simp only [lastValue, ih]
    cases lastValue b key <;> rfl

/-- C11, as stated, fails: on an AAX target whose project and user defines set
`JucePlugin_AAXLibs_path` to `user`, the define emitted carries the path that
`addExtraPreprocessorDefines` computes for the target kind, not the user's value. -/
theorem getPreprocessorDefs_user_define_overridden :
    firstValue (sampleUserDefinesExternals.getAllPreprocessorDefs { name := "Release" }
        TargetType.AAXPlugIn).pairs "JucePlugin_AAXLibs_path" = some "user"
      ∧ getPreprocessorDefs sampleUserDefinesExternals sampleAAXExporter sampleAAXTarget
          { name := "Release" } ";"
        = "WIN32;_WINDOWS;NDEBUG;JucePlugin_AAXLibs_path=\"..\\..\\sdk\\Libs\"" := by
  decide

theorem lastValue_lib_part (P : Prop) [Decidable P] (key : String) (h : key ≠ "_LIB") :
    lastValue (if P then [("_LIB", "")] else []) key = none := by
  have h' : ¬ "_LIB" = key := fun hk => h hk.symm
  by_cases hp : P
  · simp [hp, lastValue, h']
  · simp [hp, lastValue]

/-- C11, amended: `getPreprocessorDefs` applies its sources in the order base defines,
fixed platform and debug defines, the project, module and user defines of
`getAllPreprocessorDefs`, the target-kind define of `addExtraPreprocessorDefines`, and
`_LIB`; so on an AAX target `JucePlugin_AAXLibs_path`, and on an RTAS target
`JucePlugin_WinBag_path`, carries the target-kind value whatever the earlier sources set,
while a define of `getAllPreprocessorDefs` under any other key than these and `_LIB`
overrides the base and fixed defines. -/
theorem getPreprocessorDefs_source_order (x : Externals) (e : MSVCProjectExporterBase)
    (t : MSVCTargetBase) (config : MSVCBuildConfiguration) :
    (getPreprocessorDefs_defines x e t config).pairs
        = setAll e.msvcExtraPreprocessorDefs.pairs
            ([("WIN32", ""), ("_WINDOWS", "")]
              ++ (if config.isDebug then [("DEBUG", ""), ("_DEBUG", "")] else [("NDEBUG", "")])
              ++ (x.getAllPreprocessorDefs config t.type).pairs
              ++ (match t.type with
                  | TargetType.AAXPlugIn =>
                    [("JucePlugin_AAXLibs_path", createRebasedPath x e
                        (x.relativeChildFile ⟨e.aaxPathValue, RootFolder.projectFolder⟩
                          "Libs"))]
                  | TargetType.RTASPlugIn =>
                    [("JucePlugin_WinBag_path", createRebasedPath x e
                        (x.relativeChildFile ⟨e.rtasPathValue, RootFolder.projectFolder⟩
                          "WinBag"))]
                  | _ => [])
              ++ (if x.getTargetFileType t.type = TargetFileType.staticLibrary
                      ∨ x.getTargetFileType t.type = TargetFileType.sharedLibraryOrDLL then
                    [("_LIB", "")] else []))
      ∧ (t.type = TargetType.AAXPlugIn →
          firstValue (getPreprocessorDefs_defines x e t config).pairs "JucePlugin_AAXLibs_path"
            = some (createRebasedPath x e
                (x.relativeChildFile ⟨e.aaxPathValue, RootFolder.projectFolder⟩ "Libs")))
      ∧ (t.type = TargetType.RTASPlugIn →
          firstValue (getPreprocessorDefs_defines x e t config).pairs "JucePlugin_WinBag_path"
            = some (createRebasedPath x e
                (x.relativeChildFile ⟨e.rtasPathValue, RootFolder.projectFolder⟩ "WinBag")))
      ∧ (∀ key v, lastValue (x.getAllPreprocessorDefs config t.type).pairs key = some v →
          key ≠ "JucePlugin_AAXLibs_path" → key ≠ "JucePlugin_WinBag_path" → key ≠ "_LIB" →
          firstValue (getPreprocessorDefs_defines x e t config).pairs key = some v) := by
  refine ⟨?_, ?_, ?_, ?_⟩
  · rw [getPreprocessorDefs_defines_eq]
    rfl
  · intro ht
    rw [getPreprocessorDefs_defines_eq, firstValue_setAll, getPreprocessorDefs_overrides,
      lastValue_append, lastValue_lib_part _ _ (by decide), lastValue_append, ht]
    simp [lastValue]
  · intro ht
    rw [getPreprocessorDefs_defines_eq, firstValue_setAll, getPreprocessorDefs_overrides,
      lastValue_append, lastValue_lib_part _ _ (by decide), lastValue_append, ht]
    simp [lastValue]
  · intro key v hv h1 h2 h3
    have h1' : ¬ "JucePlugin_AAXLibs_path" = key := fun h => h1 h.symm
    have h2' : ¬ "JucePlugin_WinBag_path" = key := fun h => h2 h.symm
    have hkind : lastValue
        (match t.type with
          | TargetType.AAXPlugIn =>
            [("JucePlugin_AAXLibs_path", createRebasedPath x e
                (x.relativeChildFile ⟨e.aaxPathValue, RootFolder.projectFolder⟩ "Libs"))]
          | TargetType.RTASPlugIn =>
            [("JucePlugin_WinBag_path", createRebasedPath x e
                (x.relativeChildFile ⟨e.rtasPathValue, RootFolder.projectFolder⟩ "WinBag"))]
          | _ => []) key = none := by
      cases t.type <;> simp [lastValue, h1', h2']
    rw [getPreprocessorDefs_defines_eq, firstValue_setAll, getPreprocessorDefs_overrides,
      lastValue_append, lastValue_lib_part _ _ h3, lastValue_append, hkind, lastValue_append,
      hv]

theorem getPreprocessorDefs_source_order_witness :
    sampleAAXTarget.type = TargetType.AAXPlugIn
      ∧ firstValue (getPreprocessorDefs_defines sampleUserDefinesExternals sampleAAXExporter
          sampleAAXTarget { name := "Release" }).pairs "JucePlugin_AAXLibs_path"
        = some (createRebasedPath sampleUserDefinesExternals sampleAAXExporter
            (sampleUserDefinesExternals.relativeChildFile
              ⟨sampleAAXExporter.aaxPathValue, RootFolder.projectFolder⟩ "Libs")) :=
  ⟨rfl, (getPreprocessorDefs_source_order sampleUserDefinesExternals sampleAAXExporter
      sampleAAXTarget { name := "Release" }).2.1 rfl⟩

/-! ## Libraries to link -/

theorem getModuleLibs_eq (e : MSVCProjectExporterBase) :
    getModuleLibs e = e.windowsLibs.map (fun lib => lib ++ ".lib") := by
  unfold getModuleLibs
  have h : ∀ (l acc : List String),
      l.foldl (fun result lib => result ++ [lib ++ ".lib"]) acc
        = acc ++ l.map (fun lib => lib ++ ".lib") := by
    intro l
    induction l with
    | nil => intro acc; simp
    | cons a rest ih => intro acc; simp [ih]
  simpa using h e.windowsLibs []

theorem getSharedCodeTarget_some (targets : List MSVCTargetBase) (shared : MSVCTargetBase)
    (h : getSharedCodeTarget targets = some shared) :
    shared ∈ targets ∧ shared.type = TargetType.SharedCodeTarget := by
  induction targets with
  | nil => simp [getSharedCodeTarget] at h
  | cons t rest ih =>
    by_cases ht : t.type = TargetType.SharedCodeTarget
    · simp only [getSharedCodeTarget, if_pos ht, Option.some.injEq] at h
      subst h
      exact ⟨List.mem_cons_self _ _, ht⟩
    · simp only [getSharedCodeTarget, if_neg ht] at h
      exact ⟨List.mem_cons_of_mem _ (ih h).1, (ih h).2⟩

theorem getSharedCodeTarget_none (targets : List MSVCTargetBase)
    (h : getSharedCodeTarget targets = none) :
    ∀ s ∈ targets, s.type ≠ TargetType.SharedCodeTarget := by
  induction targets with
  | nil => simp
  | cons t rest ih =>
    by_cases ht : t.type = TargetType.SharedCodeTarget
    · simp [getSharedCodeTarget, ht] at h
    · simp only [getSharedCodeTarget, if_neg ht] at h
      intro s hs
      rcases List.mem_cons.1 hs with rfl | hs
      · exact ht
      · exact ih h s hs

/-- C20: the text returned by `getExternalLibraries` is the `;`-joined list made of the
explicit library string when it is not empty, then every entry of `windowsLibs` followed by
`.lib`, then the shared-code part; the shared-code part is the single output file name
(`getBinaryNameWithSuffix` for the configuration) of a shared-code target of the target list
when the target is not itself a shared-code target and the list has one, and is empty
otherwise. -/
theorem getExternalLibraries_list (x : Externals) (e : MSVCProjectExporterBase)
    (t : MSVCTargetBase) (config : MSVCBuildConfiguration) (otherLibs : String) :
    ∃ sharedPart : List String,
      getExternalLibraries x e t config otherLibs
          = joinIntoString
              ((if otherLibs = "" then [] else [otherLibs])
                ++ e.windowsLibs.map (fun lib => lib ++ ".lib")
                ++ sharedPart) ";"
        ∧ ((t.type ≠ TargetType.SharedCodeTarget
              ∧ ∃ s ∈ e.targets, s.type = TargetType.SharedCodeTarget) →
            ∃ shared ∈ e.targets, shared.type = TargetType.SharedCodeTarget
              ∧ getSharedCodeTarget e.targets = some shared
              ∧ sharedPart = [getBinaryNameWithSuffix x shared config])
        ∧ (¬ (t.type ≠ TargetType.SharedCodeTarget
              ∧ ∃ s ∈ e.targets, s.type = TargetType.SharedCodeTarget) →
            sharedPart = []) := by
  have hlibs : ∀ l : List String,
      (if (!(getModuleLibs e).isEmpty) = true then l ++ getModuleLibs e else l)
        = l ++ e.windowsLibs.map (fun lib => lib ++ ".lib") := by
    intro l
    rw [← getModuleLibs_eq]
    cases hm : getModuleLibs e <;> simp
  have hother : (if isNotEmpty otherLibs = true then ([] : List String) ++ [otherLibs] else [])
      = (if otherLibs = "" then [] else [otherLibs]) := by
    by_cases ho : otherLibs = "" <;> simp [isNotEmpty, ho]
  unfold getExternalLibraries
  simp only [hlibs, hother]
  by_cases ht : t.type = TargetType.SharedCodeTarget
  · refine ⟨[], ?_, ?_, ?_⟩
    · simp [ht]
    · intro h
      exact absurd ht h.1
    · intro _
      rfl
  · cases hs : getSharedCodeTarget e.targets with
    | none =>
      refine ⟨[], ?_, ?_, ?_⟩
      · simp [ht]
      · rintro ⟨_, s, hsm, hst⟩
        exact absurd hst (getSharedCodeTarget_none e.targets hs s hsm)
      · intro _
        rfl
    | some shared =>
      obtain ⟨hm, hty⟩ := getSharedCodeTarget_some e.targets shared hs
      refine ⟨[getBinaryNameWithSuffix x shared config], ?_, ?_, ?_⟩
      · simp [ht]
      · intro _
        exact ⟨shared, hm, hty, rfl, rfl⟩
      · intro h
        exact absurd ⟨ht, shared, hm, hty⟩ h

theorem getExternalLibraries_list_witness :
    getExternalLibraries sampleExternals sampleLibsExporter ⟨TargetType.VSTPlugIn, "\x7bV\x7d"⟩
        { name := "Release", targetBinaryNameString := "Synth" } "extra.lib"
      = "extra.lib;ws2_32.lib;version.lib;Synth.lib"
    ∧ ∃ sharedPart : List String,
      getExternalLibraries sampleExternals sampleLibsExporter ⟨TargetType.VSTPlugIn, "\x7bV\x7d"⟩
          { name := "Release", targetBinaryNameString := "Synth" } "extra.lib"
        = joinIntoString
            ((if ("extra.lib" : String) = "" then [] else ["extra.lib"])
              ++ sampleLibsExporter.windowsLibs.map (fun lib => lib ++ ".lib")
              ++ sharedPart) ";"
      ∧ sharedPart = [getBinaryNameWithSuffix sampleExternals
          ⟨TargetType.SharedCodeTarget, "\x7bS\x7d"⟩
          { name := "Release", targetBinaryNameString := "Synth" }] := by
  refine ⟨by decide, ?_⟩
  obtain ⟨sharedPart, h1, h2, _⟩ :=
    getExternalLibraries_list sampleExternals sampleLibsExporter ⟨TargetType.VSTPlugIn, "\x7bV\x7d"⟩
      { name := "Release", targetBinaryNameString := "Synth" } "extra.lib"
  obtain ⟨shared, _, _, hs, hp⟩ := h2 ⟨by decide, by decide⟩
  have hshared : shared = ⟨TargetType.SharedCodeTarget, "\x7bS\x7d"⟩ := by
    have : getSharedCodeTarget sampleLibsExporter.targets
        = some ⟨TargetType.SharedCodeTarget, "\x7bS\x7d"⟩ := by decide
    rw [this] at hs
    exact (Option.some.inj hs).symm
  exact ⟨sharedPart, h1, by rw [hp, hshared]⟩

/-! ## The bitmap written for a small icon -/

theorem foldl_append_list {α β : Type} (F : List β → α → List β) (B : α → List β)
    (h : ∀ out a, F out a = out ++ B a) (l : List α) (out : List β) :
    l.foldl F out = out ++ l.flatMap B := by
  induction l generalizing out with
  | nil => simp
  | cons a rest ih => rw [List.foldl_cons, h, ih, List.flatMap_cons, List.append_assoc]

theorem foldl_writeByte_zero (n : Nat) (out : List Nat) :
    (List.range n).foldl (fun out _ => writeByte out 0) out = out ++ List.replicate n 0 := by
  rw [foldl_append_list (fun out (_ : Nat) => writeByte out 0) (fun _ => [0])
    (fun out _ => rfl) (List.range n) out]
  congr 1
  induction n with
  | zero => rfl
  | succ k ih =>
    rw [List.range_succ, List.flatMap_append, ih, List.replicate_succ']
    rfl

theorem maskStep_out (image : Image) (y : Nat) (xs : List Nat) (mask count : Nat)
    (out : List Nat) :
    xs.foldl (maskStep image y) (mask, count, out)
      = ((xs.foldl (maskStep image y) (mask, count, [])).1,
          (xs.foldl (maskStep image y) (mask, count, [])).2.1,
          out ++ (xs.foldl (maskStep image y) (mask, count, [])).2.2) := by
  induction xs generalizing mask count out with
  | nil => simp
  | cons a rest ih =>
    rw [List.foldl_cons, List.foldl_cons]
    by_cases hc : count + 1 = 8
    · have h1 : ∀ o : List Nat, maskStep image y (mask, count, o) a
          = (0, 0, o ++ [(if (image.getPixelColour a y).alpha.toNat ≤ 5
              then mask <<< 1 ||| 1 else mask <<< 1) % 256]) := by
        intro o
        simp [maskStep, hc, writeByte]
      rw [h1, h1, ih, ih 0 0 ([] ++ _)]
      simp
    · have h1 : ∀ o : List Nat, maskStep image y (mask, count, o) a
          = ((if (image.getPixelColour a y).alpha.toNat ≤ 5
              then mask <<< 1 ||| 1 else mask <<< 1), count + 1, o) := by
        intro o
        simp [maskStep, hc]
      rw [h1, h1, ih]

/-- Closed form of `writeBMPImage`: header, colour plane and mask plane, appended to the
stream. -/
theorem writeBMPImage_eq (image : Image) (w h : Nat) (out : List Nat) :
    writeBMPImage image w h out
      = out ++ (bmpHeader w h ++ (colourPlane image w h ++ maskPlane image w h)) := by
  have hcol : ∀ o : List Nat,
      (List.range h).reverse.foldl
        (fun out y =>
          (List.range w).foldl
            (fun out x =>
              let pixel := image.getPixelColour x y
              if pixel.alpha.toNat ≤ 5 then writeInt out 0
              else
                let out := writeByte out pixel.blue.toNat
                let out := writeByte out pixel.green.toNat
                let out := writeByte out pixel.red.toNat
                writeByte out pixel.alpha.toNat)
            out)
        o
      = o ++ colourPlane image w h := by
    intro o
    apply foldl_append_list
    intro out y
    apply foldl_append_list
    intro out x
    have hb := Nat.mod_eq_of_lt (image.getPixelColour x y).blue.toNat_lt
    have hg := Nat.mod_eq_of_lt (image.getPixelColour x y).green.toNat_lt
    have hr := Nat.mod_eq_of_lt (image.getPixelColour x y).red.toNat_lt
    have ha := Nat.mod_eq_of_lt (image.getPixelColour x y).alpha.toNat_lt
    by_cases hp : (image.getPixelColour x y).alpha.toNat ≤ 5
    · simp [pixelBytes, hp, writeInt]
    · simp only [pixelBytes, hp, if_false, writeByte, List.append_assoc, List.singleton_append]
      simp only [Nat.reducePow] at hb hg hr ha
      rw [hb, hg, hr, ha]
      simp
  have hmask : ∀ o : List Nat,
      (List.range h).reverse.foldl
        (fun out y =>
          let state := (List.range w).foldl
            (fun (state : Nat × Nat × List Nat) x =>
              let mask := state.1
              let count := state.2.1
              let out := state.2.2
              let pixel := image.getPixelColour x y
              let mask := mask <<< 1
              let mask := if pixel.alpha.toNat ≤ 5 then mask ||| 1 else mask
              let count := count + 1
              if count = 8 then (0, 0, writeByte out mask) else (mask, count, out))
            (0, 0, out)
          let mask := state.1
          let out := state.2.2
          let out := if mask ≠ 0 then writeByte out mask else out
          (List.range (((w / 8 + 3) &&& 4294967292) - w / 8)).foldl
            (fun out _ => writeByte out 0) out)
        o
      = o ++ maskPlane image w h := by
    intro o
    apply foldl_append_list
    intro out y
    show (List.range (maskStride w - w / 8)).foldl (fun out _ => writeByte out 0)
        (if ((List.range w).foldl (maskStep image y) (0, 0, out)).1 ≠ 0
          then writeByte ((List.range w).foldl (maskStep image y) (0, 0, out)).2.2
            ((List.range w).foldl (maskStep image y) (0, 0, out)).1
          else ((List.range w).foldl (maskStep image y) (0, 0, out)).2.2)
      = out ++ maskRow image w y
    rw [foldl_writeByte_zero, maskStep_out image y (List.range w) 0 0 out]
    simp only [maskRow]
    by_cases hm : ((List.range w).foldl (maskStep image y) (0, 0, [])).1 = 0
    · simp [hm]
    · simp [hm, writeByte]
  unfold writeBMPImage
  dsimp only
  rw [hmask, hcol]
  simp [writeInt, writeShort, bmpHeader, maskStride]

/-! ## The icon container -/

theorem iconBlock_append (x : Externals) (image : Image) (dataBlock : List Nat) :
    (if image.width ≥ 256 ∨ image.height ≥ 256 then dataBlock ++ x.pngEncode image
      else writeBMPImage image image.width image.height dataBlock)
      = dataBlock ++ iconBlock x image := by
  unfold iconBlock
  by_cases h : image.width ≥ 256 ∨ image.height ≥ 256
  · rw [if_pos h, if_pos h]
  · rw [if_neg h, if_neg h, writeBMPImage_eq, writeBMPImage_eq]
    simp

theorem writeIconFile_loop (x : Externals) (dataBlockStart : Nat) (images : List Image)
    (out dataBlock : List Nat) :
    images.foldl
        (fun (state : List Nat × List Nat) image =>
          let out := state.1
          let dataBlock := state.2
          let oldDataSize := dataBlock.length
          let w := image.width
          let h := image.height
          let dataBlock :=
            if w ≥ 256 ∨ h ≥ 256 then dataBlock ++ x.pngEncode image
            else writeBMPImage image w h dataBlock
          let out := writeByte out w
          let out := writeByte out h
          let out := writeByte out 0
          let out := writeByte out 0
          let out := writeShort out 1
          let out := writeShort out 32
          let out := writeInt out (dataBlock.length - oldDataSize)
          let out := writeInt out (dataBlockStart + oldDataSize)
          (out, dataBlock))
        (out, dataBlock)
      = (out ++ (iconDirectory x dataBlockStart dataBlock.length images).flatten,
          dataBlock ++ (images.map (iconBlock x)).flatten) := by
  induction images generalizing out dataBlock with
  | nil => simp [iconDirectory]
  | cons image rest ih =>
    rw [List.foldl_cons]
    dsimp only
    rw [iconBlock_append, ih]
    simp [iconDirectory, iconDirEntry, writeByte, writeShort, writeInt]

theorem length_iconDirectory (x : Externals) (dataBlockStart oldDataSize : Nat)
    (images : List Image) :
    (iconDirectory x dataBlockStart oldDataSize images).flatten.length = 16 * images.length := by
  induction images generalizing oldDataSize with
  | nil => rfl
  | cons image rest ih =>
    simp only [iconDirectory, List.flatten_cons, List.length_append, ih, List.length_cons]
    simp [iconDirEntry]
    omega

/-- Closed form of `writeIconFile` on an empty stream: the six header bytes, the directory
entries, and the encoded blocks; the condition of its `jassert` holds. -/
theorem writeIconFile_eq (x : Externals) (images : List Image) :
    writeIconFile x images []
      = ([0, 0, 1, 0, images.length % 256, images.length / 256 % 256]
            ++ (iconDirectory x (6 + images.length * 16) 0 images).flatten
            ++ (images.map (iconBlock x)).flatten,
          true) := by
  unfold writeIconFile
  dsimp only
  rw [writeIconFile_loop]
  have hl := length_iconDirectory x (6 + images.length * 16) 0 images
  rw [List.length_flatten] at hl
  simp [writeShort, hl]
  omega

theorem getD_flatten_uniform (L : List (List Nat)) (k : Nat) (hk : ∀ l ∈ L, l.length = k)
    (i j : Nat) (hi : i < L.length) (hj : j < k) :
    L.flatten.getD (k * i + j) 0 = (L.getD i []).getD j 0 := by
  induction L generalizing i with
  | nil => simp at hi
  | cons l rest ih =>
    have hl : l.length = k := hk l (List.mem_cons_self _ _)
    rw [List.flatten_cons]
    cases i with
    | zero =>
      rw [Nat.mul_zero, Nat.zero_add, List.getD_append _ _ _ _ (by omega)]
      rfl
    | succ i' =>
      rw [List.getD_append_right _ _ _ _ (by rw [hl, Nat.mul_succ]; omega)]
      have : k * (i' + 1) + j - l.length = k * i' + j := by
        rw [hl, Nat.mul_succ]; omega
      rw [this, ih (fun m hm => hk m (List.mem_cons_of_mem _ hm)) i'
        (by simpa using hi)]
      rfl

theorem length_iconDirectory_entry (x : Externals) (dataBlockStart oldDataSize : Nat)
    (images : List Image) :
    ∀ l ∈ iconDirectory x dataBlockStart oldDataSize images, l.length = 16 := by
  induction images generalizing oldDataSize with
  | nil => simp [iconDirectory]
  | cons image rest ih =>
    intro l hl
    simp only [iconDirectory, List.mem_cons] at hl
    rcases hl with rfl | hl
    · rfl
    · exact ih _ l hl

theorem length_iconDirectory_list (x : Externals) (dataBlockStart oldDataSize : Nat)
    (images : List Image) :
    (iconDirectory x dataBlockStart oldDataSize images).length = images.length := by
  induction images generalizing oldDataSize with
  | nil => rfl
  | cons image rest ih => simp [iconDirectory, ih]

theorem iconDirectory_getD (x : Externals) (dataBlockStart oldDataSize : Nat)
    (images : List Image) (i : Nat) (hi : i < images.length) :
    ∃ image, (iconDirectory x dataBlockStart oldDataSize images).getD i []
      = iconDirEntry image
          ((images.map (fun im => (iconBlock x im).length)).getD i 0)
          (dataBlockStart + (oldDataSize
            + ((images.map (fun im => (iconBlock x im).length)).take i).sum)) := by
  induction images generalizing oldDataSize i with
  | nil => simp at hi
  | cons image rest ih =>
    cases i with
    | zero => exact ⟨image, by simp [iconDirectory]⟩
    | succ i' =>
      obtain ⟨im, him⟩ := ih (oldDataSize + (iconBlock x image).length) i'
        (by simpa using hi)
      refine ⟨im, ?_⟩
      simp only [iconDirectory, List.getD_cons_succ, List.map_cons, List.take_succ_cons,
        List.sum_cons]
      rw [him, Nat.add_assoc]

theorem readInt_decode (v : Nat) (h : v < 2 ^ 32) :
    v % 256 + 256 * (v / 256 % 256) + 65536 * (v / 65536 % 256)
      + 16777216 * (v / 16777216 % 256) = v := by
  omega

/-- The two 32-bit fields of the directory entries that `writeIconFile` writes, when every
length and offset fits a 32-bit field: the length field of entry `i` is the length of block
`i`, its offset field is the size of header and directory plus the lengths of the blocks
before it. -/
theorem writeIconFile_fields (x : Externals) (images : List Image)
    (hfit : 6 + 16 * images.length
      + (images.map (fun im => (iconBlock x im).length)).sum < 2 ^ 32)
    (i : Nat) (hi : i < images.length) :
    readInt (writeIconFile x images []).1 (6 + 16 * i + 8)
        = (images.map (fun im => (iconBlock x im).length)).getD i 0
      ∧ readInt (writeIconFile x images []).1 (6 + 16 * i + 12)
        = 6 + 16 * images.length
          + ((images.map (fun im => (iconBlock x im).length)).take i).sum := by
  have hsum := List.sum_take_add_sum_drop (images.map (fun im => (iconBlock x im).length)) i
  have hlen : (images.map (fun im => (iconBlock x im).length)).getD i 0
      ≤ ((images.map (fun im => (iconBlock x im).length)).drop i).sum := by
    have hi' : i < (images.map (fun im => (iconBlock x im).length)).length := by simpa using hi
    rw [List.getD_eq_getElem _ _ hi', List.drop_eq_getElem_cons hi', List.sum_cons]
    omega
  have hbyte : ∀ j, j < 16 →
      (writeIconFile x images []).1.getD (6 + 16 * i + j) 0
        = ((iconDirectory x (6 + images.length * 16) 0 images).getD i []).getD j 0 := by
    intro j hj
    rw [writeIconFile_eq]
    dsimp only
    have hE := length_iconDirectory x (6 + images.length * 16) 0 images
    rw [List.getD_append _ _ _ _ (by simp only [List.length_append, hE]; simp; omega),
      List.getD_append_right _ _ _ _ (by simp; omega),
      show 6 + 16 * i + j - [0, 0, 1, 0, images.length % 256, images.length / 256 % 256].length
        = 16 * i + j from by simp; omega]
    exact getD_flatten_uniform _ 16 (length_iconDirectory_entry _ _ _ _) i j
      (by rw [length_iconDirectory_list]; exact hi) hj
  obtain ⟨image, hent⟩ := iconDirectory_getD x (6 + images.length * 16) 0 images i hi
  unfold readInt
  have e1 : 6 + 16 * i + 8 + 1 = 6 + 16 * i + 9 := rfl
  have e2 : 6 + 16 * i + 8 + 2 = 6 + 16 * i + 10 := rfl
  have e3 : 6 + 16 * i + 8 + 3 = 6 + 16 * i + 11 := rfl
  have e4 : 6 + 16 * i + 12 + 1 = 6 + 16 * i + 13 := rfl
  have e5 : 6 + 16 * i + 12 + 2 = 6 + 16 * i + 14 := rfl
  have e6 : 6 + 16 * i + 12 + 3 = 6 + 16 * i + 15 := rfl
  rw [e1, e2, e3, e4, e5, e6, hbyte 8 (by omega), hbyte 9 (by omega), hbyte 10 (by omega),
    hbyte 11 (by omega), hbyte 12 (by omega), hbyte 13 (by omega), hbyte 14 (by omega),
    hbyte 15 (by omega), hent]
  simp only [iconDirEntry, List.getD_cons_succ, List.getD_cons_zero]
  constructor
  · exact readInt_decode _ (by omega)
  · rw [readInt_decode _ (by omega)]
    omega

theorem sum_take_succ (l : List Nat) (i : Nat) (hi : i < l.length) :
    (l.take (i + 1)).sum = (l.take i).sum + l.getD i 0 := by
  induction l generalizing i with
  | nil => simp at hi
  | cons a rest ih =>
    cases i with
    | zero => simp
    | succ i' =>
      have := ih i' (by simpa using hi)
      simp only [List.take_succ_cons, List.sum_cons, List.getD_cons_succ] at this ⊢
      omega

theorem sum_take_le (l : List Nat) (i j : Nat) (h : i ≤ j) :
    (l.take i).sum ≤ (l.take j).sum := by
  induction l generalizing i j with
  | nil => simp
  | cons a rest ih =>
    cases i with
    | zero => simp
    | succ i' =>
      cases j with
      | zero => omega
      | succ j' =>
        have := ih i' j' (by omega)
        simp only [List.take_succ_cons, List.sum_cons]
        omega

theorem drop_flatten_sum (L : List (List Nat)) (i : Nat) :
    L.flatten.drop ((L.map List.length).take i).sum = (L.drop i).flatten := by
  induction L generalizing i with
  | nil => simp
  | cons l rest ih =>
    cases i with
    | zero => simp
    | succ i' =>
      simp only [List.map_cons, List.take_succ_cons, List.sum_cons, List.flatten_cons,
        List.drop_succ_cons]
      rw [List.drop_append, ih]

/-- C12: for images whose encoded blocks are not empty and whose container fits the 32-bit
fields of the format, the length field of every directory entry written by `writeIconFile`
is the length of the encoded block of that image, the offset fields increase strictly from
one entry to the next, and the byte range of an entry ends before or where the range of any
later entry begins. -/
theorem writeIconFile_directory_entries (x : Externals) (images : List Image)
    (hne : ∀ im ∈ images, iconBlock x im ≠ [])
    (hfit : 6 + 16 * images.length
      + (images.map (fun im => (iconBlock x im).length)).sum < 2 ^ 32) :
    (∀ i, i < images.length →
        readInt (writeIconFile x images []).1 (6 + 16 * i + 8)
          = ((images.map (iconBlock x)).getD i []).length)
      ∧ (∀ i, i + 1 < images.length →
        readInt (writeIconFile x images []).1 (6 + 16 * i + 12)
          < readInt (writeIconFile x images []).1 (6 + 16 * (i + 1) + 12))
      ∧ (∀ i j, i < j → j < images.length →
        readInt (writeIconFile x images []).1 (6 + 16 * i + 12)
            + readInt (writeIconFile x images []).1 (6 + 16 * i + 8)
          ≤ readInt (writeIconFile x images []).1 (6 + 16 * j + 12)) := by
  have hlenD : ∀ i, i < images.length →
      (images.map (fun im => (iconBlock x im).length)).getD i 0
        = ((images.map (iconBlock x)).getD i []).length := by
    intro i hi
    rw [List.getD_eq_getElem _ _ (by simpa using hi),
      List.getD_eq_getElem _ _ (by simpa using hi)]
    simp
  have hpos : ∀ i, i < images.length →
      0 < (images.map (fun im => (iconBlock x im).length)).getD i 0 := by
    intro i hi
    rw [List.getD_eq_getElem _ _ (by simpa using hi), List.getElem_map]
    exact List.length_pos.2 (hne _ (List.getElem_mem _))
  refine ⟨?_, ?_, ?_⟩
  · intro i hi
    rw [(writeIconFile_fields x images hfit i hi).1, hlenD i hi]
  · intro i hi
    rw [(writeIconFile_fields x images hfit i (by omega)).2,
      (writeIconFile_fields x images hfit (i + 1) hi).2,
      sum_take_succ _ i (by simpa using (by omega : i < images.length))]
    have := hpos i (by omega)
    omega
  · intro i j hij hj
    rw [(writeIconFile_fields x images hfit i (by omega)).2,
      (writeIconFile_fields x images hfit i (by omega)).1,
      (writeIconFile_fields x images hfit j hj).2]
    have h1 := sum_take_succ (images.map (fun im => (iconBlock x im).length)) i
      (by simpa using (by omega : i < images.length))
    have h2 := sum_take_le (images.map (fun im => (iconBlock x im).length)) (i + 1) j hij
    omega

theorem writeIconFile_directory_entries_witness :
    (∀ im ∈ [sampleImage8, sampleImage8], iconBlock sampleExternals im ≠ [])
      ∧ readInt (writeIconFile sampleExternals [sampleImage8, sampleImage8] []).1
          (6 + 16 * 0 + 8) = 76
      ∧ readInt (writeIconFile sampleExternals [sampleImage8, sampleImage8] []).1
          (6 + 16 * 0 + 12)
        < readInt (writeIconFile sampleExternals [sampleImage8, sampleImage8] []).1
          (6 + 16 * (0 + 1) + 12) := by
  have hne : ∀ im ∈ [sampleImage8, sampleImage8], iconBlock sampleExternals im ≠ [] := by
    decide
  have h := writeIconFile_directory_entries sampleExternals [sampleImage8, sampleImage8] hne
    (by decide)
  exact ⟨hne, by decide, h.2.1 0 (by decide)⟩

/-- C13, as stated, fails: for a single image the offset field of the first directory entry
is 22, the size of the header and of the directory, and not 0. -/
theorem writeIconFile_first_offset_not_zero :
    readInt (writeIconFile sampleExternals [sampleImage8] []).1 (6 + 16 * 0 + 12) = 22 := by
  decide

/-- C13, amended: in the container written by `writeIconFile` (when it fits the 32-bit
fields) the offset field of entry `i` is counted from the start of the container: it is the
size of header and directory, `6 + 16 * n`, plus the total length of the encoded blocks of
the entries before `i`; the bytes of the container from that offset on are exactly the
encoded block of entry `i`, and the block region starts where the `jassert` of the function
expects it. -/
theorem writeIconFile_offsets (x : Externals) (images : List Image)
    (hfit : 6 + 16 * images.length
      + (images.map (fun im => (iconBlock x im).length)).sum < 2 ^ 32) :
    (∀ i, i < images.length →
        readInt (writeIconFile x images []).1 (6 + 16 * i + 12)
            = 6 + 16 * images.length
              + (((images.map (iconBlock x)).take i).map List.length).sum
          ∧ ((writeIconFile x images []).1.drop
                (readInt (writeIconFile x images []).1 (6 + 16 * i + 12))).take
              ((images.map (iconBlock x)).getD i []).length
            = (images.map (iconBlock x)).getD i [])
      ∧ (writeIconFile x images []).2 = true := by
  have hmap : ∀ i, (images.map (fun im => (iconBlock x im).length)).take i
      = ((images.map (iconBlock x)).take i).map List.length := by
    intro i
    rw [← List.map_take, ← List.map_take, List.map_map]
    rfl
  refine ⟨?_, by rw [writeIconFile_eq]⟩
  intro i hi
  have hoff := (writeIconFile_fields x images hfit i hi).2
  rw [hmap] at hoff
  refine ⟨hoff, ?_⟩
  rw [hoff, writeIconFile_eq]
  dsimp only
  have hE := length_iconDirectory x (6 + images.length * 16) 0 images
  have hpre : ([0, 0, 1, 0, images.length % 256, images.length / 256 % 256]
      ++ (iconDirectory x (6 + images.length * 16) 0 images).flatten).length
        = 6 + 16 * images.length := by
    rw [List.length_append, hE]
    rfl
  rw [← hpre, List.drop_append, List.map_take, drop_flatten_sum,
    List.drop_eq_getElem_cons (by simpa using hi), List.flatten_cons,
    List.getD_eq_getElem _ _ (by simpa using hi), List.take_left]

theorem writeIconFile_offsets_witness :
    readInt (writeIconFile sampleExternals [sampleImage8, sampleImage8] []).1 (6 + 16 * 1 + 12)
        = 6 + 16 * 2 + 76
      ∧ readInt (writeIconFile sampleExternals [sampleImage8, sampleImage8] []).1
          (6 + 16 * 1 + 12)
        = 6 + 16 * [sampleImage8, sampleImage8].length
          + ((([sampleImage8, sampleImage8].map (iconBlock sampleExternals)).take 1).map
              List.length).sum :=
  ⟨by decide,
    ((writeIconFile_offsets sampleExternals [sampleImage8, sampleImage8] (by decide)).1 1
      (by decide)).1⟩

/-! ## Transparency in the bitmap -/

theorem maskStride_eq (w : Nat) (hw : w < 2 ^ 31) : maskStride w = (w / 8 + 3) / 4 * 4 := by
  unfold maskStride
  generalize hn : w / 8 + 3 = n
  have h : n < 2 ^ 32 := by omega
  apply Nat.eq_of_testBit_eq
  intro i
  have h1 : (4294967292 : Nat) = (2 ^ 30 - 1) <<< 2 := by decide
  have h2 : n / 4 * 4 = (n >>> 2) <<< 2 := by
    rw [Nat.shiftLeft_eq, Nat.shiftRight_eq_div_pow]
  rw [Nat.testBit_and, h1, Nat.testBit_shiftLeft, Nat.testBit_two_pow_sub_one, h2,
    Nat.testBit_shiftLeft, Nat.testBit_shiftRight]
  by_cases hi : 2 ≤ i
  · have h3 : 2 + (i - 2) = i := by omega
    simp only [hi, decide_True, Bool.true_and, h3, ge_iff_le]
    by_cases h30 : i - 2 < 30
    · simp [h30]
    · simp only [h30, decide_False, Bool.and_false]
      symm
      apply Nat.testBit_lt_two_pow
      calc n < 2 ^ 32 := h
        _ ≤ 2 ^ i := Nat.pow_le_pow_right (by decide) (by omega)
  · simp [hi]

theorem drop_flatMap_uniform {α : Type} (l : List α) (f : α → List Nat) (k : Nat)
    (hk : ∀ a ∈ l, (f a).length = k) (i : Nat) (hi : i < l.length) :
    (l.flatMap f).drop (k * i) = f (l.get ⟨i, hi⟩) ++ (l.drop (i + 1)).flatMap f := by
  induction l generalizing i with
  | nil => simp at hi
  | cons a rest ih =>
    have ha : (f a).length = k := hk a (List.mem_cons_self _ _)
    cases i with
    | zero => simp
    | succ i' =>
      have hi' : i' < rest.length := by simpa using hi
      rw [List.flatMap_cons, Nat.mul_succ, Nat.add_comm (k * i') k, ← ha, List.drop_append,
        ha, ih (fun b hb => hk b (List.mem_cons_of_mem _ hb)) i' hi']
      rfl

theorem length_pixelBytes (pixel : Colour) : (pixelBytes pixel).length = 4 := by
  unfold pixelBytes
  split <;> rfl

theorem length_flatMap_uniform {α : Type} (l : List α) (f : α → List Nat) (k : Nat)
    (hk : ∀ a ∈ l, (f a).length = k) : (l.flatMap f).length = k * l.length := by
  induction l with
  | nil => simp
  | cons a rest ih =>
    rw [List.flatMap_cons, List.length_append, hk a (List.mem_cons_self _ _),
      ih (fun b hb => hk b (List.mem_cons_of_mem _ hb)), List.length_cons, Nat.mul_succ]
    omega

theorem get_reverse_range (h y : Nat) (hy : y < h)
    (hr : h - 1 - y < (List.range h).reverse.length) :
    (List.range h).reverse.get ⟨h - 1 - y, hr⟩ = y := by
  rw [List.get_eq_getElem, List.getElem_reverse, List.getElem_range]
  simp only [List.length_range]
  omega

/-- The four bytes of the colour plane that belong to the pixel at `(x, y)`. -/
theorem colourPlane_pixel (image : Image) (w h x y : Nat) (hx : x < w) (hy : y < h) :
    ((colourPlane image w h).drop ((h - 1 - y) * (w * 4) + x * 4)).take 4
      = pixelBytes (image.getPixelColour x y) := by
  have hrow : ∀ y' ∈ (List.range h).reverse,
      ((List.range w).flatMap (fun x => pixelBytes (image.getPixelColour x y'))).length
        = w * 4 := by
    intro y' _
    rw [length_flatMap_uniform _ _ 4 (fun a _ => length_pixelBytes _), List.length_range]
    omega
  have hr : h - 1 - y < (List.range h).reverse.length := by
    simp only [List.length_reverse, List.length_range]
    omega
  have hxl : x < (List.range w).length := by simpa using hx
  unfold colourPlane
  rw [← List.drop_drop, Nat.mul_comm (h - 1 - y) (w * 4),
    drop_flatMap_uniform _ _ (w * 4) hrow (h - 1 - y) hr, get_reverse_range h y hy hr,
    List.drop_append_of_le_length (by
      rw [length_flatMap_uniform _ _ 4 (fun a _ => length_pixelBytes _), List.length_range]
      omega),
    Nat.mul_comm x 4,
    drop_flatMap_uniform _ _ 4 (fun a _ => length_pixelBytes _) x hxl,
    List.get_eq_getElem, List.getElem_range, List.append_assoc,
    ← length_pixelBytes (image.getPixelColour x y), List.take_left]

theorem maskStep_lt (image : Image) (y mask count x : Nat) (out : List Nat)
    (hc : count + 1 ≠ 8) :
    maskStep image y (mask, count, out) x
      = (pushBit mask (isTransparent image x y), count + 1, out) := by
  by_cases ht : (image.getPixelColour x y).alpha.toNat ≤ 5
  · simp [maskStep, pushBit, isTransparent, hc, ht]
  · simp [maskStep, pushBit, isTransparent, hc, ht]

theorem maskStep_eq (image : Image) (y mask count x : Nat) (out : List Nat)
    (hc : count + 1 = 8) :
    maskStep image y (mask, count, out) x
      = (0, 0, out ++ [pushBit mask (isTransparent image x y) % 256]) := by
  by_cases ht : (image.getPixelColour x y).alpha.toNat ≤ 5
  · simp [maskStep, pushBit, isTransparent, hc, ht, writeByte]
  · simp [maskStep, pushBit, isTransparent, hc, ht, writeByte]

theorem maskStep_eight (image : Image) (y g : Nat) (out : List Nat) :
    [8 * g, 8 * g + 1, 8 * g + 2, 8 * g + 3, 8 * g + 4, 8 * g + 5, 8 * g + 6,
        8 * g + 7].foldl (maskStep image y) (0, 0, out)
      = (0, 0, out ++ [maskByte image y g]) := by
  simp only [List.foldl_cons, List.foldl_nil, maskByte]
  rw [maskStep_lt image y _ 0 (8 * g) out (by decide),
    maskStep_lt image y _ 1 (8 * g + 1) out (by decide),
    maskStep_lt image y _ 2 (8 * g + 2) out (by decide),
    maskStep_lt image y _ 3 (8 * g + 3) out (by decide),
    maskStep_lt image y _ 4 (8 * g + 4) out (by decide),
    maskStep_lt image y _ 5 (8 * g + 5) out (by decide),
    maskStep_lt image y _ 6 (8 * g + 6) out (by decide),
    maskStep_eq image y _ 7 (8 * g + 7) out (by decide)]

theorem range_eight_succ (k : Nat) :
    List.range (8 * (k + 1))
      = List.range (8 * k)
        ++ [8 * k, 8 * k + 1, 8 * k + 2, 8 * k + 3, 8 * k + 4, 8 * k + 5, 8 * k + 6,
            8 * k + 7] := by
  have h : 8 * (k + 1) = 8 * k + 1 + 1 + 1 + 1 + 1 + 1 + 1 + 1 := by omega
  rw [h]
  simp only [List.range_succ, List.append_assoc, List.singleton_append, List.cons_append,
    List.nil_append, Nat.add_assoc]

theorem maskStep_full_row (image : Image) (y k : Nat) (out : List Nat) :
    (List.range (8 * k)).foldl (maskStep image y) (0, 0, out)
      = (0, 0, out ++ (List.range k).map (maskByte image y)) := by
  induction k with
  | zero => simp
  | succ k ih =>
    rw [range_eight_succ, List.foldl_append, ih, maskStep_eight, List.range_succ,
      List.map_append, List.append_assoc]
    rfl

theorem maskRow_of_dvd (image : Image) (w y : Nat) (hd : 8 ∣ w) :
    maskRow image w y
      = (List.range (w / 8)).map (maskByte image y)
        ++ List.replicate (maskStride w - w / 8) 0 := by
  obtain ⟨k, rfl⟩ := hd
  unfold maskRow
  simp only [maskStep_full_row]
  simp

theorem testBit_pushBit_zero (mask : Nat) (t : Bool) : (pushBit mask t).testBit 0 = t := by
  cases t <;> simp [pushBit, Nat.testBit_or, Nat.testBit_shiftLeft]

theorem testBit_pushBit_succ (mask i : Nat) (t : Bool) :
    (pushBit mask t).testBit (i + 1) = mask.testBit i := by
  cases t <;> simp [pushBit, Nat.testBit_or, Nat.testBit_shiftLeft, Nat.testBit_one_eq_true_iff_self_eq_zero]

/-- Bit `7 - j` of a mask byte tells whether pixel `8 * g + j` of the row is transparent. -/
theorem testBit_maskByte (image : Image) (y g j : Nat) (hj : j < 8) :
    (maskByte image y g).testBit (7 - j) = isTransparent image (8 * g + j) y := by
  have h256 : (256 : Nat) = 2 ^ 8 := by decide
  unfold maskByte
  rw [h256, Nat.testBit_mod_two_pow]
  simp only [List.foldl_cons, List.foldl_nil]
  have hlt : decide (7 - j < 8) = true := by simp; omega
  rw [hlt, Bool.true_and]
  interval_cases j <;>
    simp only [testBit_pushBit_succ, testBit_pushBit_zero, Nat.add_zero, Nat.sub_zero,
      Nat.reduceSub, Nat.reduceAdd]

theorem length_colourPlane (image : Image) (w h : Nat) :
    (colourPlane image w h).length = h * (w * 4) := by
  unfold colourPlane
  rw [length_flatMap_uniform _ _ (w * 4), List.length_reverse, List.length_range, Nat.mul_comm]
  intro y _
  rw [length_flatMap_uniform _ _ 4 (fun a _ => length_pixelBytes _), List.length_range]
  omega

theorem length_maskRow_of_dvd (image : Image) (w y : Nat) (hd : 8 ∣ w) (hw : w < 2 ^ 31) :
    (maskRow image w y).length = maskStride w := by
  rw [maskRow_of_dvd image w y hd, List.length_append, List.length_map, List.length_range,
    List.length_replicate, maskStride_eq w hw]
  omega

/-- The byte of the mask plane that holds the bit of the pixel at `(x, y)`, for a width that
is a multiple of 8. -/
theorem maskPlane_byte (image : Image) (w h x y : Nat) (hx : x < w) (hy : y < h)
    (hd : 8 ∣ w) (hw : w < 2 ^ 31) :
    (maskPlane image w h).getD ((h - 1 - y) * maskStride w + x / 8) 0
      = maskByte image y (x / 8) := by
  have hr : h - 1 - y < (List.range h).reverse.length := by
    simp only [List.length_reverse, List.length_range]
    omega
  have hg : x / 8 < w / 8 := by
    obtain ⟨k, rfl⟩ := hd
    omega
  have hS : w / 8 ≤ maskStride w := by
    rw [maskStride_eq w hw]
    omega
  rw [List.getD_eq_getElem?_getD, ← List.getElem?_drop, ← List.getD_eq_getElem?_getD]
  unfold maskPlane
  rw [Nat.mul_comm (h - 1 - y) (maskStride w),
    drop_flatMap_uniform _ _ (maskStride w)
      (fun y' _ => length_maskRow_of_dvd image w y' hd hw) (h - 1 - y) hr,
    get_reverse_range h y hy hr,
    List.getD_append _ _ _ _ (by rw [length_maskRow_of_dvd image w y hd hw]; omega),
    maskRow_of_dvd image w y hd,
    List.getD_append _ _ _ _ (by simpa using hg),
    List.getD_eq_getElem _ _ (by simpa using hg)]
  simp

/-- C15, as stated, fails: a pixel whose alpha is exactly 5, which is not below 5, is written
as four zero bytes in the colour plane and has its mask bit set. -/
theorem writeBMPImage_alpha_five_is_transparent :
    ¬ ((sampleImageAlpha5.getPixelColour 2 0).alpha.toNat < 5)
      ∧ ((writeBMPImage sampleImageAlpha5 8 1 []).drop (40 + 2 * 4)).take 4 = [0, 0, 0, 0]
      ∧ ((writeBMPImage sampleImageAlpha5 8 1 []).getD (40 + 8 * 4 + 0) 0).testBit (7 - 2)
          = true := by
  decide

/-- C15, amended: `writeBMPImage` treats a pixel as fully transparent exactly when its alpha
is at most 5. For every pixel `(x, y)` of the image the four bytes of the colour plane at its
place (rows last to first, four bytes per pixel, after the 40 header bytes) are zero when
its alpha is at most 5 and are blue, green, red, alpha otherwise; and for a width that is a
multiple of 8 the bit of the pixel in the mask plane (bit `7 - x % 8` of byte `x / 8` of its
row of `maskStride` bytes) is 1 exactly when its alpha is at most 5, so both planes agree. -/
theorem writeBMPImage_transparency (image : Image) (w h x y : Nat) (out : List Nat)
    (hx : x < w) (hy : y < h) :
    ((writeBMPImage image w h out).drop
          (out.length + 40 + ((h - 1 - y) * (w * 4) + x * 4))).take 4
        = (if (image.getPixelColour x y).alpha.toNat ≤ 5 then [0, 0, 0, 0]
            else [(image.getPixelColour x y).blue.toNat, (image.getPixelColour x y).green.toNat,
              (image.getPixelColour x y).red.toNat, (image.getPixelColour x y).alpha.toNat])
      ∧ (8 ∣ w → w < 2 ^ 31 →
          ((writeBMPImage image w h out).getD
              (out.length + 40 + h * (w * 4) + ((h - 1 - y) * maskStride w + x / 8))
              0).testBit (7 - x % 8)
            = decide ((image.getPixelColour x y).alpha.toNat ≤ 5)) := by
  have hhead : (out ++ bmpHeader w h).length = out.length + 40 := by
    rw [List.length_append]
    rfl
  constructor
  · rw [writeBMPImage_eq, ← List.append_assoc, ← hhead, List.drop_append,
      List.drop_append_of_le_length (by
        rw [length_colourPlane]
        have : (h - 1 - y) * (w * 4) + (w * 4) ≤ h * (w * 4) := by
          have h1 : h - 1 - y + 1 ≤ h := by omega
          calc (h - 1 - y) * (w * 4) + w * 4 = (h - 1 - y + 1) * (w * 4) := by ring
            _ ≤ h * (w * 4) := Nat.mul_le_mul_right _ h1
        omega),
      List.take_append_of_le_length (by
        have hp := colourPlane_pixel image w h x y hx hy
        have hl := congrArg List.length hp
        rw [length_pixelBytes, List.length_take] at hl
        omega),
      colourPlane_pixel image w h x y hx hy]
    rfl
  · intro hd hw
    have hpre : (out ++ bmpHeader w h ++ colourPlane image w h).length
        = out.length + 40 + h * (w * 4) := by
      rw [List.length_append, hhead, length_colourPlane]
    rw [writeBMPImage_eq, ← List.append_assoc, ← List.append_assoc,
      List.getD_append_right _ _ _ _ (by rw [hpre]; omega), hpre,
      Nat.add_sub_cancel_left, maskPlane_byte image w h x y hx hy hd hw,
      testBit_maskByte image y (x / 8) (x % 8) (Nat.mod_lt _ (by decide)),
      Nat.div_add_mod]
    rfl

theorem writeBMPImage_transparency_witness :
    (2 < 8) ∧ (0 < 1) ∧ (8 ∣ 8) ∧ (8 < 2 ^ 31)
      ∧ ((writeBMPImage sampleImage8 8 1 []).getD
            (([] : List Nat).length + 40 + 1 * (8 * 4) + ((1 - 1 - 0) * maskStride 8 + 2 / 8))
            0).testBit (7 - 2 % 8)
          = decide ((sampleImage8.getPixelColour 2 0).alpha.toNat ≤ 5) :=
  ⟨by decide, by decide, by decide, by decide,
    (writeBMPImage_transparency sampleImage8 8 1 2 0 [] (by decide) (by decide)).2
      (by decide) (by decide)⟩

/-- C14, at the failing input: for a 9 by 1 image whose last pixel is transparent,
`writeBMPImage` writes a mask row of 5 bytes although `maskStride` is 4 and the size field of
the header it writes (bytes 20 to 23) announces 36 colour bytes plus 4 mask bytes; with the
same image made opaque the row has 4 bytes, so the row length depends on the alpha values. -/
theorem writeBMPImage_mask_row_overrun :
    maskStride 9 = 4
      ∧ (maskRow sampleImage9 9 0).length = 5
      ∧ (maskRow sampleImage9Opaque 9 0).length = 4
      ∧ readInt (writeBMPImage sampleImage9 9 1 []) 20 = 9 * 4 + 4
      ∧ (writeBMPImage sampleImage9 9 1 []).length = 40 + (9 * 4 + 4) + 1 := by
  decide

/-! ## The file lists of the project document -/

theorem routedTo_append {α : Type} (a b : List α) (sectionOf : α → Option String)
    (tag : String) :
    routedTo (a ++ b) sectionOf tag = routedTo a sectionOf tag ++ routedTo b sectionOf tag := by
  simp [routedTo]

theorem appendCompileEntries_nil (x : Externals) (e : MSVCProjectExporterBase)
    (t : MSVCTargetBase) (lists : FileLists) :
    appendCompileEntries x e t lists [] = lists := by
  simp [appendCompileEntries, routedTo]

theorem appendCompileEntries_append (x : Externals) (e : MSVCProjectExporterBase)
    (t : MSVCTargetBase) (lists : FileLists) (a b : List FileItem) :
    appendCompileEntries x e t (appendCompileEntries x e t lists a) b
      = appendCompileEntries x e t lists (a ++ b) := by
  simp [appendCompileEntries, routedTo_append]

theorem addFilesToCompile_clCompile_eq (x : Externals) (e : MSVCProjectExporterBase)
    (f : FileItem) :
    addFilesToCompile_clCompile x (fileRelativePath x e f) f.shouldBeCompiled
      = compileEntry x e "ClCompile" f := by
  unfold addFilesToCompile_clCompile compileEntry clCompileChildren includePath
  cases hs : shouldUseStdCall x (fileRelativePath x e f) <;>
    cases hc : f.shouldBeCompiled <;>
    simp [XmlElement.setAttribute, XmlElement.addChildElement, StringPairArray.setPairs]

theorem addFilesToCompile_file_eq (x : Externals) (e : MSVCProjectExporterBase)
    (t : MSVCTargetBase) (f : FileItem) (lists : FileLists) :
    addFilesToCompile_file x e t f lists = appendCompileEntries x e t lists [f] := by
  unfold addFilesToCompile_file appendCompileEntries
  simp only [addFilesToCompile_clCompile_eq]
  by_cases h1 : (f.shouldBeAddedToTargetProject
      && decide (x.getTargetTypeFromFilePath f.file = fileTargetType e t)) = true
  · by_cases h2 : (x.hasFileExtension (fileRelativePath x e f) x.cOrCppFileExtensions
        || x.hasFileExtension (fileRelativePath x e f) x.asmFileExtensions) = true
    · by_cases h3 : (decide (fileTargetType e t = TargetType.SharedCodeTarget)
          || f.shouldBeCompiled) = true
      · have hs : compileSection x e t f = some "ClCompile" := by
          unfold compileSection; rw [if_pos h1, if_pos h2, if_pos h3]
        rw [if_pos h1, if_pos h2, if_pos h3]
        simp [routedTo, hs]
      · have hs : compileSection x e t f = none := by
          unfold compileSection; rw [if_pos h1, if_pos h2, if_neg h3]
        rw [if_pos h1, if_pos h2, if_neg h3]
        simp [routedTo, hs]
    · by_cases h4 : x.hasFileExtension (fileRelativePath x e f) x.headerFileExtensions = true
      · have hs : compileSection x e t f = some "ClInclude" := by
          unfold compileSection; rw [if_pos h1, if_neg h2, if_pos h4]
        rw [if_pos h1, if_neg h2, if_pos h4]
        simp [routedTo, hs, compileEntry, includePath, XmlElement.setAttribute,
          StringPairArray.setPairs]
      · by_cases h5 : (!x.hasFileExtension (fileRelativePath x e f) x.objCFileExtensions) = true
        · have hs : compileSection x e t f = some "None" := by
            unfold compileSection; rw [if_pos h1, if_neg h2, if_neg h4, if_pos h5]
          rw [if_pos h1, if_neg h2, if_neg h4, if_pos h5]
          simp [routedTo, hs, compileEntry, includePath, XmlElement.setAttribute,
            StringPairArray.setPairs]
        · have hs : compileSection x e t f = none := by
            unfold compileSection; rw [if_pos h1, if_neg h2, if_neg h4, if_neg h5]
          rw [if_pos h1, if_neg h2, if_neg h4, if_neg h5]
          simp [routedTo, hs]
  · have hs : compileSection x e t f = none := by
      unfold compileSection; rw [if_neg h1]
    rw [if_neg h1]
    simp [routedTo, hs]

mutual
theorem addFilesToCompile_eq (x : Externals) (e : MSVCProjectExporterBase)
    (t : MSVCTargetBase) : ∀ (item : Item) (lists : FileLists),
    addFilesToCompile x e t item lists = appendCompileEntries x e t lists item.files
  | Item.group _ children, lists => by
    rw [addFilesToCompile, Item.files]
    exact addFilesToCompile_children_eq x e t children lists
  | Item.file f, lists => by
    rw [addFilesToCompile, Item.files]
    exact addFilesToCompile_file_eq x e t f lists
theorem addFilesToCompile_children_eq (x : Externals) (e : MSVCProjectExporterBase)
    (t : MSVCTargetBase) : ∀ (children : List Item) (lists : FileLists),
    addFilesToCompile_children x e t children lists
      = appendCompileEntries x e t lists (Item.filesOfList children)
  | [], lists => by
    rw [addFilesToCompile_children, Item.filesOfList, appendCompileEntries_nil]
  | child :: rest, lists => by
    rw [addFilesToCompile_children, Item.filesOfList, addFilesToCompile_eq x e t child,
      addFilesToCompile_children_eq x e t rest, appendCompileEntries_append]
end

/-! ## The lists of the filter document -/

theorem appendFilterEntries_nil (x : Externals) (e : MSVCProjectExporterBase)
    (t : MSVCTargetBase) (lists : FileLists) :
    appendFilterEntries x e t lists [] [] = lists := by
  simp [appendFilterEntries, routedTo]

theorem appendFilterEntries_append (x : Externals) (e : MSVCProjectExporterBase)
    (t : MSVCTargetBase) (lists : FileLists) (a b : List (FileItem × String))
    (ga gb : List XmlElement) :
    appendFilterEntries x e t (appendFilterEntries x e t lists a ga) b gb
      = appendFilterEntries x e t lists (a ++ b) (ga ++ gb) := by
  simp [appendFilterEntries, routedTo_append]

theorem addFilterGroup_eq (x : Externals) (groups : List XmlElement) (path : String) :
    addFilterGroup x groups path = groups ++ [filterDeclaration x path] := by
  simp [addFilterGroup, filterDeclaration, XmlElement.setAttribute,
    XmlElement.addChildElement, StringPairArray.setPairs]

theorem anyAddedToFilter_append (x : Externals) (e : MSVCProjectExporterBase)
    (t : MSVCTargetBase) (a b : List FileItem) :
    anyAddedToFilter x e t (a ++ b) = (anyAddedToFilter x e t a || anyAddedToFilter x e t b) := by
  simp [anyAddedToFilter]

theorem addFilesToFilter_file_eq (x : Externals) (e : MSVCProjectExporterBase)
    (t : MSVCTargetBase) (f : FileItem) (path : String) (lists : FileLists) :
    addFilesToFilter_file x e t f path lists
      = (anyAddedToFilter x e t [f],
          appendFilterEntries x e t lists [filterText (f, path)] []) := by
  unfold addFilesToFilter_file appendFilterEntries anyAddedToFilter filterText
  by_cases h1 : f.shouldBeAddedToTargetProject = true
  · by_cases h2 : (decide (x.getTargetTypeFromFilePath f.file = fileTargetType e t)
        && (decide (fileTargetType e t = TargetType.SharedCodeTarget)
            || f.shouldBeCompiled)) = true
    · have h12 : (f.shouldBeAddedToTargetProject
          && (decide (x.getTargetTypeFromFilePath f.file = fileTargetType e t)
              && (decide (fileTargetType e t = TargetType.SharedCodeTarget)
                  || f.shouldBeCompiled))) = true := by rw [h1, h2]; rfl
      rw [if_pos h1, if_pos h2]
      unfold addFileToFilter
      by_cases h3 : x.hasFileExtension (fileRelativePath x e f) x.headerFileExtensions = true
      · have hs : filterSection x e t f = some "ClInclude" := by
          unfold filterSection; rw [if_pos h12, if_pos h3]
        rw [if_pos h3]
        simp [routedTo, hs, filterEntry, includePath, XmlElement.setAttribute,
          XmlElement.addChildElement, StringPairArray.setPairs]
      · by_cases h4 : x.hasFileExtension (fileRelativePath x e f) x.sourceFileExtensions = true
        · have hs : filterSection x e t f = some "ClCompile" := by
            unfold filterSection; rw [if_pos h12, if_neg h3, if_pos h4]
          rw [if_neg h3, if_pos h4]
          simp [routedTo, hs, filterEntry, includePath, XmlElement.setAttribute,
            XmlElement.addChildElement, StringPairArray.setPairs]
        · have hs : filterSection x e t f = some "None" := by
            unfold filterSection; rw [if_pos h12, if_neg h3, if_neg h4]
          rw [if_neg h3, if_neg h4]
          simp [routedTo, hs, filterEntry, includePath, XmlElement.setAttribute,
            XmlElement.addChildElement, StringPairArray.setPairs]
    · have h12 : ¬ (f.shouldBeAddedToTargetProject
          && (decide (x.getTargetTypeFromFilePath f.file = fileTargetType e t)
              && (decide (fileTargetType e t = TargetType.SharedCodeTarget)
                  || f.shouldBeCompiled))) = true := by
        rw [h1, Bool.true_and]; exact h2
      have hs : filterSection x e t f = none := by
        unfold filterSection; rw [if_neg h12]
      rw [if_pos h1, if_neg h2]
      simp [routedTo, hs]
  · have h12 : ¬ (f.shouldBeAddedToTargetProject
        && (decide (x.getTargetTypeFromFilePath f.file = fileTargetType e t)
            && (decide (fileTargetType e t = TargetType.SharedCodeTarget)
                || f.shouldBeCompiled))) = true := by
      simp only [Bool.not_eq_true] at h1
      rw [h1, Bool.false_and]; simp
    have hs : filterSection x e t f = none := by
      unfold filterSection; rw [if_neg h12]
    rw [if_neg h1]
    simp [routedTo, hs]

mutual
theorem addFilesToFilter_eq (x : Externals) (e : MSVCProjectExporterBase)
    (t : MSVCTargetBase) : ∀ (item : Item) (path : String) (lists : FileLists),
    addFilesToFilter x e t item path lists
      = (anyAddedToFilter x e t item.files,
          appendFilterEntries x e t lists ((item.filterFiles path).map filterText)
            (item.filterGroups x e t path))
  | Item.group _ children, path, lists => by
    rw [addFilesToFilter, Item.files, Item.filterFiles, Item.filterGroups,
      addFilesToFilter_children_eq x e t children path lists false]
    cases h : anyAddedToFilter x e t (Item.filesOfList children)
    · simp [appendFilterEntries]
    · simp [appendFilterEntries, addFilterGroup_eq]
  | Item.file f, path, lists => by
    rw [addFilesToFilter, Item.files, Item.filterFiles, Item.filterGroups]
    exact addFilesToFilter_file_eq x e t f path lists
theorem addFilesToFilter_children_eq (x : Externals) (e : MSVCProjectExporterBase)
    (t : MSVCTargetBase) : ∀ (children : List Item) (path : String) (lists : FileLists)
      (filesWereAdded : Bool),
    addFilesToFilter_children x e t children path lists filesWereAdded
      = (anyAddedToFilter x e t (Item.filesOfList children) || filesWereAdded,
          appendFilterEntries x e t lists
            ((Item.filterFilesOfList children path).map filterText)
            (Item.filterGroupsOfList x e t children path))
  | [], path, lists, filesWereAdded => by
    rw [addFilesToFilter_children, Item.filesOfList, Item.filterFilesOfList,
      Item.filterGroupsOfList]
    simp [appendFilterEntries_nil, anyAddedToFilter]
  | child :: rest, path, lists, filesWereAdded => by
    rw [addFilesToFilter_children, Item.filesOfList, Item.filterFilesOfList,
      Item.filterGroupsOfList, addFilesToFilter_eq x e t child]
    dsimp only
    rw [addFilesToFilter_children_eq x e t rest, appendFilterEntries_append,
      anyAddedToFilter_append, List.map_append]
    cases anyAddedToFilter x e t child.files <;>
      cases anyAddedToFilter x e t (Item.filesOfList rest) <;>
      cases filesWereAdded <;> rfl
end

theorem lastIndexOfChars_absent (name : List Char) (c : Char) (h : c ∉ name) :
    lastIndexOfChars name [c] = none := by
  induction name with
  | nil => rfl
  | cons d ds ih =>
    have hd : d ≠ c := fun hdc => h (by simp [hdc])
    have hds : c ∉ ds := fun hm => h (List.mem_cons_of_mem _ hm)
    simp [lastIndexOfChars, ih hds, List.isPrefixOf, hd.symm]

theorem lastIndexOfChars_separator (parent name : List Char) (c : Char) (h : c ∉ name) :
    lastIndexOfChars (parent ++ c :: name) [c] = some parent.length := by
  induction parent with
  | nil => simp [lastIndexOfChars, lastIndexOfChars_absent name c h, List.isPrefixOf]
  | cons d ds ih => simp [lastIndexOfChars, ih]

theorem upToLastOccurrenceOf_childPath (parent name : String) (hp : parent ≠ "")
    (hn : '\\' ∉ name.data) :
    upToLastOccurrenceOf (addFilesToFilter_childPath parent name) "\\" false = parent := by
  have hc : addFilesToFilter_childPath parent name = parent ++ "\\" ++ name := by
    simp [addFilesToFilter_childPath, isEmpty, hp]
  have hd : (parent ++ "\\" ++ name).data = parent.data ++ '\\' :: name.data := by
    simp [String.data_append]
  have hs : ("\\" : String).data = ['\\'] := rfl
  rw [hc]
  unfold upToLastOccurrenceOf
  rw [hd, hs, lastIndexOfChars_separator _ _ _ hn]
  simp

theorem addFilesToFilter_childPath_ne (parent name : String) (hp : parent ≠ "") :
    addFilesToFilter_childPath parent name ≠ "" := by
  intro h
  have hc : addFilesToFilter_childPath parent name = parent ++ "\\" ++ name := by
    simp [addFilesToFilter_childPath, isEmpty, hp]
  rw [hc] at h
  have := congrArg String.data h
  simp [String.data_append] at this

mutual
theorem filterFiles_fst : ∀ (item : Item) (path : String),
    (item.filterFiles path).map Prod.fst = item.files
  | Item.group _ children, path => by
    rw [Item.filterFiles, Item.files]
    exact filterFilesOfList_fst children path
  | Item.file f, path => by
    rw [Item.filterFiles, Item.files]; rfl
theorem filterFilesOfList_fst : ∀ (children : List Item) (path : String),
    (Item.filterFilesOfList children path).map Prod.fst = Item.filesOfList children
  | [], path => by rw [Item.filterFilesOfList, Item.filesOfList]; rfl
  | child :: rest, path => by
    rw [Item.filterFilesOfList, Item.filesOfList, List.map_append, filterFiles_fst child,
      filterFilesOfList_fst rest]
end

mutual
theorem filterFiles_group : ∀ (item : Item) (parent : String), parent ≠ "" →
    (∀ f ∈ item.files, '\\' ∉ f.name.data) →
    (item.filterFiles (addFilesToFilter_childPath parent item.getName)).map filterText
      = item.filesWithGroup parent
  | Item.group name children, parent, hp, hn => by
    rw [Item.filterFiles, Item.filesWithGroup, Item.getName]
    rw [Item.files] at hn
    exact filterFilesOfList_group children _ (addFilesToFilter_childPath_ne parent name hp) hn
  | Item.file f, parent, hp, hn => by
    rw [Item.filterFiles, Item.filesWithGroup, Item.getName]
    rw [Item.files] at hn
    simp [filterText, upToLastOccurrenceOf_childPath parent f.name hp (hn f (by simp))]
theorem filterFilesOfList_group : ∀ (children : List Item) (path : String), path ≠ "" →
    (∀ f ∈ Item.filesOfList children, '\\' ∉ f.name.data) →
    (Item.filterFilesOfList children path).map filterText
      = Item.filesWithGroupOfList children path
  | [], path, _, _ => by rw [Item.filterFilesOfList, Item.filesWithGroupOfList]; rfl
  | child :: rest, path, hp, hn => by
    rw [Item.filesOfList] at hn
    rw [Item.filterFilesOfList, Item.filesWithGroupOfList, List.map_append,
      filterFiles_group child path hp (fun f hf => hn f (List.mem_append_left _ hf)),
      filterFilesOfList_group rest path hp (fun f hf => hn f (List.mem_append_right _ hf))]
end

/-! ## The markers of a compiled source -/

/-- C18: the `ClCompile` entries that `addFilesToCompile` appends are, in the order of the
visit, the elements built for the files routed to the compiled sources; such an element
holds its `Include` attribute and at most two children, in this order: `CallingConvention`
with the text `StdCall`, present exactly when the file name without extension starts,
ignoring case, with `juce_audio_plugin_client_RTAS_`, and `ExcludedFromBuild` with the text
`true`, present exactly when the file is not to be compiled. -/
theorem addFilesToCompile_clCompile_markers (x : Externals) (e : MSVCProjectExporterBase)
    (t : MSVCTargetBase) (item : Item) (lists : FileLists) :
    (addFilesToCompile x e t item lists).cpps
        = lists.cpps ++ (routedTo item.files (compileSection x e t) "ClCompile").map
            (fun f => addFilesToCompile_clCompile x (fileRelativePath x e f)
              f.shouldBeCompiled)
      ∧ ∀ f : FileItem,
          (((addFilesToCompile_clCompile x (fileRelativePath x e f)
                f.shouldBeCompiled).getChildElementText "ExcludedFromBuild" = some "true"
              ↔ f.shouldBeCompiled = false)
            ∧ ((addFilesToCompile_clCompile x (fileRelativePath x e f)
                f.shouldBeCompiled).getChildElementText "ExcludedFromBuild" = none
              ↔ f.shouldBeCompiled = true)
            ∧ ((addFilesToCompile_clCompile x (fileRelativePath x e f)
                f.shouldBeCompiled).getChildElementText "CallingConvention" = some "StdCall"
              ↔ x.startsWithIgnoreCase
                  (x.getFileNameWithoutExtension (fileRelativePath x e f))
                  "juce_audio_plugin_client_RTAS_" = true)
            ∧ ((addFilesToCompile_clCompile x (fileRelativePath x e f)
                f.shouldBeCompiled).getChildElementText "CallingConvention" = none
              ↔ x.startsWithIgnoreCase
                  (x.getFileNameWithoutExtension (fileRelativePath x e f))
                  "juce_audio_plugin_client_RTAS_" = false)
            ∧ addFilesToCompile_clCompile x (fileRelativePath x e f) f.shouldBeCompiled
                = XmlElement.element "ClCompile"
                    [("Include", x.toWindowsStyle (fileRelativePath x e f))]
                    ((if x.startsWithIgnoreCase
                          (x.getFileNameWithoutExtension (fileRelativePath x e f))
                          "juce_audio_plugin_client_RTAS_" then
                        [XmlElement.element "CallingConvention" []
                          [XmlElement.text "StdCall"]] else [])
                      ++ (if f.shouldBeCompiled then []
                          else [XmlElement.element "ExcludedFromBuild" []
                            [XmlElement.text "true"]]))) := by
  refine ⟨?_, ?_⟩
  · rw [addFilesToCompile_eq]
    simp only [addFilesToCompile_clCompile_eq]
    rfl
  · intro f
    rw [addFilesToCompile_clCompile_eq]
    unfold compileEntry clCompileChildren includePath shouldUseStdCall
    cases hs : x.startsWithIgnoreCase
        (x.getFileNameWithoutExtension (fileRelativePath x e f))
        "juce_audio_plugin_client_RTAS_" <;>
      cases hc : f.shouldBeCompiled <;>
      simp [XmlElement.getChildElementText]

/-! ## The routing of the eligible files -/

/-- C17, counterexample: an Objective-C++ file that is to be added to the target project
and whose target type is the file-matching type of the shared-code target is put in none of
the three lists, and so is a source file of the VST wrapper that is not to be compiled. -/
theorem addFilesToCompile_drops_eligible_files :
    (sampleObjCFile.shouldBeAddedToTargetProject = true
      ∧ sampleExternals.getTargetTypeFromFilePath sampleObjCFile.file
          = fileTargetType samplePluginProject sampleSharedTarget
      ∧ (addFilesToCompile sampleExternals samplePluginProject sampleSharedTarget
          (Item.file sampleObjCFile) {}).includes = [])
    ∧ (sampleWrapperSource.shouldBeAddedToTargetProject = true
      ∧ sampleExternals.getTargetTypeFromFilePath sampleWrapperSource.file
          = fileTargetType samplePluginProject sampleVSTTarget
      ∧ (addFilesToCompile sampleExternals samplePluginProject sampleVSTTarget
          (Item.file sampleWrapperSource) {}).includes = []) := by
  decide

/-- C17, amended: `addFilesToCompile` appends to each of the three lists the entries of the
files of the tree that it routes there, in the order of the visit, so that a file stands in
at most one list and once for each place it has in the tree. An eligible file is routed to
one of the lists unless it is a C, C++ or assembly source that is not to be compiled while
the file-matching type is not the shared-code type, or it is an Objective-C file that has
neither a source nor a header extension; these two kinds are put in no list. -/
theorem addFilesToCompile_routing (x : Externals) (e : MSVCProjectExporterBase)
    (t : MSVCTargetBase) (item : Item) (lists : FileLists) (f : FileItem)
    (hadd : f.shouldBeAddedToTargetProject = true)
    (htype : x.getTargetTypeFromFilePath f.file = fileTargetType e t) :
    addFilesToCompile x e t item lists
        = { cpps := lists.cpps
              ++ (routedTo item.files (compileSection x e t) "ClCompile").map
                  (compileEntry x e "ClCompile")
            headers := lists.headers
              ++ (routedTo item.files (compileSection x e t) "ClInclude").map
                  (compileEntry x e "ClInclude")
            otherFiles := lists.otherFiles
              ++ (routedTo item.files (compileSection x e t) "None").map
                  (compileEntry x e "None")
            groups := lists.groups }
      ∧ (compileSection x e t f = none ∨ compileSection x e t f = some "ClCompile"
          ∨ compileSection x e t f = some "ClInclude" ∨ compileSection x e t f = some "None")
      ∧ (compileSection x e t f = none ↔
          (((x.hasFileExtension (fileRelativePath x e f) x.cOrCppFileExtensions = true
                ∨ x.hasFileExtension (fileRelativePath x e f) x.asmFileExtensions = true)
              ∧ fileTargetType e t ≠ TargetType.SharedCodeTarget
              ∧ f.shouldBeCompiled = false)
            ∨ (x.hasFileExtension (fileRelativePath x e f) x.cOrCppFileExtensions = false
              ∧ x.hasFileExtension (fileRelativePath x e f) x.asmFileExtensions = false
              ∧ x.hasFileExtension (fileRelativePath x e f) x.headerFileExtensions = false
              ∧ x.hasFileExtension (fileRelativePath x e f) x.objCFileExtensions = true))) := by
  refine ⟨?_, ?_, ?_⟩
  · rw [addFilesToCompile_eq]; rfl
  · unfold compileSection
    split_ifs <;> simp
  · unfold compileSection
    rw [hadd, htype]
    cases x.hasFileExtension (fileRelativePath x e f) x.cOrCppFileExtensions <;>
      cases x.hasFileExtension (fileRelativePath x e f) x.asmFileExtensions <;>
      cases x.hasFileExtension (fileRelativePath x e f) x.headerFileExtensions <;>
      cases x.hasFileExtension (fileRelativePath x e f) x.objCFileExtensions <;>
      cases f.shouldBeCompiled <;>
      by_cases hs : fileTargetType e t = TargetType.SharedCodeTarget <;>
      simp [hs]

theorem addFilesToCompile_routing_witness :
    ({ name := "Main.h", file := ⟨"Source/Main.h"⟩ } : FileItem).shouldBeAddedToTargetProject
        = true
      ∧ (addFilesToCompile sampleExternals samplePluginProject sampleSharedTarget sampleTree
          {}).includes
          = [some "..\\..\\Source\\Main.cpp",
             some "..\\..\\Source\\juce_audio_plugin_client_RTAS_1.cpp",
             some "..\\..\\Source\\Main.h", some "..\\..\\Notes.txt"]
      ∧ compileSection sampleExternals samplePluginProject sampleSharedTarget
          { name := "Main.h", file := ⟨"Source/Main.h"⟩ } = some "ClInclude" :=
  ⟨rfl, by
    rw [(addFilesToCompile_routing sampleExternals samplePluginProject sampleSharedTarget
      sampleTree {} { name := "Main.h", file := ⟨"Source/Main.h"⟩ } rfl (by decide)).1]
    decide, by decide⟩

/-! ## The project document against the filter document -/

/-- C16: in a plug-in project, a header of the VST wrapper that is not to be compiled gets a
`ClInclude` entry in the project document of the VST target from `addFilesToCompile`, while
`addFilesToFilter` returns `false` for its group and puts nothing in the filter document:
the two loops guard headers differently. -/
theorem addFilesToFilter_omits_uncompiled_header :
    (addFilesToCompile sampleExternals samplePluginProject sampleVSTTarget
        (Item.group "VST" [Item.file sampleWrapperHeader]) {}).includes
        = [some "..\\..\\VST\\Extra.h"]
      ∧ (addFilesToFilter sampleExternals samplePluginProject sampleVSTTarget
          (Item.group "VST" [Item.file sampleWrapperHeader]) "VST" {}).1 = false
      ∧ (addFilesToFilter sampleExternals samplePluginProject sampleVSTTarget
          (Item.group "VST" [Item.file sampleWrapperHeader]) "VST" {}).2.includes = [] := by
  decide

/-- Both loops visit the files of the tree in the same order and each appends,
for every place a file has in the tree, at most one entry, to the list that its section
names. A file that `addFilesToCompile` puts in one of its three lists and that is to be
compiled, or any such file when the file-matching type is the shared-code type, is put by
`addFilesToFilter` in exactly one of the three lists of the filter document, and its entries
in the two documents carry the same `Include` path. -/
theorem addFilesToFilter_covers_compiled_files (x : Externals) (e : MSVCProjectExporterBase)
    (t : MSVCTargetBase) (item : Item) (path : String) (lists : FileLists) (f : FileItem)
    (hplaced : compileSection x e t f ≠ none)
    (hcompiled : fileTargetType e t = TargetType.SharedCodeTarget
      ∨ f.shouldBeCompiled = true) :
    addFilesToCompile x e t item lists = appendCompileEntries x e t lists item.files
      ∧ (addFilesToFilter x e t item path lists).2
          = appendFilterEntries x e t lists ((item.filterFiles path).map filterText)
              (item.filterGroups x e t path)
      ∧ ((item.filterFiles path).map filterText).map Prod.fst = item.files
      ∧ (filterSection x e t f = some "ClCompile" ∨ filterSection x e t f = some "ClInclude"
          ∨ filterSection x e t f = some "None")
      ∧ ∀ (tag filterTag text : String),
          (compileEntry x e tag f).getAttribute "Include"
            = (filterEntry x e filterTag f text).getAttribute "Include" := by
  refine ⟨addFilesToCompile_eq x e t item lists, ?_, ?_, ?_, ?_⟩
  · rw [addFilesToFilter_eq]
  · rw [List.map_map]
    have : (Prod.fst ∘ filterText) = (Prod.fst : FileItem × String → FileItem) := by
      funext p; rfl
    rw [this, filterFiles_fst]
  · have hel : (f.shouldBeAddedToTargetProject
        && decide (x.getTargetTypeFromFilePath f.file = fileTargetType e t)) = true := by
      by_contra h
      apply hplaced
      unfold compileSection
      rw [if_neg h]
    have hboth : (f.shouldBeAddedToTargetProject
        && (decide (x.getTargetTypeFromFilePath f.file = fileTargetType e t)
            && (decide (fileTargetType e t = TargetType.SharedCodeTarget)
                || f.shouldBeCompiled))) = true := by
      simp only [Bool.and_eq_true, Bool.or_eq_true, decide_eq_true_eq] at hel ⊢
      exact ⟨hel.1, hel.2, hcompiled⟩
    unfold filterSection
    rw [if_pos hboth]
    split_ifs <;> simp
  · intro tag filterTag text
    simp [compileEntry, filterEntry, XmlElement.getAttribute]

theorem addFilesToFilter_covers_compiled_files_witness :
    compileSection sampleExternals samplePluginProject sampleVSTTarget
        { name := "Wrapper.cpp", file := ⟨"VST/Wrapper.cpp"⟩ } ≠ none
      ∧ (addFilesToCompile sampleExternals samplePluginProject sampleVSTTarget sampleTree
          {}).includes = [some "..\\..\\VST\\Wrapper.cpp", some "..\\..\\VST\\Extra.h"]
      ∧ (addFilesToFilter sampleExternals samplePluginProject sampleVSTTarget sampleTree
          "Synth" {}).2.includes = [some "..\\..\\VST\\Wrapper.cpp"]
      ∧ filterSection sampleExternals samplePluginProject sampleVSTTarget
          { name := "Wrapper.cpp", file := ⟨"VST/Wrapper.cpp"⟩ } = some "ClCompile" :=
  ⟨by decide, by decide, by decide, by
    have h := (addFilesToFilter_covers_compiled_files sampleExternals samplePluginProject
      sampleVSTTarget sampleTree "Synth" {}
      { name := "Wrapper.cpp", file := ⟨"VST/Wrapper.cpp"⟩ } (by decide)
      (Or.inr rfl)).2.2.2.1
    rcases h with h | h | h
    · exact h
    · exact absurd h (by decide)
    · exact absurd h (by decide)⟩

/-! ## The folders of the filter document -/

theorem length_addFilesToFilter_childPath (parent name : String) (hp : parent ≠ "") :
    parent.length < (addFilesToFilter_childPath parent name).length := by
  have hc : addFilesToFilter_childPath parent name = parent ++ "\\" ++ name := by
    simp [addFilesToFilter_childPath, isEmpty, hp]
  rw [hc, String.length_append, String.length_append]
  have : ("\\" : String).length = 1 := rfl
  omega

mutual
theorem filterGroups_paths (x : Externals) (e : MSVCProjectExporterBase)
    (t : MSVCTargetBase) : ∀ (item : Item) (path : String), path ≠ "" →
    ∀ d ∈ item.filterGroups x e t path,
      ∃ q : String, d = filterDeclaration x q ∧ path.length ≤ q.length
  | Item.group _ children, path, hp, d, hd => by
    rw [Item.filterGroups, List.mem_append] at hd
    rcases hd with hd | hd
    · obtain ⟨q, hq, hl⟩ := filterGroupsOfList_paths x e t children path hp d hd
      exact ⟨q, hq, Nat.le_of_lt hl⟩
    · by_cases h : anyAddedToFilter x e t (Item.filesOfList children) = true
      · rw [if_pos h] at hd
        exact ⟨path, by simpa using hd, Nat.le_refl _⟩
      · rw [if_neg h] at hd
        exact absurd hd (List.not_mem_nil _)
  | Item.file _, path, _, d, hd => by
    rw [Item.filterGroups] at hd
    exact absurd hd (List.not_mem_nil _)
theorem filterGroupsOfList_paths (x : Externals) (e : MSVCProjectExporterBase)
    (t : MSVCTargetBase) : ∀ (children : List Item) (path : String), path ≠ "" →
    ∀ d ∈ Item.filterGroupsOfList x e t children path,
      ∃ q : String, d = filterDeclaration x q ∧ path.length < q.length
  | [], path, _, d, hd => by
    rw [Item.filterGroupsOfList] at hd
    exact absurd hd (List.not_mem_nil _)
  | child :: rest, path, hp, d, hd => by
    rw [Item.filterGroupsOfList, List.mem_append] at hd
    rcases hd with hd | hd
    · obtain ⟨q, hq, hl⟩ := filterGroups_paths x e t child _
        (addFilesToFilter_childPath_ne path child.getName hp) d hd
      exact ⟨q, hq, Nat.lt_of_lt_of_le
        (length_addFilesToFilter_childPath path child.getName hp) hl⟩
    · exact filterGroupsOfList_paths x e t rest path hp d hd
end

theorem count_filterGroupsOfList (x : Externals) (e : MSVCProjectExporterBase)
    (t : MSVCTargetBase) (children : List Item) (path : String) (hp : path ≠ "") :
    ((Item.filterGroupsOfList x e t children path).map
      (fun d => d.getAttribute "Include")).count (some path) = 0 := by
  rw [List.count_eq_zero]
  intro hm
  obtain ⟨d, hd, hq⟩ := List.mem_map.1 hm
  obtain ⟨q, rfl, hl⟩ := filterGroupsOfList_paths x e t children path hp d hd
  simp [filterDeclaration, XmlElement.getAttribute] at hq
  rw [hq] at hl
  exact Nat.lt_irrefl _ hl

/-- For a group visited with a non-empty path, whose files have no backslash in their
names, `addFilesToFilter` returns `true` exactly when it adds at least one file of the
subtree of the group to the filter document. It appends the declarations of the groups of
the subtree, each present exactly when a file below its group is added, and after them the
`Filter` declaration that carries the path of the group itself when it returns `true` and
nothing more when it returns `false`, so that this path is declared once or not at all. The
entry of every added file holds a `Filter` child whose text is the path of the group that
directly contains the file. -/
theorem addFilesToFilter_group (x : Externals) (e : MSVCProjectExporterBase)
    (t : MSVCTargetBase) (name : String) (children : List Item) (path : String)
    (lists : FileLists) (hpath : path ≠ "")
    (hnames : ∀ f ∈ Item.filesOfList children, '\\' ∉ f.name.data) :
    ((addFilesToFilter x e t (Item.group name children) path lists).1 = true
        ↔ ∃ f ∈ Item.filesOfList children, filterSection x e t f ≠ none)
      ∧ (addFilesToFilter x e t (Item.group name children) path lists).2.groups
          = lists.groups ++ Item.filterGroupsOfList x e t children path
              ++ (if (addFilesToFilter x e t (Item.group name children) path lists).1 then
                    [filterDeclaration x path] else [])
      ∧ (((Item.filterGroupsOfList x e t children path
              ++ (if (addFilesToFilter x e t (Item.group name children) path lists).1 then
                    [filterDeclaration x path] else [])).map
            (fun d => d.getAttribute "Include")).count (some path)
          = if (addFilesToFilter x e t (Item.group name children) path lists).1 then 1
            else 0)
      ∧ (addFilesToFilter x e t (Item.group name children) path lists).2.cpps
          = lists.cpps
              ++ (routedTo (Item.filesWithGroupOfList children path)
                    (fun p => filterSection x e t p.1) "ClCompile").map
                  (fun p => filterEntry x e "ClCompile" p.1 p.2)
      ∧ (addFilesToFilter x e t (Item.group name children) path lists).2.headers
          = lists.headers
              ++ (routedTo (Item.filesWithGroupOfList children path)
                    (fun p => filterSection x e t p.1) "ClInclude").map
                  (fun p => filterEntry x e "ClInclude" p.1 p.2)
      ∧ (addFilesToFilter x e t (Item.group name children) path lists).2.otherFiles
          = lists.otherFiles
              ++ (routedTo (Item.filesWithGroupOfList children path)
                    (fun p => filterSection x e t p.1) "None").map
                  (fun p => filterEntry x e "None" p.1 p.2)
      ∧ ∀ (tag : String) (f : FileItem) (groupPath : String),
          (filterEntry x e tag f groupPath).getChildElementText "Filter" = some groupPath := by
  have hfiles : ((Item.group name children).filterFiles path).map filterText
      = Item.filesWithGroupOfList children path := by
    rw [Item.filterFiles]
    exact filterFilesOfList_group children path hpath hnames
  have hany : (addFilesToFilter x e t (Item.group name children) path lists).1
      = anyAddedToFilter x e t (Item.filesOfList children) := by
    rw [addFilesToFilter_eq, Item.files]
  have hown : ((if anyAddedToFilter x e t (Item.filesOfList children) then
        [filterDeclaration x path] else []).map
        (fun d => d.getAttribute "Include")).count (some path)
      = if anyAddedToFilter x e t (Item.filesOfList children) then 1 else 0 := by
    cases anyAddedToFilter x e t (Item.filesOfList children) <;>
      simp [filterDeclaration, XmlElement.getAttribute]
  refine ⟨?_, ?_, ?_, ?_, ?_, ?_, ?_⟩
  · rw [hany]
    simp [anyAddedToFilter, Option.isSome_iff_ne_none]
  · rw [hany, addFilesToFilter_eq, Item.filterGroups]
    simp [appendFilterEntries]
  · rw [hany, List.map_append, List.count_append,
      count_filterGroupsOfList x e t children path hpath, hown, Nat.zero_add]
  · rw [addFilesToFilter_eq, hfiles]
    rfl
  · rw [addFilesToFilter_eq, hfiles]
    rfl
  · rw [addFilesToFilter_eq, hfiles]
    rfl
  · intro tag f groupPath
    simp [filterEntry, XmlElement.getChildElementText]

theorem addFilesToFilter_group_witness :
    ("Synth" : String) ≠ ""
      ∧ (addFilesToFilter sampleExternals samplePluginProject sampleVSTTarget sampleTree
          "Synth" {}).1 = true
      ∧ (addFilesToFilter sampleExternals samplePluginProject sampleVSTTarget sampleTree
          "Synth" {}).2.groups.map (fun d => d.getAttribute "Include")
          = [some "Synth\\VST", some "Synth"]
      ∧ (addFilesToFilter sampleExternals samplePluginProject sampleVSTTarget sampleTree
          "Synth" {}).2.cpps.map (fun d => d.getChildElementText "Filter")
          = [some "Synth\\VST"]
      ∧ ∃ f ∈ sampleTree.files,
          filterSection sampleExternals samplePluginProject sampleVSTTarget f ≠ none :=
  ⟨by decide, by decide, by decide, by decide,
    ((addFilesToFilter_group sampleExternals samplePluginProject sampleVSTTarget "Synth" _
      "Synth" {} (by decide) (by decide)).1).1 (by decide)⟩

/-- C19: for a group visited with an empty path that directly holds the file `Main.cpp`,
`addFilesToFilter` returns `true` and emits the `Filter` declaration of the group with the
empty path in `Include`, but the `Filter` text of the file is the file name `Main.cpp` and
not the path of the group, so the file refers to a folder that is never declared. The
overload of the same method for a list of paths, on that path and that file, gives the file
the path of the declaration as its `Filter` text. When the group with the empty path holds
one more group with an empty name, the declaration with the empty path is emitted twice. -/
theorem addFilesToFilter_empty_path_filter_text :
    (addFilesToFilter sampleExternals sampleAppExporter ⟨TargetType.GUIApp, ""⟩
        (Item.group "" [Item.file { name := "Main.cpp", file := ⟨"Source/Main.cpp"⟩ }])
        "" {}).1 = true
      ∧ (addFilesToFilter sampleExternals sampleAppExporter ⟨TargetType.GUIApp, ""⟩
          (Item.group "" [Item.file { name := "Main.cpp", file := ⟨"Source/Main.cpp"⟩ }])
          "" {}).2.groups.map (fun d => d.getAttribute "Include") = [some ""]
      ∧ (addFilesToFilter sampleExternals sampleAppExporter ⟨TargetType.GUIApp, ""⟩
          (Item.group "" [Item.file { name := "Main.cpp", file := ⟨"Source/Main.cpp"⟩ }])
          "" {}).2.cpps.map (fun d => d.getChildElementText "Filter") = [some "Main.cpp"]
      ∧ (addFilesToFilter_paths sampleExternals
          [fileRelativePath sampleExternals sampleAppExporter
            { name := "Main.cpp", file := ⟨"Source/Main.cpp"⟩ }]
          "" {}).2.groups.map (fun d => d.getAttribute "Include") = [some ""]
      ∧ (addFilesToFilter_paths sampleExternals
          [fileRelativePath sampleExternals sampleAppExporter
            { name := "Main.cpp", file := ⟨"Source/Main.cpp"⟩ }]
          "" {}).2.cpps.map (fun d => d.getChildElementText "Filter") = [some ""]
      ∧ (addFilesToFilter sampleExternals sampleAppExporter ⟨TargetType.GUIApp, ""⟩
          (Item.group ""
            [Item.group "" [Item.file { name := "Main.cpp", file := ⟨"Source/Main.cpp"⟩ }]])
          "" {}).2.groups.map (fun d => d.getAttribute "Include") = [some "", some ""] := by
  decide

/-! ## Delay-loaded DLLs -/

/-- C21, counterexample: with an empty delay-load string in the exporter, the text returned
for an RTAS target lists eight names, seven of them distinct, and not six. -/
theorem getDelayLoadedDLLs_rtas_lists_eight_names :
    (delayLoadNames (getDelayLoadedDLLs sampleRTASExporter sampleRTASTarget)).length = 8
      ∧ (delayLoadNames (getDelayLoadedDLLs sampleRTASExporter sampleRTASTarget)).dedup.length
          = 7
      ∧ (delayLoadNames (getDelayLoadedDLLs sampleRTASExporter sampleRTASTarget)).length ≠ 6 := by
  decide

/-- C21, amended: `getDelayLoadedDLLs` returns the delay-load string of the exporter, with a
fixed text appended directly after it for an RTAS target and nothing appended for any other
target type. The fixed text is the list, joined with a semicolon and a blank, of eight
names of which seven are distinct: `DSPManager.dll` stands in it twice. -/
theorem getDelayLoadedDLLs_eq (e : MSVCProjectExporterBase) (t : MSVCTargetBase) :
    getDelayLoadedDLLs e t
        = e.msvcDelayLoadedDLLs
            ++ (if t.type = TargetType.RTASPlugIn then joinIntoString rtasDelayLoadedDLLs "; "
                else "")
      ∧ delayLoadNames (joinIntoString rtasDelayLoadedDLLs "; ") = rtasDelayLoadedDLLs
      ∧ rtasDelayLoadedDLLs.length = 8
      ∧ rtasDelayLoadedDLLs.dedup
          = [ "DAE.dll", "DigiExt.dll", "DSI.dll", "PluginLib.dll", "DSPManager.dll",
              "DSPManagerClientLib.dll", "RTASClientLib.dll" ] := by
  refine ⟨?_, by decide, by decide, by decide⟩
  unfold getDelayLoadedDLLs
  by_cases h : t.type = TargetType.RTASPlugIn
  · rw [if_pos h, if_pos h]
    have hj : joinIntoString rtasDelayLoadedDLLs "; "
        = "DAE.dll; DigiExt.dll; DSI.dll; PluginLib.dll; "
          ++ "DSPManager.dll; DSPManager.dll; DSPManagerClientLib.dll; RTASClientLib.dll" := by
      decide
    rw [hj]
  · rw [if_neg h, if_neg h]
    simp

/-! ## The optimisation token -/

/-- C22: `getOptimisationLevelString` gives `Disabled` for the level off, `MinSpace` for
min-size, `MaxSpeed` for max-speed and `Full` for full, and `Disabled` for every integer
that is none of the four enumerators; the `Optimization` element of the compile block holds
the token of the level of the configuration. -/
theorem getOptimisationLevelString_table (level : Int) :
    getOptimisationLevelString optimisationOff = "Disabled"
      ∧ getOptimisationLevelString optimiseMinSize = "MinSpace"
      ∧ getOptimisationLevelString optimiseMaxSpeed = "MaxSpeed"
      ∧ getOptimisationLevelString optimiseFull = "Full"
      ∧ ((level ≠ optimisationOff ∧ level ≠ optimiseMinSize ∧ level ≠ optimiseFull
            ∧ level ≠ optimiseMaxSpeed) → getOptimisationLevelString level = "Disabled")
      ∧ ∀ (x : Externals) (e : MSVCProjectExporterBase) (t : MSVCTargetBase)
          (config : MSVCBuildConfiguration),
          (fillInProjectXml_clCompile x e t config).getChildElementText "Optimization"
            = some (getOptimisationLevelString config.optimisationLevelInt) := by
  refine ⟨by decide, by decide, by decide, by decide, ?_, ?_⟩
  · rintro ⟨_, h2, h3, h4⟩
    unfold getOptimisationLevelString
    rw [if_neg h2, if_neg h4, if_neg h3]
  · intro x e t config
    simp [fillInProjectXml_clCompile, XmlElement.getChildElementText]

theorem getOptimisationLevelString_table_witness :
    getOptimisationLevelString 7 = "Disabled" ∧ getOptimisationLevelString 0 = "Disabled"
      ∧ getOptimisationLevelString (-1) = "Disabled" :=
  ⟨(getOptimisationLevelString_table 7).2.2.2.2.1 (by decide),
    (getOptimisationLevelString_table 0).2.2.2.2.1 (by decide),
    (getOptimisationLevelString_table (-1)).2.2.2.2.1 (by decide)⟩

/-! ## Runtime library and debug information -/

theorem hasTarget_iff (targets : List MSVCTargetBase) (type : TargetType) :
    hasTarget targets type = true ↔ ∃ s ∈ targets, s.type = type := by
  induction targets with
  | nil => simp [hasTarget]
  | cons a rest ih =>
    by_cases h : a.type = type
    · simp [hasTarget, h]
    · simp [hasTarget, h, ih]

/-- C23: the `RuntimeLibrary` element of the compile block holds `MultiThreadedDebugDLL` for
a dynamic runtime in a debug configuration, `MultiThreadedDLL` for dynamic and release,
`MultiThreadedDebug` for static and debug, `MultiThreaded` for static and release. The
runtime is dynamic as `isUsingRuntimeLibDLL()` says when the setting of the configuration is
set, and, when it is not set, exactly when the target list holds an AAX or an RTAS
target. -/
theorem fillInProjectXml_runtimeLibrary (x : Externals) (e : MSVCProjectExporterBase)
    (t : MSVCTargetBase) (config : MSVCBuildConfiguration) :
    (fillInProjectXml_clCompile x e t config).getChildElementText "RuntimeLibrary"
        = some (match shouldUseRuntimeDLL e config, config.isDebug with
                | true, true => "MultiThreadedDebugDLL"
                | true, false => "MultiThreadedDLL"
                | false, true => "MultiThreadedDebug"
                | false, false => "MultiThreaded")
      ∧ (config.useRuntimeLibDLLIsVoid = false →
          shouldUseRuntimeDLL e config = config.isUsingRuntimeLibDLL)
      ∧ (config.useRuntimeLibDLLIsVoid = true →
          (shouldUseRuntimeDLL e config = true
            ↔ ∃ s ∈ e.targets,
                s.type = TargetType.AAXPlugIn ∨ s.type = TargetType.RTASPlugIn)) := by
  refine ⟨?_, ?_, ?_⟩
  · unfold fillInProjectXml_clCompile
    cases shouldUseRuntimeDLL e config <;> cases config.isDebug <;>
      cases config.shouldGenerateDebugSymbols <;>
      simp [XmlElement.getChildElementText]
  · intro h
    simp [shouldUseRuntimeDLL, h]
  · intro h
    unfold shouldUseRuntimeDLL
    rw [if_pos h, Bool.or_eq_true, hasTarget_iff, hasTarget_iff]
    constructor
    · rintro (⟨s, hs, h1⟩ | ⟨s, hs, h1⟩)
      · exact ⟨s, hs, Or.inl h1⟩
      · exact ⟨s, hs, Or.inr h1⟩
    · rintro ⟨s, hs, h1 | h1⟩
      · exact Or.inl ⟨s, hs, h1⟩
      · exact Or.inr ⟨s, hs, h1⟩

theorem fillInProjectXml_runtimeLibrary_witness :
    sampleDebugConfig.useRuntimeLibDLLIsVoid = true
      ∧ shouldUseRuntimeDLL sampleRTASExporter sampleDebugConfig = true
      ∧ shouldUseRuntimeDLL sampleAppExporter sampleDebugConfig = false
      ∧ (fillInProjectXml_clCompile sampleExternals sampleRTASExporter sampleRTASTarget
          sampleDebugConfig).getChildElementText "RuntimeLibrary"
          = some "MultiThreadedDebugDLL"
      ∧ (fillInProjectXml_clCompile sampleExternals sampleRTASExporter sampleRTASTarget
          sampleReleaseConfig).getChildElementText "RuntimeLibrary" = some "MultiThreaded" :=
  ⟨rfl,
    ((fillInProjectXml_runtimeLibrary sampleExternals sampleRTASExporter sampleRTASTarget
      sampleDebugConfig).2.2 rfl).2 ⟨sampleRTASTarget, by decide, Or.inr rfl⟩,
    by decide, by decide, by decide⟩

/-- C24: the compile block of a configuration holds a `DebugInformationFormat` element
exactly when the configuration is a debug configuration or has `shouldGenerateDebugSymbols()`
set, and then with the debug information format of the configuration as its text; the
`GenerateDebugInformation` element of the link block holds `true` under the same condition
and `false` otherwise. -/
theorem fillInProjectXml_debugInformation (x : Externals) (e : MSVCProjectExporterBase)
    (t : MSVCTargetBase) (config : MSVCBuildConfiguration) :
    (((fillInProjectXml_clCompile x e t config).getChildByName
          "DebugInformationFormat").isSome = true
        ↔ (config.isDebug = true ∨ config.shouldGenerateDebugSymbols = true))
      ∧ ((config.isDebug = true ∨ config.shouldGenerateDebugSymbols = true) →
          (fillInProjectXml_clCompile x e t config).getChildByName "DebugInformationFormat"
            = some (XmlElement.element "DebugInformationFormat" []
                [XmlElement.text config.debugInformationFormatString]))
      ∧ ((fillInProjectXml_link x e t config).getChildElementText "GenerateDebugInformation"
            = some "true"
          ↔ (config.isDebug = true ∨ config.shouldGenerateDebugSymbols = true))
      ∧ ((fillInProjectXml_link x e t config).getChildElementText "GenerateDebugInformation"
            = some "false"
          ↔ ¬ (config.isDebug = true ∨ config.shouldGenerateDebugSymbols = true)) := by
  refine ⟨?_, ?_, ?_, ?_⟩
  · unfold fillInProjectXml_clCompile fillInProjectXml_languageStandard
    cases config.isDebug <;> cases config.shouldGenerateDebugSymbols <;>
      cases config.isFastMathEnabled <;> cases config.areWarningsTreatedAsErrors <;>
      cases isNotEmpty (x.trim (x.replacePreprocessorTokens config e.extraCompilerFlagsString)) <;>
      simp [XmlElement.getChildByName]
  · intro h
    unfold fillInProjectXml_clCompile
    rcases h with h | h <;> simp [XmlElement.getChildByName, h]
  · unfold fillInProjectXml_link
    cases config.isDebug <;> cases config.shouldGenerateDebugSymbols <;>
      simp [XmlElement.getChildElementText]
  · unfold fillInProjectXml_link
    cases config.isDebug <;> cases config.shouldGenerateDebugSymbols <;>
      simp [XmlElement.getChildElementText]

theorem fillInProjectXml_debugInformation_witness :
    (sampleReleaseConfig.isDebug = false ∧ sampleReleaseConfig.shouldGenerateDebugSymbols = false)
      ∧ (fillInProjectXml_clCompile sampleExternals sampleRTASExporter sampleRTASTarget
          sampleReleaseConfig).getChildByName "DebugInformationFormat" = none
      ∧ (fillInProjectXml_clCompile sampleExternals sampleRTASExporter sampleRTASTarget
          sampleDebugConfig).getChildByName "DebugInformationFormat"
          = some (XmlElement.element "DebugInformationFormat" []
              [XmlElement.text "ProgramDatabase"]) :=
  ⟨⟨rfl, rfl⟩, by
    have h := (fillInProjectXml_debugInformation sampleExternals sampleRTASExporter
      sampleRTASTarget sampleReleaseConfig).1
    cases hc : (fillInProjectXml_clCompile sampleExternals sampleRTASExporter
      sampleRTASTarget sampleReleaseConfig).getChildByName "DebugInformationFormat" with
    | none => rfl
    | some el =>
      rw [hc] at h
      exact absurd (h.1 rfl) (by decide),
    (fillInProjectXml_debugInformation sampleExternals sampleRTASExporter sampleRTASTarget
      sampleDebugConfig).2.1 (Or.inl rfl)⟩

/-! ## The module definition file -/

theorem prependDot_ne_empty (x : Externals) (filename : String)
    (habsolute : x.isAbsolutePath "" = false) : prependDot x filename ≠ "" := by
  unfold prependDot
  by_cases h : x.isAbsolutePath filename = true
  · rw [if_pos h]
    intro hf
    rw [hf, habsolute] at h
    exact Bool.false_ne_true h
  · rw [if_neg h]
    intro hf
    have := congrArg String.data hf
    simp [String.data_append] at this

theorem find?_ite_nil {α : Type} (c : Prop) [Decidable c] (l : List α) (p : α → Bool) :
    (if c then l else []).find? p = if c then l.find? p else none := by
  split_ifs <;> rfl

theorem findSome?_ite_nil {α β : Type} (c : Prop) [Decidable c] (l : List α)
    (f : α → Option β) :
    (if c then l else []).findSome? f = if c then l.findSome? f else none := by
  split_ifs <;> rfl

/-- C25: `getModuleDefinitions` returns the module definition file of the configuration
whenever that setting is not empty, for every target type. When the setting is empty it
returns, for an RTAS target, the default path, which is not empty as long as the empty path
does not count as absolute, and the empty string for every other target type. The link
block holds a `ModuleDefinitionFile` element, with the returned text, exactly when that
text is not empty. -/
theorem getModuleDefinitions_cases (x : Externals) (e : MSVCProjectExporterBase)
    (t : MSVCTargetBase) (config : MSVCBuildConfiguration)
    (habsolute : x.isAbsolutePath "" = false) :
    (config.msvcModuleDefinitionFile ≠ "" →
        getModuleDefinitions x e t config = config.msvcModuleDefinitionFile)
      ∧ (config.msvcModuleDefinitionFile = "" → t.type = TargetType.RTASPlugIn →
          getModuleDefinitions x e t config
              = prependDot x (x.toWindowsStyle
                  (x.rebased
                    (x.relativeChildFile (x.relativeChildFile (x.relativeChildFile
                      ⟨x.getPathForModuleString "juce_audio_plugin_client",
                        RootFolder.projectFolder⟩
                      "juce_audio_plugin_client") "RTAS") "juce_RTAS_WinExports.def")
                    e.getProjectFolder e.targetFolder RootFolder.buildTargetFolder))
            ∧ getModuleDefinitions x e t config ≠ "")
      ∧ (config.msvcModuleDefinitionFile = "" → t.type ≠ TargetType.RTASPlugIn →
          getModuleDefinitions x e t config = "")
      ∧ (fillInProjectXml_link x e t config).getChildByName "ModuleDefinitionFile"
          = (if getModuleDefinitions x e t config = "" then none
             else some (XmlElement.element "ModuleDefinitionFile" []
                [XmlElement.text (getModuleDefinitions x e t config)])) := by
  refine ⟨?_, ?_, ?_, ?_⟩
  · intro h
    simp [getModuleDefinitions, isNotEmpty, h]
  · intro h ht
    have hr : getModuleDefinitions x e t config
        = prependDot x (x.toWindowsStyle
            (x.rebased
              (x.relativeChildFile (x.relativeChildFile (x.relativeChildFile
                ⟨x.getPathForModuleString "juce_audio_plugin_client",
                  RootFolder.projectFolder⟩
                "juce_audio_plugin_client") "RTAS") "juce_RTAS_WinExports.def")
              e.getProjectFolder e.targetFolder RootFolder.buildTargetFolder)) := by
      simp [getModuleDefinitions, isNotEmpty, h, ht]
    exact ⟨hr, by rw [hr]; exact prependDot_ne_empty x _ habsolute⟩
  · intro h ht
    simp [getModuleDefinitions, isNotEmpty, h, ht]
  · unfold fillInProjectXml_link
    by_cases hm : getModuleDefinitions x e t config = ""
    · simp [XmlElement.getChildByName, find?_ite_nil, isNotEmpty, hm]
    · simp [XmlElement.getChildByName, find?_ite_nil, isNotEmpty, hm]

theorem getModuleDefinitions_cases_witness :
    sampleExternals.isAbsolutePath "" = false
      ∧ getModuleDefinitions sampleExternals sampleRTASExporter sampleRTASTarget
          sampleDebugConfig ≠ ""
      ∧ getModuleDefinitions sampleExternals sampleRTASExporter sampleRTASTarget
          sampleDebugConfig
          = ".\\..\\..\\..\\..\\modules\\juce_audio_plugin_client\\RTAS\\juce_RTAS_WinExports.def"
      ∧ getModuleDefinitions sampleExternals sampleRTASExporter sampleVSTTarget
          sampleDebugConfig = "" :=
  ⟨by decide,
    ((getModuleDefinitions_cases sampleExternals sampleRTASExporter sampleRTASTarget
      sampleDebugConfig (by decide)).2.1 rfl rfl).2,
    by decide,
    (getModuleDefinitions_cases sampleExternals sampleRTASExporter sampleVSTTarget
      sampleDebugConfig (by decide)).2.2.1 rfl (by decide)⟩

/-! ## Build steps -/

theorem append_eq_empty_iff (a b : String) : a ++ b = "" ↔ a = "" ∧ b = "" := by
  constructor
  · intro h
    have hd := congrArg String.data h
    rw [String.data_append] at hd
    have hd2 := List.append_eq_nil.1 hd
    exact ⟨String.ext hd2.1, String.ext hd2.2⟩
  · rintro ⟨rfl, rfl⟩
    rfl

theorem joinedSteps_eq_empty_iff (user extra : String) :
    user ++ (if isNotEmpty user && isNotEmpty extra then "\r\n" else "") ++ extra = ""
      ↔ user = "" ∧ extra = "" := by
  rw [append_eq_empty_iff, append_eq_empty_iff]
  constructor
  · rintro ⟨⟨h1, _⟩, h2⟩
    exact ⟨h1, h2⟩
  · rintro ⟨rfl, rfl⟩
    exact ⟨⟨rfl, by simp [isNotEmpty]⟩, rfl⟩

theorem joinedSteps_separator (user extra : String) :
    (if isNotEmpty user && isNotEmpty extra then "\r\n" else "")
      = if user ≠ "" ∧ extra ≠ "" then "\r\n" else "" := by
  by_cases h1 : user = "" <;> by_cases h2 : extra = "" <;> simp [isNotEmpty, h1, h2]

/-- C26: `getPostBuildSteps` and `getPreBuildSteps` return the command text of the user
followed by the text made for the kind of the target, with one CR LF between them exactly
when both are not empty and nothing between them otherwise; the result is empty exactly when
both parts are empty. The text made for a target that is not an AAX target is empty before
the build, so that the pre-build result is the text of the user. -/
theorem getBuildSteps_join (x : Externals) (e : MSVCProjectExporterBase) (t : MSVCTargetBase)
    (config : MSVCBuildConfiguration) :
    getPostBuildSteps x e t config
        = config.postbuildCommandString
            ++ (if config.postbuildCommandString ≠ ""
                  ∧ getExtraPostBuildSteps x e t config ≠ "" then "\r\n" else "")
            ++ getExtraPostBuildSteps x e t config
      ∧ (getPostBuildSteps x e t config = ""
          ↔ config.postbuildCommandString = "" ∧ getExtraPostBuildSteps x e t config = "")
      ∧ getPreBuildSteps x t config
          = config.prebuildCommandString
              ++ (if config.prebuildCommandString ≠ ""
                    ∧ getExtraPreBuildSteps x t config ≠ "" then "\r\n" else "")
              ++ getExtraPreBuildSteps x t config
      ∧ (getPreBuildSteps x t config = ""
          ↔ config.prebuildCommandString = "" ∧ getExtraPreBuildSteps x t config = "")
      ∧ (t.type ≠ TargetType.AAXPlugIn →
          getExtraPreBuildSteps x t config = ""
            ∧ getPreBuildSteps x t config = config.prebuildCommandString) := by
  refine ⟨?_, ?_, ?_, ?_, ?_⟩
  · unfold getPostBuildSteps
    dsimp only
    rw [joinedSteps_separator]
  · unfold getPostBuildSteps
    exact joinedSteps_eq_empty_iff _ _
  · unfold getPreBuildSteps
    dsimp only
    rw [joinedSteps_separator]
  · unfold getPreBuildSteps
    exact joinedSteps_eq_empty_iff _ _
  · intro h
    have hx : getExtraPreBuildSteps x t config = "" := by
      unfold getExtraPreBuildSteps
      rw [if_neg h]
    refine ⟨hx, ?_⟩
    unfold getPreBuildSteps
    dsimp only
    rw [hx]
    simp [isNotEmpty]

theorem getBuildSteps_join_witness :
    sampleVSTTarget.type ≠ TargetType.AAXPlugIn
      ∧ getPreBuildSteps sampleExternals sampleVSTTarget
          { sampleDebugConfig with prebuildCommandString := "echo start" } = "echo start"
      ∧ getPostBuildSteps sampleExternals sampleRTASExporter sampleVSTTarget sampleDebugConfig
          = "echo done\r\ncopy /Y \"$(OutDir)$(TargetFileName)\" \"C:\\VST\\$(TargetFileName)\"" :=
  ⟨by decide,
    ((getBuildSteps_join sampleExternals sampleRTASExporter sampleVSTTarget
      { sampleDebugConfig with prebuildCommandString := "echo start" }).2.2.2.2
        (by decide)).2,
    by decide⟩

/-- C27: with the copy step of the configuration off, `getExtraPostBuildSteps` returns the
empty string for every target that is not an AAX target and the packaging script alone for
an AAX target. With the copy step on it returns, for a VST, a VST3 and an RTAS target, the
copy command whose `$COPYDIR$` is replaced by the VST, VST3 or RTAS binary location of the
configuration; for an AAX target the packaging script, a CR LF and the `xcopy` line to the
AAX binary location; and the empty string for every other target type. -/
theorem getExtraPostBuildSteps_cases (x : Externals) (e : MSVCProjectExporterBase)
    (t : MSVCTargetBase) (config : MSVCBuildConfiguration) :
    (config.isPluginBinaryCopyStepEnabled = false →
        (t.type ≠ TargetType.AAXPlugIn → getExtraPostBuildSteps x e t config = "")
        ∧ (t.type = TargetType.AAXPlugIn →
            getExtraPostBuildSteps x e t config = getExtraPostBuildSteps_pkgScript x e t config))
      ∧ (config.isPluginBinaryCopyStepEnabled = true →
          (t.type = TargetType.VSTPlugIn →
              getExtraPostBuildSteps x e t config
                = x.replace copyScriptTemplate "$COPYDIR$" config.vstBinaryLocationString)
          ∧ (t.type = TargetType.VST3PlugIn →
              getExtraPostBuildSteps x e t config
                = x.replace copyScriptTemplate "$COPYDIR$" config.vst3BinaryLocationString)
          ∧ (t.type = TargetType.RTASPlugIn →
              getExtraPostBuildSteps x e t config
                = x.replace copyScriptTemplate "$COPYDIR$" config.rtasBinaryLocationString)
          ∧ (t.type = TargetType.AAXPlugIn →
              getExtraPostBuildSteps x e t config
                = getExtraPostBuildSteps_pkgScript x e t config ++ "\r\n"
                    ++ aaxCopyLine x config)
          ∧ (t.type ≠ TargetType.AAXPlugIn → t.type ≠ TargetType.VSTPlugIn →
              t.type ≠ TargetType.VST3PlugIn → t.type ≠ TargetType.RTASPlugIn →
              getExtraPostBuildSteps x e t config = "")) := by
  have htemplate : "copy /Y \"$(OutDir)$(TargetFileName)\"" ++ " \"$COPYDIR$\\$(TargetFileName)\""
      = copyScriptTemplate := by decide
  refine ⟨fun hoff => ⟨?_, ?_⟩, fun hon => ⟨?_, ?_, ?_, ?_, ?_⟩⟩
  · intro ht
    simp [getExtraPostBuildSteps, ht, hoff]
  · intro ht
    simp [getExtraPostBuildSteps, ht, hoff]
  · intro ht
    simp [getExtraPostBuildSteps, ht, hon, htemplate]
  · intro ht
    simp [getExtraPostBuildSteps, ht, hon, htemplate]
  · intro ht
    simp [getExtraPostBuildSteps, ht, hon, htemplate]
  · intro ht
    unfold getExtraPostBuildSteps aaxCopyLine
    rw [if_pos ht, if_pos hon]
    simp only [String.append_assoc]
  · intro h1 h2 h3 h4
    simp [getExtraPostBuildSteps, h1, h2, h3, h4]

theorem getExtraPostBuildSteps_cases_witness :
    sampleDebugConfig.isPluginBinaryCopyStepEnabled = true
      ∧ getExtraPostBuildSteps sampleExternals sampleRTASExporter sampleVSTTarget
          sampleDebugConfig
          = "copy /Y \"$(OutDir)$(TargetFileName)\" \"C:\\VST\\$(TargetFileName)\""
      ∧ getExtraPostBuildSteps sampleExternals sampleRTASExporter sampleSharedTarget
          sampleDebugConfig = ""
      ∧ getExtraPostBuildSteps sampleExternals sampleRTASExporter sampleVSTTarget
          sampleReleaseConfig = "" :=
  ⟨rfl, by
    rw [((getExtraPostBuildSteps_cases sampleExternals sampleRTASExporter sampleVSTTarget
      sampleDebugConfig).2 rfl).1 rfl]
    decide,
    ((getExtraPostBuildSteps_cases sampleExternals sampleRTASExporter sampleSharedTarget
      sampleDebugConfig).2 rfl).2.2.2.2 (by decide) (by decide) (by decide) (by decide),
    ((getExtraPostBuildSteps_cases sampleExternals sampleRTASExporter sampleVSTTarget
      sampleReleaseConfig).1 rfl).1 (by decide)⟩

/-! ## Include directories -/

/-- C28: the `AdditionalIncludeDirectories` element of the compile block of a configuration
holds the list, joined with `;`, of the cleaned header search paths of the exporter and the
configuration, then the extra search paths of the target, then
`%(AdditionalIncludeDirectories)` as its last entry. The extra search paths are empty for
every target that is not an RTAS target, and for an RTAS target they are the rebased paths
of the twenty-six folders of the table below the RTAS folder. -/
theorem fillInProjectXml_includeDirectories (x : Externals) (e : MSVCProjectExporterBase)
    (t : MSVCTargetBase) (config : MSVCBuildConfiguration) :
    (fillInProjectXml_clCompile x e t config).getChildElementText
          "AdditionalIncludeDirectories"
        = some (joinIntoString
            (x.getCleanedStringArray (e.extraSearchPaths ++ config.headerSearchPaths)
              ++ getExtraSearchPaths x e t ++ ["%(AdditionalIncludeDirectories)"]) ";")
      ∧ (t.type ≠ TargetType.RTASPlugIn → getExtraSearchPaths x e t = [])
      ∧ (t.type = TargetType.RTASPlugIn →
          getExtraSearchPaths x e t
            = getExtraSearchPaths_p.map (fun path =>
                createRebasedPath x e
                  (x.relativeChildFile ⟨e.rtasPathValue, RootFolder.projectFolder⟩ path)))
      ∧ getExtraSearchPaths_p.length = 26 := by
  refine ⟨?_, ?_, ?_, by decide⟩
  · unfold fillInProjectXml_clCompile getHeaderSearchPaths
    simp [XmlElement.getChildElementText, List.findSome?_append, findSome?_ite_nil]
  · intro h
    unfold getExtraSearchPaths
    rw [if_neg h]
  · intro h
    unfold getExtraSearchPaths
    rw [if_pos h]
    dsimp only
    rw [foldl_append_list
      (fun searchPaths path =>
        searchPaths ++ [createRebasedPath x e
          (x.relativeChildFile ⟨e.rtasPathValue, RootFolder.projectFolder⟩ path)])
      (fun path => [createRebasedPath x e
          (x.relativeChildFile ⟨e.rtasPathValue, RootFolder.projectFolder⟩ path)])
      (fun _ _ => rfl)]
    generalize getExtraSearchPaths_p = l
    induction l with
    | nil => rfl
    | cons a rest ih =>
      rw [List.flatMap_cons, List.map_cons]
      rw [List.nil_append] at ih
      rw [List.nil_append, ih]
      rfl

theorem fillInProjectXml_includeDirectories_witness :
    sampleVSTTarget.type ≠ TargetType.RTASPlugIn
      ∧ getExtraSearchPaths sampleExternals sampleRTASExporter sampleVSTTarget = []
      ∧ (fillInProjectXml_clCompile sampleExternals sampleRTASExporter sampleVSTTarget
          sampleDebugConfig).getChildElementText "AdditionalIncludeDirectories"
          = some "include;%(AdditionalIncludeDirectories)"
      ∧ (getExtraSearchPaths sampleExternals sampleRTASExporter sampleRTASTarget).length = 26 :=
  ⟨by decide,
    (fillInProjectXml_includeDirectories sampleExternals sampleRTASExporter sampleVSTTarget
      sampleDebugConfig).2.1 (by decide),
    by decide, by
    rw [(fillInProjectXml_includeDirectories sampleExternals sampleRTASExporter
      sampleRTASTarget sampleDebugConfig).2.2.1 rfl, List.length_map]
    decide⟩

/-! ## Library search paths -/

theorem filter_ite_nil {α : Type} (c : Prop) [Decidable c] (l : List α) (p : α → Bool) :
    (if c then l else []).filter p = if c then l.filter p else [] := by
  split_ifs <;> rfl

theorem getSharedCodeTarget_of_mem (targets : List MSVCTargetBase)
    (h : ∃ s ∈ targets, s.type = TargetType.SharedCodeTarget) :
    ∃ shared, getSharedCodeTarget targets = some shared := by
  cases hs : getSharedCodeTarget targets with
  | some shared => exact ⟨shared, rfl⟩
  | none =>
    obtain ⟨s, hm, ht⟩ := h
    exact absurd ht (getSharedCodeTarget_none targets hs s hm)

theorem filter_configProperties_libraryPath (x : Externals) (e : MSVCProjectExporterBase)
    (t : MSVCTargetBase) (config : MSVCBuildConfiguration) :
    (fillInProjectXml_configProperties x e t config).filter
        (fun el => el.hasTagName "LibraryPath")
      = libraryPathElements x e t config := by
  unfold fillInProjectXml_configProperties libraryPathElements
  by_cases h : getLibrarySearchPaths x e t config = []
  · simp [List.filter_append, filter_ite_nil, setConditionAttribute, XmlElement.setAttribute,
      XmlElement.hasTagName, h]
  · have hl : 0 < (getLibrarySearchPaths x e t config).length := List.length_pos.2 h
    simp [List.filter_append, filter_ite_nil, setConditionAttribute, XmlElement.setAttribute,
      XmlElement.hasTagName, h, hl]

/-- C29: for every configuration, the second `PropertyGroup` holds a `LibraryPath` element
for it exactly when the library search paths of the target are not empty, with the condition
of the configuration and the text `$(LibraryPath);` followed by the paths joined with `;`.
For a target that is not the shared-code target, in a target list with a shared-code target,
the paths are those of the configuration followed by the output folder of the shared-code
target for that configuration, so they are not empty and the element is there. -/
theorem fillInProjectXml_libraryPath (x : Externals) (e : MSVCProjectExporterBase)
    (t : MSVCTargetBase) (config : MSVCBuildConfiguration) :
    (fillInProjectXml_configProperties x e t config).filter
          (fun el => el.hasTagName "LibraryPath")
        = (if getLibrarySearchPaths x e t config = [] then []
           else
            [setConditionAttribute
              (XmlElement.element "LibraryPath" []
                [XmlElement.text
                  ("$(LibraryPath);"
                    ++ joinIntoString (getLibrarySearchPaths x e t config) ";")])
              config])
      ∧ (fillInProjectXml_properties x e t).childElements.filter
            (fun el => el.hasTagName "LibraryPath")
          = e.configs.flatMap (libraryPathElements x e t)
      ∧ ((t.type ≠ TargetType.SharedCodeTarget
            ∧ ∃ s ∈ e.targets, s.type = TargetType.SharedCodeTarget) →
          ∃ shared ∈ e.targets, shared.type = TargetType.SharedCodeTarget
            ∧ getLibrarySearchPaths x e t config
                = config.librarySearchPaths ++ [getConfigTargetPath x e shared config]
            ∧ getConfigTargetPath x e shared config
                = getSolutionTargetPath x e config ++ "\\" ++ x.getName shared.type
            ∧ (fillInProjectXml_configProperties x e t config).filter
                  (fun el => el.hasTagName "LibraryPath")
                = [setConditionAttribute
                    (XmlElement.element "LibraryPath" []
                      [XmlElement.text
                        ("$(LibraryPath);"
                          ++ joinIntoString
                              (config.librarySearchPaths
                                ++ [getConfigTargetPath x e shared config]) ";")])
                    config]) := by
  refine ⟨filter_configProperties_libraryPath x e t config, ?_, ?_⟩
  · unfold fillInProjectXml_properties
    simp only [XmlElement.childElements, List.filter_append]
    have hfix : List.filter (fun el => el.hasTagName "LibraryPath")
        [ XmlElement.element "_ProjectFileVersion" [] [XmlElement.text "10.0.30319.1"],
          XmlElement.element "TargetExt" [] [XmlElement.text (getTargetSuffix x t)] ] = [] := by
      simp [XmlElement.hasTagName]
    rw [hfix, List.nil_append]
    induction e.configs with
    | nil => rfl
    | cons c rest ih =>
      rw [List.flatMap_cons, List.flatMap_cons, List.filter_append, ih,
        filter_configProperties_libraryPath]
  · rintro ⟨ht, hs⟩
    obtain ⟨shared, hshared⟩ := getSharedCodeTarget_of_mem e.targets hs
    have hmem := getSharedCodeTarget_some e.targets shared hshared
    have hpaths : getLibrarySearchPaths x e t config
        = config.librarySearchPaths ++ [getConfigTargetPath x e shared config] := by
      unfold getLibrarySearchPaths
      simp [ht, hshared]
    refine ⟨shared, hmem.1, hmem.2, hpaths, rfl, ?_⟩
    rw [filter_configProperties_libraryPath, libraryPathElements, hpaths]
    simp

theorem fillInProjectXml_libraryPath_witness :
    (sampleRTASTarget.type ≠ TargetType.SharedCodeTarget
        ∧ ∃ s ∈ sampleRTASExporter.targets, s.type = TargetType.SharedCodeTarget)
      ∧ getLibrarySearchPaths sampleExternals sampleRTASExporter sampleRTASTarget
          sampleDebugConfig
          = ["libs", "$(SolutionDir)$(Platform)\\$(Configuration)\\Shared Code"]
      ∧ getLibrarySearchPaths sampleExternals sampleRTASExporter sampleSharedTarget
          sampleReleaseConfig = []
      ∧ ∃ shared ∈ sampleRTASExporter.targets,
          getLibrarySearchPaths sampleExternals sampleRTASExporter sampleRTASTarget
              sampleReleaseConfig
            = [getConfigTargetPath sampleExternals sampleRTASExporter shared
                sampleReleaseConfig] :=
  ⟨⟨by decide, ⟨sampleSharedTarget, by decide, rfl⟩⟩, by decide, by decide, by
    obtain ⟨shared, hm, _, hp, _⟩ :=
      (fillInProjectXml_libraryPath sampleExternals sampleRTASExporter sampleRTASTarget
        sampleReleaseConfig).2.2 ⟨by decide, ⟨sampleSharedTarget, by decide, rfl⟩⟩
    exact ⟨shared, hm, hp⟩⟩

/-! ## The intermediates path -/

theorem push_backslash (s : String) : s.push '\\' = s ++ "\\" := by
  apply String.ext
  rw [String.data_push, String.data_append]

theorem endsWithChar_append_backslash (s : String) :
    endsWithChar (s ++ "\\") '\\' = true := by
  have h : ("\\" : String).data = ['\\'] := rfl
  simp [endsWithChar, String.data_append, h]

theorem endsWithChar_intDirPath (x : Externals) (t : MSVCTargetBase)
    (config : MSVCBuildConfiguration) :
    endsWithChar (intDirPath x t config) '\\' = true := by
  unfold intDirPath
  by_cases h : endsWithChar (getIntermediatesPath x t config) '\\' = true
  · rw [if_pos h]; exact h
  · rw [if_neg h]
    exact endsWithChar_append_backslash _

theorem sampleExternals_windowsStylePath_endsWith (s : String)
    (h : endsWithChar s '\\' = true) :
    endsWithChar (sampleExternals.windowsStylePath s) '\\' = true := by
  simp only [endsWithChar, sampleExternals, beq_iff_eq] at h ⊢
  rw [List.getLast?_map, h]
  rfl

/-- C30: `getIntermediatesPath` returns the intermediates path of the configuration, or
`$(Platform)\$(Configuration)` when that setting is empty, then one backslash unless the
path already ends with a backslash, then the name of the target. The `IntDir` element of
the configuration holds the Windows-style form of that text with a backslash added unless
it ends with one; it ends with a backslash as long as `windowsStylePath` keeps a final
backslash. -/
theorem getIntermediatesPath_eq (x : Externals) (e : MSVCProjectExporterBase)
    (t : MSVCTargetBase) (config : MSVCBuildConfiguration)
    (hstyle : ∀ s, endsWithChar s '\\' = true →
      endsWithChar (x.windowsStylePath s) '\\' = true) :
    (config.intermediatesPathString ≠ "" →
        getIntermediatesPath x t config
          = config.intermediatesPathString
              ++ (if endsWithChar config.intermediatesPathString '\\' then "" else "\\")
              ++ x.getName t.type)
      ∧ (config.intermediatesPathString = "" →
          getIntermediatesPath x t config
            = "$(Platform)\\$(Configuration)" ++ "\\" ++ x.getName t.type)
      ∧ (fillInProjectXml_configProperties x e t config).filter
            (fun el => el.hasTagName "IntDir")
          = [setConditionAttribute
              (XmlElement.element "IntDir" []
                [XmlElement.text (x.windowsStylePath (intDirPath x t config))])
              config]
      ∧ endsWithChar (x.windowsStylePath (intDirPath x t config)) '\\' = true := by
  refine ⟨?_, ?_, ?_, hstyle _ (endsWithChar_intDirPath x t config)⟩
  · intro h
    unfold getIntermediatesPath
    have hn : isNotEmpty config.intermediatesPathString = true := by simp [isNotEmpty, h]
    simp only [hn, if_true]
    by_cases hb : endsWithChar config.intermediatesPathString '\\' = true
    · simp [hb]
    · simp only [Bool.not_eq_true] at hb
      simp [hb, push_backslash]
  · intro h
    unfold getIntermediatesPath
    have hn : isNotEmpty config.intermediatesPathString = false := by simp [isNotEmpty, h]
    have hb : endsWithChar "$(Platform)\\$(Configuration)" '\\' = false := by decide
    simp [hn, hb, push_backslash]
  · unfold fillInProjectXml_configProperties
    have htext : (if !endsWithChar (getIntermediatesPath x t config) '\\' then
          (getIntermediatesPath x t config).push '\\'
        else getIntermediatesPath x t config) = intDirPath x t config := by
      unfold intDirPath
      by_cases hb : endsWithChar (getIntermediatesPath x t config) '\\' = true
      · simp [hb]
      · simp only [Bool.not_eq_true] at hb
        simp [hb, push_backslash]
    simp only [htext]
    simp [List.filter_append, filter_ite_nil, setConditionAttribute, XmlElement.setAttribute,
      XmlElement.hasTagName]

theorem getIntermediatesPath_eq_witness :
    (∀ s, endsWithChar s '\\' = true →
        endsWithChar (sampleExternals.windowsStylePath s) '\\' = true)
      ∧ getIntermediatesPath sampleExternals sampleRTASTarget sampleReleaseConfig
          = "obj\\Other"
      ∧ getIntermediatesPath sampleExternals sampleRTASTarget sampleDebugConfig
          = "$(Platform)\\$(Configuration)\\Other"
      ∧ endsWithChar (sampleExternals.windowsStylePath
          (intDirPath sampleExternals sampleRTASTarget sampleDebugConfig)) '\\' = true :=
  ⟨sampleExternals_windowsStylePath_endsWith, by decide, by decide,
    (getIntermediatesPath_eq sampleExternals sampleRTASExporter sampleRTASTarget
      sampleDebugConfig sampleExternals_windowsStylePath_endsWith).2.2.2⟩

/-! ## Output suffix and project type -/

/-- C32: `getTargetSuffix` gives `.exe` for an executable, `.lib` for a static library,
`.dll` for a dynamic library, for a plug-in bundle `.vst3` for VST3, `.aaxdll` for AAX,
`.dpm` for RTAS and `.dll` for every other kind, and the empty string for every other file
type; `getProjectType` gives `Application` for an executable, `StaticLibrary` for a static
library and `DynamicLibrary` for everything else. -/
theorem getTargetSuffix_table (x : Externals) (t : MSVCTargetBase) :
    (x.getTargetFileType t.type = TargetFileType.executable → getTargetSuffix x t = ".exe")
      ∧ (x.getTargetFileType t.type = TargetFileType.staticLibrary →
          getTargetSuffix x t = ".lib")
      ∧ (x.getTargetFileType t.type = TargetFileType.sharedLibraryOrDLL →
          getTargetSuffix x t = ".dll")
      ∧ (x.getTargetFileType t.type = TargetFileType.pluginBundle →
          (t.type = TargetType.VST3PlugIn → getTargetSuffix x t = ".vst3")
          ∧ (t.type = TargetType.AAXPlugIn → getTargetSuffix x t = ".aaxdll")
          ∧ (t.type = TargetType.RTASPlugIn → getTargetSuffix x t = ".dpm")
          ∧ (t.type ≠ TargetType.VST3PlugIn → t.type ≠ TargetType.AAXPlugIn →
              t.type ≠ TargetType.RTASPlugIn → getTargetSuffix x t = ".dll"))
      ∧ (x.getTargetFileType t.type ≠ TargetFileType.executable →
          x.getTargetFileType t.type ≠ TargetFileType.staticLibrary →
          x.getTargetFileType t.type ≠ TargetFileType.sharedLibraryOrDLL →
          x.getTargetFileType t.type ≠ TargetFileType.pluginBundle →
          getTargetSuffix x t = "")
      ∧ (x.getTargetFileType t.type = TargetFileType.executable →
          getProjectType x t = "Application")
      ∧ (x.getTargetFileType t.type = TargetFileType.staticLibrary →
          getProjectType x t = "StaticLibrary")
      ∧ (x.getTargetFileType t.type ≠ TargetFileType.executable →
          x.getTargetFileType t.type ≠ TargetFileType.staticLibrary →
          getProjectType x t = "DynamicLibrary") := by
  refine ⟨?_, ?_, ?_, ?_, ?_, ?_, ?_, ?_⟩
  · intro h; simp [getTargetSuffix, h]
  · intro h; simp [getTargetSuffix, h]
  · intro h; simp [getTargetSuffix, h]
  · intro h
    refine ⟨?_, ?_, ?_, ?_⟩
    · intro ht; unfold getTargetSuffix; rw [h]; simp [ht]
    · intro ht; unfold getTargetSuffix; rw [h]; simp [ht]
    · intro ht; unfold getTargetSuffix; rw [h]; simp [ht]
    · intro h1 h2 h3
      unfold getTargetSuffix
      rw [h]
      cases hty : t.type <;> simp_all
  · intro h1 h2 h3 h4
    unfold getTargetSuffix
    cases hf : x.getTargetFileType t.type <;> simp_all
  · intro h; simp [getProjectType, h]
  · intro h; simp [getProjectType, h]
  · intro h1 h2
    unfold getProjectType
    cases hf : x.getTargetFileType t.type <;> simp_all

theorem getTargetSuffix_table_witness :
    sampleExternals.getTargetFileType sampleRTASTarget.type = TargetFileType.pluginBundle
      ∧ getTargetSuffix sampleExternals sampleRTASTarget = ".dpm"
      ∧ getTargetSuffix sampleExternals sampleVSTTarget = ".dll"
      ∧ getTargetSuffix sampleExternals ⟨TargetType.AggregateTarget, ""⟩ = ""
      ∧ getProjectType sampleExternals sampleSharedTarget = "StaticLibrary"
      ∧ getProjectType sampleExternals sampleVSTTarget = "DynamicLibrary" :=
  ⟨by decide,
    ((getTargetSuffix_table sampleExternals sampleRTASTarget).2.2.2.1 (by decide)).2.2.1 rfl,
    ((getTargetSuffix_table sampleExternals sampleVSTTarget).2.2.2.1 (by decide)).2.2.2
      (by decide) (by decide) (by decide),
    (getTargetSuffix_table sampleExternals ⟨TargetType.AggregateTarget, ""⟩).2.2.2.2.1
      (by decide) (by decide) (by decide) (by decide),
    (getTargetSuffix_table sampleExternals sampleSharedTarget).2.2.2.2.2.2.1 (by decide),
    (getTargetSuffix_table sampleExternals sampleVSTTarget).2.2.2.2.2.2.2
      (by decide) (by decide)⟩

/-! ## Output file names -/

theorem lastIndexOfChars_split (l : List Char) (c : Char) (h : c ∈ l) :
    ∃ stem rest, l = stem ++ c :: rest ∧ c ∉ rest
      ∧ lastIndexOfChars l [c] = some stem.length := by
  induction l with
  | nil => simp at h
  | cons d ds ih =>
    by_cases hds : c ∈ ds
    · obtain ⟨stem, rest, hl, hr, hi⟩ := ih hds
      refine ⟨d :: stem, rest, by rw [hl]; rfl, hr, ?_⟩
      simp [lastIndexOfChars, hi]
    · have hd : c = d := by
        rcases List.mem_cons.1 h with h | h
        · exact h
        · exact absurd h hds
      subst hd
      exact ⟨[], ds, rfl, hds, by
        simp [lastIndexOfChars, lastIndexOfChars_absent ds c hds, List.isPrefixOf]⟩

theorem upToLastOccurrenceOf_dot_absent (s : String) (h : containsChar s '.' = false) :
    upToLastOccurrenceOf s "." false = s := by
  have hs : (".":String).data = ['.'] := rfl
  have hn : '.' ∉ s.data := by
    intro hm
    simp [containsChar, hm] at h
  unfold upToLastOccurrenceOf
  rw [hs, lastIndexOfChars_absent s.data '.' hn]

theorem upToLastOccurrenceOf_dot_present (s : String) (h : containsChar s '.' = true) :
    ∃ stem extension : String, s = stem ++ "." ++ extension ∧ '.' ∉ extension.data
      ∧ upToLastOccurrenceOf s "." false = stem := by
  have hs : (".":String).data = ['.'] := rfl
  have hm : '.' ∈ s.data := by simpa [containsChar] using h
  obtain ⟨stem, rest, hl, hr, hi⟩ := lastIndexOfChars_split s.data '.' hm
  refine ⟨String.mk stem, String.mk rest, ?_, hr, ?_⟩
  · apply String.ext
    simp [String.data_append, hl, hs]
  · unfold upToLastOccurrenceOf
    rw [hs, hi, hl]
    simp

/-- C40: with `target` the trimmed binary name made a legal file name, `getOutputFilename`
returns `target` unchanged when `forceSuffix` is false and `target` holds a dot, and
otherwise the part of `target` before its last dot, or all of `target` when it holds no
dot, followed by the suffix. So `getBinaryNameWithSuffix` is that stem followed by the
suffix of the target, and the `TargetName` element, made with an empty suffix and without
forcing it, holds `target` itself. -/
theorem getOutputFilename_cases (x : Externals) (e : MSVCProjectExporterBase)
    (t : MSVCTargetBase) (config : MSVCBuildConfiguration) (suffix : String)
    (forceSuffix : Bool) :
    ((forceSuffix = false
          ∧ containsChar (x.createLegalFileName (x.trim config.targetBinaryNameString)) '.'
              = true) →
        config.getOutputFilename x suffix forceSuffix
          = x.createLegalFileName (x.trim config.targetBinaryNameString))
      ∧ (¬ (forceSuffix = false
            ∧ containsChar (x.createLegalFileName (x.trim config.targetBinaryNameString)) '.'
                = true) →
          config.getOutputFilename x suffix forceSuffix
            = upToLastOccurrenceOf
                (x.createLegalFileName (x.trim config.targetBinaryNameString)) "." false
              ++ suffix)
      ∧ (containsChar (x.createLegalFileName (x.trim config.targetBinaryNameString)) '.'
            = false →
          upToLastOccurrenceOf
              (x.createLegalFileName (x.trim config.targetBinaryNameString)) "." false
            = x.createLegalFileName (x.trim config.targetBinaryNameString))
      ∧ (containsChar (x.createLegalFileName (x.trim config.targetBinaryNameString)) '.'
            = true →
          ∃ stem extension : String,
            x.createLegalFileName (x.trim config.targetBinaryNameString)
                = stem ++ "." ++ extension
              ∧ '.' ∉ extension.data
              ∧ upToLastOccurrenceOf
                  (x.createLegalFileName (x.trim config.targetBinaryNameString)) "." false
                = stem)
      ∧ getBinaryNameWithSuffix x t config
          = upToLastOccurrenceOf
              (x.createLegalFileName (x.trim config.targetBinaryNameString)) "." false
            ++ getTargetSuffix x t
      ∧ config.getOutputFilename x "" false
          = x.createLegalFileName (x.trim config.targetBinaryNameString)
      ∧ (fillInProjectXml_configProperties x e t config).filter
            (fun el => el.hasTagName "TargetName")
          = [setConditionAttribute
              (XmlElement.element "TargetName" []
                [XmlElement.text
                  (x.createLegalFileName (x.trim config.targetBinaryNameString))])
              config] := by
  have hplain : config.getOutputFilename x "" false
      = x.createLegalFileName (x.trim config.targetBinaryNameString) := by
    unfold MSVCBuildConfiguration.getOutputFilename
    cases hc : containsChar (x.createLegalFileName (x.trim config.targetBinaryNameString)) '.'
    · simp [hc, upToLastOccurrenceOf_dot_absent _ hc]
    · simp [hc]
  refine ⟨?_, ?_, fun h => upToLastOccurrenceOf_dot_absent _ h,
    fun h => upToLastOccurrenceOf_dot_present _ h, ?_, hplain, ?_⟩
  · rintro ⟨hf, hc⟩
    simp [MSVCBuildConfiguration.getOutputFilename, hf, hc]
  · intro h
    unfold MSVCBuildConfiguration.getOutputFilename
    cases forceSuffix
    · cases hc : containsChar
          (x.createLegalFileName (x.trim config.targetBinaryNameString)) '.'
      · simp [hc]
      · exact absurd ⟨rfl, hc⟩ h
    · simp
  · simp [getBinaryNameWithSuffix, MSVCBuildConfiguration.getOutputFilename]
  · unfold fillInProjectXml_configProperties
    rw [hplain]
    simp [List.filter_append, filter_ite_nil, setConditionAttribute, XmlElement.setAttribute,
      XmlElement.hasTagName]

theorem getOutputFilename_cases_witness :
    (false = false ∧ containsChar (sampleExternals.createLegalFileName
        (sampleExternals.trim sampleDottedConfig.targetBinaryNameString)) '.' = true)
      ∧ sampleDottedConfig.getOutputFilename sampleExternals ".dll" false = "My.Plugin"
      ∧ sampleDottedConfig.getOutputFilename sampleExternals ".dll" true = "My.dll"
      ∧ sampleDebugConfig.getOutputFilename sampleExternals ".dll" false = "Synth.dll" :=
  ⟨by decide,
    (getOutputFilename_cases sampleExternals sampleRTASExporter sampleVSTTarget
      sampleDottedConfig ".dll" false).1 (by decide),
    by decide, by decide⟩

/-! ## The bundle folders of an AAX target -/

/-- C37: the pre-build script of an AAX target creates the folder `preBuildBundleDir`, made
from `getOutputFilename (".aaxplugin", false)`, its `Contents` folder and the architecture
folder below it, while the post-build script copies the binary into the architecture folder
below `postBuildBundleDir`, made from `getOutputFilename (".aaxplugin", true)`. For the
binary name `My.Plugin` the script before the build creates `$(OutDir)\My.Plugin` and the
script after the build copies into `$(OutDir)\My.aaxplugin`, a folder that was not
created. -/
theorem aax_bundle_directories_differ :
    (∀ (x : Externals) (guid : String) (config : MSVCBuildConfiguration),
        getExtraPreBuildSteps x ⟨TargetType.AAXPlugIn, guid⟩ config
          = mkdirLine (preBuildBundleDir x config)
            ++ mkdirLine (preBuildBundleDir x config ++ "\\Contents")
            ++ mkdirLine (preBuildBundleDir x config ++ "\\Contents" ++ "\\"
                ++ bundleArchitecture config))
      ∧ (∀ (x : Externals) (e : MSVCProjectExporterBase) (t : MSVCTargetBase)
          (config : MSVCBuildConfiguration),
          getExtraPostBuildSteps_pkgScript x e t config
            = "copy /Y " ++ x.quoted (getOutputFilePath x t config) ++ " "
              ++ x.quoted (postBuildBundleDir x config ++ "\\Contents" ++ "\\"
                  ++ bundleArchitecture config ++ "\\"
                  ++ config.getOutputFilename x ".aaxplugin" true)
              ++ "\r\ncall "
              ++ createRebasedPath x e
                  (x.relativeChildFile (x.relativeChildFile
                    ⟨e.aaxPathValue, RootFolder.projectFolder⟩ "Utilities")
                    "CreatePackage.bat")
              ++ " "
              ++ x.quoted (postBuildBundleDir x config ++ "\\Contents" ++ "\\"
                  ++ bundleArchitecture config)
              ++ " " ++ createRebasedPath x e (getAAXIconFile x e))
      ∧ preBuildBundleDir sampleExternals sampleDottedConfig = "$(OutDir)\\My.Plugin"
      ∧ postBuildBundleDir sampleExternals sampleDottedConfig = "$(OutDir)\\My.aaxplugin"
      ∧ getExtraPreBuildSteps sampleExternals sampleAAXTarget sampleDottedConfig
          = "if not exist \"$(OutDir)\\My.Plugin\" mkdir \"$(OutDir)\\My.Plugin\"\r\n"
            ++ "if not exist \"$(OutDir)\\My.Plugin\\Contents\" "
            ++ "mkdir \"$(OutDir)\\My.Plugin\\Contents\"\r\n"
            ++ "if not exist \"$(OutDir)\\My.Plugin\\Contents\\Win32\" "
            ++ "mkdir \"$(OutDir)\\My.Plugin\\Contents\\Win32\"\r\n"
      ∧ getExtraPostBuildSteps sampleExternals sampleAAXExporter sampleAAXTarget
          sampleDottedConfig
          = "copy /Y \"$(OutDir)\\My.aaxdll\" "
            ++ "\"$(OutDir)\\My.aaxplugin\\Contents\\Win32\\My.aaxplugin\"\r\n"
            ++ "call \"..\\..\\sdk\\Utilities\\CreatePackage.bat\" "
            ++ "\"$(OutDir)\\My.aaxplugin\\Contents\\Win32\" "
            ++ "\"..\\..\\sdk\\Utilities\\PlugIn.ico\"" := by
  refine ⟨?_, ?_, by decide, by decide, by rfl, by rfl⟩
  · intro x guid config
    simp only [getExtraPreBuildSteps, if_true, List.foldl_cons, List.foldl_nil, mkdirLine,
      preBuildBundleDir, bundleArchitecture, decide_eq_true_eq]
    simp only [String.append_assoc]
    rfl
  · intro x e t config
    simp only [getExtraPostBuildSteps_pkgScript, postBuildBundleDir, bundleArchitecture,
      decide_eq_true_eq, String.append_assoc]

/-! ## The module library folder against the runtime library -/

theorem runtimeLibraryToken_eq (x : Externals) (e : MSVCProjectExporterBase)
    (t : MSVCTargetBase) (config : MSVCBuildConfiguration) :
    runtimeLibraryToken x e t config
      = (if shouldUseRuntimeDLL e config then
          (if config.isDebug then "MultiThreadedDebugDLL" else "MultiThreadedDLL")
         else (if config.isDebug then "MultiThreadedDebug" else "MultiThreaded")) := by
  unfold runtimeLibraryToken fillInProjectXml_clCompile
  simp [XmlElement.getChildElementText, List.findSome?_append, findSome?_ite_nil]

/-- C38: for a configuration whose runtime setting is not set, in a project
without AAX or RTAS target, the `RuntimeLibrary` token is `MultiThreaded`, which is not a
DLL-runtime token, while the module library folder is `$(Platform)\MD`, which holds `MD`. -/
theorem getModuleLibraryArchName_disagrees_when_unset :
    runtimeLibraryToken sampleExternals sampleAppExporter ⟨TargetType.GUIApp, ""⟩
        sampleUnsetRuntimeConfig = "MultiThreaded"
      ∧ isDLLRuntimeToken (runtimeLibraryToken sampleExternals sampleAppExporter
          ⟨TargetType.GUIApp, ""⟩ sampleUnsetRuntimeConfig) = false
      ∧ sampleUnsetRuntimeConfig.getModuleLibraryArchName = "$(Platform)\\MD"
      ∧ containsText sampleUnsetRuntimeConfig.getModuleLibraryArchName "MD" = true := by
  decide

/-- The module library folder is `$(Platform)\` followed by `MD` when
`isUsingRuntimeLibDLL()` holds and `MT` when not, and by `d` in a debug configuration. It
ends in `d` exactly when the `RuntimeLibrary` token is a debug token. It holds `MD` exactly
when `isUsingRuntimeLibDLL()` holds, and the token is a DLL-runtime token exactly when
`shouldUseRuntimeDLL` holds; the two agree when the runtime setting of the configuration is
set, and, when it is not set, exactly when `isUsingRuntimeLibDLL()` has the value of "the
target list holds an AAX or an RTAS target". -/
theorem getModuleLibraryArchName_runtime (x : Externals) (e : MSVCProjectExporterBase)
    (t : MSVCTargetBase) (config : MSVCBuildConfiguration) :
    config.getModuleLibraryArchName
        = "$(Platform)\\" ++ (if config.isUsingRuntimeLibDLL then "MD" else "MT")
          ++ (if config.isDebug then "d" else "")
      ∧ endsWithChar config.getModuleLibraryArchName 'd'
          = isDebugRuntimeToken (runtimeLibraryToken x e t config)
      ∧ containsText config.getModuleLibraryArchName "MD" = config.isUsingRuntimeLibDLL
      ∧ isDLLRuntimeToken (runtimeLibraryToken x e t config) = shouldUseRuntimeDLL e config
      ∧ (config.useRuntimeLibDLLIsVoid = false →
          containsText config.getModuleLibraryArchName "MD"
            = isDLLRuntimeToken (runtimeLibraryToken x e t config))
      ∧ (config.useRuntimeLibDLLIsVoid = true →
          (containsText config.getModuleLibraryArchName "MD"
              = isDLLRuntimeToken (runtimeLibraryToken x e t config)
            ↔ config.isUsingRuntimeLibDLL
                = (hasTarget e.targets TargetType.AAXPlugIn
                    || hasTarget e.targets TargetType.RTASPlugIn))) := by
  have hname : config.getModuleLibraryArchName
      = "$(Platform)\\" ++ (if config.isUsingRuntimeLibDLL then "MD" else "MT")
        ++ (if config.isDebug then "d" else "") := by
    unfold MSVCBuildConfiguration.getModuleLibraryArchName
    cases config.isUsingRuntimeLibDLL <;> cases config.isDebug <;> rfl
  have hmd : containsText config.getModuleLibraryArchName "MD"
      = config.isUsingRuntimeLibDLL := by
    rw [hname]
    cases config.isUsingRuntimeLibDLL <;> cases config.isDebug <;> decide
  have hdll : isDLLRuntimeToken (runtimeLibraryToken x e t config)
      = shouldUseRuntimeDLL e config := by
    rw [runtimeLibraryToken_eq]
    cases shouldUseRuntimeDLL e config <;> cases config.isDebug <;> decide
  refine ⟨hname, ?_, hmd, hdll, ?_, ?_⟩
  · rw [hname, runtimeLibraryToken_eq]
    cases shouldUseRuntimeDLL e config <;> cases config.isUsingRuntimeLibDLL <;>
      cases config.isDebug <;> decide
  · intro hv
    rw [hmd, hdll]
    simp [shouldUseRuntimeDLL, hv]
  · intro hv
    rw [hmd, hdll]
    simp [shouldUseRuntimeDLL, hv]

theorem getModuleLibraryArchName_runtime_witness :
    sampleReleaseConfig.useRuntimeLibDLLIsVoid = false
      ∧ sampleReleaseConfig.getModuleLibraryArchName = "$(Platform)\\MT"
      ∧ runtimeLibraryToken sampleExternals sampleRTASExporter sampleRTASTarget
          sampleReleaseConfig = "MultiThreaded"
      ∧ containsText sampleReleaseConfig.getModuleLibraryArchName "MD"
          = isDLLRuntimeToken (runtimeLibraryToken sampleExternals sampleRTASExporter
              sampleRTASTarget sampleReleaseConfig) :=
  ⟨rfl, by decide, by decide,
    (getModuleLibraryArchName_runtime sampleExternals sampleRTASExporter sampleRTASTarget
      sampleReleaseConfig).2.2.2.2.1 rfl⟩

/-! ## The version number of the resource file -/

theorem getCommaSeparatedVersionNumber_pad_eq (parts : List String) :
    getCommaSeparatedVersionNumber_pad parts
      = parts ++ List.replicate (4 - parts.length) "0" := by
  generalize hn : 4 - parts.length = n
  induction n generalizing parts with
  | zero =>
    rw [getCommaSeparatedVersionNumber_pad]
    have : ¬ parts.length < 4 := by omega
    simp [this]
  | succ k ih =>
    rw [getCommaSeparatedVersionNumber_pad]
    have hlt : parts.length < 4 := by omega
    rw [if_pos hlt, ih (parts ++ ["0"]) (by simp; omega)]
    simp [List.replicate_succ]

/-- C39: `getCommaSeparatedVersionNumber` returns, for every version string, the text that
joins with `,` the version parts, which are the trimmed tokens of the string between `,` and
`.` that hold a character other than white space, followed by as many `0` as are missing
to make four; so the padding loop ends. The result has at least four components, none of
them empty, each a trimmed token or `0`; `k` parts with `k ≤ 4` are followed by `4 - k`
components `0`, and more than four parts are all kept. -/
theorem getCommaSeparatedVersionNumber_eq (x : Externals) (version : String)
    (hnonempty : ∀ s, x.containsNonWhitespaceChars s = true → s ≠ "") :
    getCommaSeparatedVersionNumber x version
        = joinIntoString
            (versionParts x version
              ++ List.replicate (4 - (versionParts x version).length) "0") ","
      ∧ 4 ≤ (versionParts x version
              ++ List.replicate (4 - (versionParts x version).length) "0").length
      ∧ (∀ c ∈ versionParts x version
              ++ List.replicate (4 - (versionParts x version).length) "0",
          c ≠ "" ∧ (c = "0" ∨ ∃ token ∈ addTokens version ",.", c = x.trim token))
      ∧ ((versionParts x version).length ≤ 4 →
          (versionParts x version
              ++ List.replicate (4 - (versionParts x version).length) "0").length = 4)
      ∧ (4 < (versionParts x version).length →
          versionParts x version
              ++ List.replicate (4 - (versionParts x version).length) "0"
            = versionParts x version) := by
  refine ⟨?_, ?_, ?_, ?_, ?_⟩
  · unfold getCommaSeparatedVersionNumber
    simp only [getCommaSeparatedVersionNumber_pad_eq]
    rfl
  · simp only [List.length_append, List.length_replicate]
    omega
  · intro c hc
    rcases List.mem_append.1 hc with hc | hc
    · unfold versionParts at hc
      have h1 := (List.mem_filter.1 hc)
      obtain ⟨token, ht, rfl⟩ := List.mem_map.1 h1.1
      exact ⟨hnonempty _ h1.2, Or.inr ⟨token, ht, rfl⟩⟩
    · have h0 : c = "0" := (List.mem_replicate.1 hc).2
      subst h0
      exact ⟨by decide, Or.inl rfl⟩
  · intro h
    simp only [List.length_append, List.length_replicate]
    omega
  · intro h
    have : 4 - (versionParts x version).length = 0 := by omega
    rw [this]
    simp

theorem getCommaSeparatedVersionNumber_eq_witness :
    (∀ s, sampleExternals.containsNonWhitespaceChars s = true → s ≠ "")
      ∧ getCommaSeparatedVersionNumber sampleExternals "1.2.3" = "1,2,3,0"
      ∧ getCommaSeparatedVersionNumber sampleExternals "" = "0,0,0,0"
      ∧ getCommaSeparatedVersionNumber sampleExternals "1,2.3.4.5" = "1,2,3,4,5"
      ∧ getCommaSeparatedVersionNumber sampleExternals "1..2" = "1,2,0,0" :=
  have h : ∀ s, sampleExternals.containsNonWhitespaceChars s = true → s ≠ "" := by
    intro s hs he
    subst he
    exact absurd hs (by decide)
  ⟨h,
    by rw [(getCommaSeparatedVersionNumber_eq sampleExternals "1.2.3" h).1]; decide,
    by rw [(getCommaSeparatedVersionNumber_eq sampleExternals "" h).1]; decide,
    by rw [(getCommaSeparatedVersionNumber_eq sampleExternals "1,2.3.4.5" h).1]; decide,
    by rw [(getCommaSeparatedVersionNumber_eq sampleExternals "1..2" h).1]; decide⟩

/-! ## The order of the rows of the bitmap -/

theorem reverse_range_succ (k : Nat) :
    (List.range (k + 1)).reverse = k :: (List.range k).reverse := by
  rw [List.range_succ, List.reverse_append]
  rfl

theorem reverse_range_succ_last (k : Nat) :
    (List.range (k + 1)).reverse = ((List.range k).map Nat.succ).reverse ++ [0] := by
  rw [List.range_succ_eq_map, List.reverse_cons]

/-- C33, counterexample: for an 8 by 2 image whose row 0 is opaque and whose row 1 is
transparent, the first colour row written holds the zero bytes of row 1 and the last one
the bytes of row 0; the first mask row written starts with the full mask of row 1 and the
last one with the empty mask of row 0. -/
theorem writeBMPImage_first_row_is_last_image_row :
    ((writeBMPImage sampleImage8x2 8 2 []).drop 40).take 4 = [0, 0, 0, 0]
      ∧ ((writeBMPImage sampleImage8x2 8 2 []).drop (40 + 32)).take 4 = [30, 20, 10, 255]
      ∧ colourRow sampleImage8x2 8 0 ≠ ((writeBMPImage sampleImage8x2 8 2 []).drop 40).take 32
      ∧ ((writeBMPImage sampleImage8x2 8 2 []).drop (40 + 64)).take 4 = [255, 0, 0, 0]
      ∧ ((writeBMPImage sampleImage8x2 8 2 []).drop (40 + 64 + 4)).take 4 = [0, 0, 0, 0]
      ∧ maskRow sampleImage8x2 8 0 = [0, 0, 0, 0] := by
  decide

/-- C33, amended: `writeBMPImage` writes the rows of the image bottom-up. In the colour plane
and in the mask plane the first row written is the image row `h - 1` and the last row
written is the image row `0`: each plane is the row `h - 1` followed by the rows below it,
and also the rows above row `0` followed by row `0`. -/
theorem writeBMPImage_rows_bottom_up (image : Image) (w k : Nat) :
    writeBMPImage image w (k + 1) []
        = bmpHeader w (k + 1) ++ (colourPlane image w (k + 1) ++ maskPlane image w (k + 1))
      ∧ colourPlane image w (k + 1) = colourRow image w k ++ colourPlane image w k
      ∧ colourPlane image w (k + 1)
          = ((List.range k).map Nat.succ).reverse.flatMap (colourRow image w)
            ++ colourRow image w 0
      ∧ maskPlane image w (k + 1) = maskRow image w k ++ maskPlane image w k
      ∧ maskPlane image w (k + 1)
          = ((List.range k).map Nat.succ).reverse.flatMap (maskRow image w)
            ++ maskRow image w 0
      ∧ ((writeBMPImage image w (k + 1) []).drop 40).take (w * 4) = colourRow image w k := by
  have hc : colourPlane image w (k + 1) = colourRow image w k ++ colourPlane image w k := by
    unfold colourPlane
    rw [reverse_range_succ, List.flatMap_cons]
    rfl
  have hrow : (colourRow image w k).length = w * 4 := by
    unfold colourRow
    rw [length_flatMap_uniform _ _ 4 (fun a _ => length_pixelBytes _), List.length_range]
    omega
  refine ⟨?_, hc, ?_, ?_, ?_, ?_⟩
  · simpa using writeBMPImage_eq image w (k + 1) []
  · unfold colourPlane
    rw [reverse_range_succ_last, List.flatMap_append]
    simp only [List.flatMap_cons, List.flatMap_nil, List.append_nil]
    rfl
  · unfold maskPlane
    rw [reverse_range_succ, List.flatMap_cons]
  · unfold maskPlane
    rw [reverse_range_succ_last, List.flatMap_append]
    simp
  · have hw := writeBMPImage_eq image w (k + 1) []
    rw [List.nil_append] at hw
    have hlen : (bmpHeader w (k + 1)).length = 40 := rfl
    rw [hw, List.drop_append_of_le_length (by rw [hlen]), ← hlen, List.drop_length,
      List.nil_append, hc, List.append_assoc,
      List.take_append_of_le_length (by rw [hrow]), ← hrow, List.take_length]

/-! ## The size of the bitmap -/

theorem readInt_bmpHeader (w h : Nat) (rest : List Nat) :
    readInt (bmpHeader w h ++ rest) 8
        = h * 2 % 256 + 256 * (h * 2 / 256 % 256) + 65536 * (h * 2 / 65536 % 256)
          + 16777216 * (h * 2 / 16777216 % 256)
      ∧ readInt (bmpHeader w h ++ rest) 20
        = (h * w * 4 + h * maskStride w) % 256
          + 256 * ((h * w * 4 + h * maskStride w) / 256 % 256)
          + 65536 * ((h * w * 4 + h * maskStride w) / 65536 % 256)
          + 16777216 * ((h * w * 4 + h * maskStride w) / 16777216 % 256) := by
  constructor <;> simp [readInt, bmpHeader, List.getD]

theorem length_maskPlane_of_dvd (image : Image) (w h : Nat) (hd : 8 ∣ w) (hw : w < 2 ^ 31) :
    (maskPlane image w h).length = h * maskStride w := by
  unfold maskPlane
  rw [length_flatMap_uniform _ _ (maskStride w)
    (fun y _ => length_maskRow_of_dvd image w y hd hw), List.length_reverse,
    List.length_range]
  exact Nat.mul_comm _ _

/-- C35: for a width that is a positive multiple of 8 and any height, as long as the sizes
fit a 32-bit `int`, `writeBMPImage` writes 40 + 4 * w * h + h * maskStride bytes, where
`maskStride` is `(w / 8 + 3) & ~3`: the 40 bytes of the header and then as many bytes as the
image-size field of the header says; the height field of the header holds `2 * h`. -/
theorem writeBMPImage_size (image : Image) (w h : Nat) (hd : 8 ∣ w) (hpos : 0 < w)
    (hw : w < 2 ^ 31) (hfit : 4 * w * h + h * maskStride w < 2 ^ 31) :
    (writeBMPImage image w h []).length = 40 + 4 * w * h + h * maskStride w
      ∧ maskStride w = (w / 8 + 3) &&& 4294967292
      ∧ readInt (writeBMPImage image w h []) 20 = 4 * w * h + h * maskStride w
      ∧ (writeBMPImage image w h []).length = 40 + readInt (writeBMPImage image w h []) 20
      ∧ readInt (writeBMPImage image w h []) 8 = 2 * h := by
  have heq := writeBMPImage_eq image w h []
  rw [List.nil_append] at heq
  have hlen : (writeBMPImage image w h []).length = 40 + 4 * w * h + h * maskStride w := by
    rw [heq, List.length_append, List.length_append, length_colourPlane,
      length_maskPlane_of_dvd image w h hd hw]
    have h40 : (bmpHeader w h).length = 40 := rfl
    rw [h40]
    have : h * (w * 4) = 4 * w * h := by
      rw [Nat.mul_comm h, Nat.mul_comm w 4]
    omega
  have hsize : readInt (writeBMPImage image w h []) 20 = 4 * w * h + h * maskStride w := by
    rw [heq, (readInt_bmpHeader w h _).2, readInt_decode _ (by
      have : h * w * 4 = 4 * w * h := by
        rw [Nat.mul_comm h w, Nat.mul_comm (w * h) 4, Nat.mul_assoc]
      omega)]
    have : h * w * 4 = 4 * w * h := by
      rw [Nat.mul_comm h w, Nat.mul_comm (w * h) 4, Nat.mul_assoc]
    omega
  have h2 : h * 2 < 2 ^ 32 := by
    have h1 : h ≤ w * h := Nat.le_mul_of_pos_left h hpos
    have h3 : 4 * w * h = 4 * (w * h) := Nat.mul_assoc 4 w h
    omega
  refine ⟨hlen, rfl, hsize, ?_, ?_⟩
  · rw [hsize, hlen]
    omega
  · rw [heq, (readInt_bmpHeader w h _).1, readInt_decode _ h2]
    omega

theorem writeBMPImage_size_witness :
    8 ∣ 8 ∧ (0 : Nat) < 8
      ∧ (writeBMPImage sampleImage8x2 8 2 []).length = 40 + 4 * 8 * 2 + 2 * maskStride 8
      ∧ maskStride 8 = 4
      ∧ readInt (writeBMPImage sampleImage8x2 8 2 []) 8 = 4 :=
  ⟨by decide, by decide,
    (writeBMPImage_size sampleImage8x2 8 2 (by decide) (by decide) (by decide)
      (by decide)).1,
    by decide,
    (writeBMPImage_size sampleImage8x2 8 2 (by decide) (by decide) (by decide)
      (by decide)).2.2.2.2⟩

/-! ## The layout of the icon container -/

theorem writeIconFile_block_at (x : Externals) (images : List Image) (i : Nat)
    (hi : i < images.length) :
    ((writeIconFile x images []).1.drop
          (6 + 16 * images.length
            + (((images.map (iconBlock x)).take i).map List.length).sum)).take
        ((images.map (iconBlock x)).getD i []).length
      = (images.map (iconBlock x)).getD i [] := by
  rw [writeIconFile_eq]
  dsimp only
  have hE := length_iconDirectory x (6 + images.length * 16) 0 images
  have hpre : ([0, 0, 1, 0, images.length % 256, images.length / 256 % 256]
      ++ (iconDirectory x (6 + images.length * 16) 0 images).flatten).length
        = 6 + 16 * images.length := by
    rw [List.length_append, hE]
    rfl
  rw [← hpre, List.drop_append, List.map_take, drop_flatten_sum,
    List.drop_eq_getElem_cons (by simpa using hi), List.flatten_cons,
    List.getD_eq_getElem _ _ (by simpa using hi), List.take_left]

/-- C34: for a list of fewer than 65536 images whose container stays below 2^32 bytes,
`writeIconFile` writes a header of 6 bytes whose count field is the number of images, then
the directory with 16 bytes for each image, so that the stream has 6 + 16 * n bytes when
the assertion is checked and the assertion holds, then the encoded blocks one after the
other; and the bytes of the container from the offset field of an entry on, as many as its
length field says, are the encoded block of the image of that entry. -/
theorem writeIconFile_layout (x : Externals) (images : List Image)
    (hcount : images.length < 2 ^ 16)
    (hfit : 6 + 16 * images.length
      + (images.map (fun im => (iconBlock x im).length)).sum < 2 ^ 32) :
    (writeIconFile x images []).1.take 6
        = [0, 0, 1, 0, images.length % 256, images.length / 256 % 256]
      ∧ readShort (writeIconFile x images []).1 4 = images.length
      ∧ ((writeIconFile x images []).1.drop 6).take (16 * images.length)
          = (iconDirectory x (6 + images.length * 16) 0 images).flatten
      ∧ (iconDirectory x (6 + images.length * 16) 0 images).length = images.length
      ∧ (∀ entry ∈ iconDirectory x (6 + images.length * 16) 0 images, entry.length = 16)
      ∧ (writeIconFile x images []).2 = true
      ∧ (writeIconFile x images []).1.drop (6 + 16 * images.length)
          = (images.map (iconBlock x)).flatten
      ∧ (∀ i, i < images.length →
          ((writeIconFile x images []).1.drop
                (readInt (writeIconFile x images []).1 (6 + 16 * i + 12))).take
              (readInt (writeIconFile x images []).1 (6 + 16 * i + 8))
            = (images.map (iconBlock x)).getD i []) := by
  have hE := length_iconDirectory x (6 + images.length * 16) 0 images
  have hout := writeIconFile_eq x images
  have h1 : (writeIconFile x images []).1
      = [0, 0, 1, 0, images.length % 256, images.length / 256 % 256]
          ++ ((iconDirectory x (6 + images.length * 16) 0 images).flatten
            ++ (images.map (iconBlock x)).flatten) := by
    rw [hout, List.append_assoc]
  have h6 : ([0, 0, 1, 0, images.length % 256, images.length / 256 % 256] : List Nat).length
      = 6 := rfl
  refine ⟨?_, ?_, ?_, length_iconDirectory_list _ _ _ _, ?_, by rw [hout], ?_, ?_⟩
  · rw [h1, List.take_left' h6]
  · rw [h1]
    show images.length % 256 + 256 * (images.length / 256 % 256) = images.length
    have hlt : images.length / 256 % 256 = images.length / 256 := by
      apply Nat.mod_eq_of_lt
      omega
    omega
  · rw [h1, List.drop_left' h6, List.take_left' hE]
  · intro entry hentry
    exact length_iconDirectory_entry x _ _ images entry hentry
  · rw [h1, ← List.append_assoc]
    have hpre : ([0, 0, 1, 0, images.length % 256, images.length / 256 % 256]
        ++ (iconDirectory x (6 + images.length * 16) 0 images).flatten).length
          = 6 + 16 * images.length := by
      rw [List.length_append, hE]
      rfl
    rw [List.drop_left' hpre]
  · intro i hi
    have hf := writeIconFile_fields x images hfit i hi
    have hmap : (images.map (fun im => (iconBlock x im).length)).take i
        = ((images.map (iconBlock x)).take i).map List.length := by
      rw [← List.map_take, ← List.map_take, List.map_map]
      rfl
    have hlen : (images.map (fun im => (iconBlock x im).length)).getD i 0
        = ((images.map (iconBlock x)).getD i []).length := by
      rw [List.getD_eq_getElem _ _ (by simpa using hi),
        List.getD_eq_getElem _ _ (by simpa using hi)]
      simp
    rw [hf.1, hf.2, hmap, hlen]
    exact writeIconFile_block_at x images i hi

theorem writeIconFile_layout_witness :
    [sampleImage8, sampleImage8].length < 2 ^ 16
      ∧ readShort (writeIconFile sampleExternals [sampleImage8, sampleImage8] []).1 4 = 2
      ∧ (writeIconFile sampleExternals [sampleImage8, sampleImage8] []).2 = true
      ∧ ((writeIconFile sampleExternals [sampleImage8, sampleImage8] []).1.drop
              (readInt (writeIconFile sampleExternals [sampleImage8, sampleImage8] []).1
                (6 + 16 * 1 + 12))).take
            (readInt (writeIconFile sampleExternals [sampleImage8, sampleImage8] []).1
              (6 + 16 * 1 + 8))
          = ([sampleImage8, sampleImage8].map (iconBlock sampleExternals)).getD 1 [] :=
  ⟨by decide,
    (writeIconFile_layout sampleExternals [sampleImage8, sampleImage8] (by decide)
      (by decide)).2.1,
    (writeIconFile_layout sampleExternals [sampleImage8, sampleImage8] (by decide)
      (by decide)).2.2.2.2.2.1,
    (writeIconFile_layout sampleExternals [sampleImage8, sampleImage8] (by decide)
      (by decide)).2.2.2.2.2.2.2 1 (by decide)⟩

/-! ## The declarations of the solution text -/

/-- C36: the solution text holds, after its header, one block for each target of the target
list, which starts with the declaration line of that target: the targets of the blocks are a
permutation of the target list. When the shared-code GUID is not empty, which is so when a
shared-code target exists and the shared-code targets have a GUID, the blocks of the
`StandalonePlugIn` targets come first and those of all other targets follow, each group in
the order of the target list; otherwise the blocks follow the order of the target list. -/
theorem writeSolutionFile_declarations (x : Externals) (e : MSVCProjectExporterBase)
    (out versionString commentString : String) :
    (∃ rest : String,
        writeSolutionFile x e out versionString commentString
          = out ++ (solutionHeader x versionString commentString
              ++ (concatBlocks ((emissionOrder e.targets).map
                    (fun t => projectDeclaration x e t t.projectGuid
                      ++ projectBlockTail x e t))
                ++ ("Global" ++ x.newLine ++ rest))))
      ∧ declarationLines x e
          = (emissionOrder e.targets).map (fun t => projectDeclaration x e t t.projectGuid)
      ∧ (declarationLines x e).length = e.targets.length
      ∧ (emissionOrder e.targets).Perm e.targets
      ∧ (getSharedCodeGuid e.targets ≠ "" →
          emissionOrder e.targets
            = e.targets.filter (fun t => decide (t.type = TargetType.StandalonePlugIn))
              ++ e.targets.filter (fun t => decide (t.type ≠ TargetType.StandalonePlugIn)))
      ∧ (getSharedCodeGuid e.targets = "" → emissionOrder e.targets = e.targets)
      ∧ (((∃ s ∈ e.targets, s.type = TargetType.SharedCodeTarget)
            ∧ ∀ s ∈ e.targets, s.type = TargetType.SharedCodeTarget → s.projectGuid ≠ "") →
          getSharedCodeGuid e.targets ≠ "") := by
  have hperm : (emissionOrder e.targets).Perm e.targets := by
    unfold emissionOrder
    by_cases h : getSharedCodeGuid e.targets = ""
    · rw [if_pos h]
    · rw [if_neg h]
      have := List.filter_append_perm
        (fun t : MSVCTargetBase => decide (t.type = TargetType.StandalonePlugIn)) e.targets
      simpa using this
  refine ⟨?_, rfl, ?_, hperm, ?_, ?_, ?_⟩
  · rw [writeSolutionFile_eq, solutionProjects]
    exact ⟨_, rfl⟩
  · rw [declarationLines, List.length_map]
    exact hperm.length_eq
  · intro h
    rw [emissionOrder, if_neg h]
  · intro h
    rw [emissionOrder, if_pos h]
  · rintro ⟨hs, hg⟩
    obtain ⟨s, hm, hty, hgs⟩ := getSharedCodeGuid_of_some e.targets hs
    rw [hgs]
    exact hg s hm hty

theorem writeSolutionFile_declarations_witness :
    ((∃ s ∈ samplePluginExporter.targets, s.type = TargetType.SharedCodeTarget)
        ∧ ∀ s ∈ samplePluginExporter.targets, s.type = TargetType.SharedCodeTarget →
            s.projectGuid ≠ "")
      ∧ getSharedCodeGuid samplePluginExporter.targets ≠ ""
      ∧ (emissionOrder samplePluginExporter.targets).map (fun t => t.type)
          = [TargetType.StandalonePlugIn, TargetType.SharedCodeTarget, TargetType.VSTPlugIn]
      ∧ (declarationLines sampleExternals samplePluginExporter).length = 3 :=
  ⟨⟨⟨⟨TargetType.SharedCodeTarget, "\x7bS\x7d"⟩, by decide, rfl⟩, by decide⟩,
    (writeSolutionFile_declarations sampleExternals samplePluginExporter "" "11.00"
      "").2.2.2.2.2.2 ⟨⟨⟨TargetType.SharedCodeTarget, "\x7bS\x7d"⟩, by decide, rfl⟩, by decide⟩,
    by decide,
    (writeSolutionFile_declarations sampleExternals samplePluginExporter "" "11.00" "").2.2.1⟩

/-! ## Resources and icon -/

theorem foldl_collect_valid {α β : Type} (g : α → β) (q : β → Bool) (l : List α)
    (init : List β) :
    l.foldl (fun images a => if q (g a) = true then images ++ [g a] else images) init
      = init ++ (l.map g).filter q := by
  induction l generalizing init with
  | nil => simp
  | cons a rest ih =>
    rw [List.foldl_cons, ih]
    by_cases h : q (g a) = true
    · simp [h]
    · simp [h]

theorem createRCFile_eq (x : Externals) (e : MSVCProjectExporterBase) (s : ResourceState)
    (hok : ∀ file data, x.overwriteThrows file data = false) :
    createRCFile x e s
      = { s with
          rcFile := x.getChildFile e.targetFolder "resources.rc"
          written := s.written
            ++ [⟨x.getChildFile e.targetFolder "resources.rc",
                StreamData.text (createRCFile_text x e s.iconFile)⟩] } := by
  simp [createRCFile, hok]

theorem createResourcesAndIcon_eq (x : Externals) (e : MSVCProjectExporterBase)
    (s : ResourceState) (hok : ∀ file data, x.overwriteThrows file data = false)
    (hres : hasResourceFile e = true) :
    createResourcesAndIcon x e s
      = (if (validIcons x).length > 0 then
          createRCFile x e
            { s with
              iconFile := x.getChildFile e.targetFolder "icon.ico"
              written := s.written
                ++ [⟨x.getChildFile e.targetFolder "icon.ico",
                    StreamData.bytes (writeIconFile x (validIcons x) []).1⟩] }
         else createRCFile x e s) := by
  unfold createResourcesAndIcon
  rw [if_pos hres]
  dsimp only
  rw [foldl_collect_valid (fun size => x.getBestIconForSize size true) x.imageIsValid
    [16, 32, 48, 256] [], List.nil_append]
  simp [hok, validIcons]

theorem filter_resourceCompile_map {α : Type} (files : List α) (f : α → XmlElement)
    (h : ∀ a, (f a).hasTagName "ResourceCompile" = false) :
    (files.map f).filter (fun el => el.hasTagName "ResourceCompile") = [] := by
  rw [List.filter_eq_nil_iff]
  intro el hel
  obtain ⟨a, _, rfl⟩ := List.mem_map.1 hel
  simp [h a]

theorem filter_resourceCompile_compile (x : Externals) (e : MSVCProjectExporterBase)
    (t : MSVCTargetBase) (item : Item) (lists : FileLists) :
    (addFilesToCompile x e t item lists).cpps.filter (fun el => el.hasTagName "ResourceCompile")
        = lists.cpps.filter (fun el => el.hasTagName "ResourceCompile")
      ∧ (addFilesToCompile x e t item lists).headers.filter
            (fun el => el.hasTagName "ResourceCompile")
          = lists.headers.filter (fun el => el.hasTagName "ResourceCompile")
      ∧ (addFilesToCompile x e t item lists).otherFiles.filter
            (fun el => el.hasTagName "ResourceCompile")
          = lists.otherFiles.filter (fun el => el.hasTagName "ResourceCompile") := by
  rw [addFilesToCompile_eq]
  simp only [appendCompileEntries, List.filter_append]
  refine ⟨?_, ?_, ?_⟩ <;>
    rw [filter_resourceCompile_map _ _ (fun a => by simp [compileEntry, XmlElement.hasTagName]),
      List.append_nil]

theorem filter_resourceCompile_fileLists (x : Externals) (e : MSVCProjectExporterBase)
    (t : MSVCTargetBase) (allGroups : List Item) :
    (fillInProjectXml_fileLists x e t allGroups).cpps.filter
        (fun el => el.hasTagName "ResourceCompile") = []
      ∧ (fillInProjectXml_fileLists x e t allGroups).headers.filter
          (fun el => el.hasTagName "ResourceCompile") = []
      ∧ (fillInProjectXml_fileLists x e t allGroups).otherFiles.filter
          (fun el => el.hasTagName "ResourceCompile") = [] := by
  unfold fillInProjectXml_fileLists
  have h : ∀ (groups : List Item) (lists : FileLists),
      (lists.cpps.filter (fun el => el.hasTagName "ResourceCompile") = []
        ∧ lists.headers.filter (fun el => el.hasTagName "ResourceCompile") = []
        ∧ lists.otherFiles.filter (fun el => el.hasTagName "ResourceCompile") = []) →
      ((groups.foldl (fun lists group =>
          if group.getNumChildren > 0 then addFilesToCompile x e t group lists
          else lists) lists).cpps.filter (fun el => el.hasTagName "ResourceCompile") = []
        ∧ (groups.foldl (fun lists group =>
          if group.getNumChildren > 0 then addFilesToCompile x e t group lists
          else lists) lists).headers.filter (fun el => el.hasTagName "ResourceCompile") = []
        ∧ (groups.foldl (fun lists group =>
          if group.getNumChildren > 0 then addFilesToCompile x e t group lists
          else lists) lists).otherFiles.filter
            (fun el => el.hasTagName "ResourceCompile") = []) := by
    intro groups
    induction groups with
    | nil => intro lists hl; exact hl
    | cons g rest ih =>
      intro lists hl
      rw [List.foldl_cons]
      apply ih
      by_cases hg : g.getNumChildren > 0
      · rw [if_pos hg]
        have hc := filter_resourceCompile_compile x e t g lists
        exact ⟨hc.1.trans hl.1, hc.2.1.trans hl.2.1, hc.2.2.trans hl.2.2⟩
      · rw [if_neg hg]
        exact hl
  exact h allGroups {} ⟨rfl, rfl, rfl⟩

mutual
theorem filterGroups_tags (x : Externals) (e : MSVCProjectExporterBase)
    (t : MSVCTargetBase) : ∀ (item : Item) (path : String),
    ∀ d ∈ item.filterGroups x e t path, d.hasTagName "ResourceCompile" = false
  | Item.group _ children, path, d, hd => by
    rw [Item.filterGroups, List.mem_append] at hd
    rcases hd with hd | hd
    · exact filterGroupsOfList_tags x e t children path d hd
    · by_cases h : anyAddedToFilter x e t (Item.filesOfList children) = true
      · rw [if_pos h] at hd
        have hdd : d = filterDeclaration x path := by simpa using hd
        rw [hdd]
        simp [filterDeclaration, XmlElement.hasTagName]
      · rw [if_neg h] at hd
        exact absurd hd (List.not_mem_nil _)
  | Item.file _, path, d, hd => by
    rw [Item.filterGroups] at hd
    exact absurd hd (List.not_mem_nil _)
theorem filterGroupsOfList_tags (x : Externals) (e : MSVCProjectExporterBase)
    (t : MSVCTargetBase) : ∀ (children : List Item) (path : String),
    ∀ d ∈ Item.filterGroupsOfList x e t children path, d.hasTagName "ResourceCompile" = false
  | [], path, d, hd => by
    rw [Item.filterGroupsOfList] at hd
    exact absurd hd (List.not_mem_nil _)
  | child :: rest, path, d, hd => by
    rw [Item.filterGroupsOfList, List.mem_append] at hd
    rcases hd with hd | hd
    · exact filterGroups_tags x e t child _ d hd
    · exact filterGroupsOfList_tags x e t rest path d hd
end

theorem filter_resourceCompile_filter (x : Externals) (e : MSVCProjectExporterBase)
    (t : MSVCTargetBase) (item : Item) (path : String) (lists : FileLists) :
    (addFilesToFilter x e t item path lists).2.cpps.filter
          (fun el => el.hasTagName "ResourceCompile")
        = lists.cpps.filter (fun el => el.hasTagName "ResourceCompile")
      ∧ (addFilesToFilter x e t item path lists).2.headers.filter
            (fun el => el.hasTagName "ResourceCompile")
          = lists.headers.filter (fun el => el.hasTagName "ResourceCompile")
      ∧ (addFilesToFilter x e t item path lists).2.otherFiles.filter
            (fun el => el.hasTagName "ResourceCompile")
          = lists.otherFiles.filter (fun el => el.hasTagName "ResourceCompile")
      ∧ (addFilesToFilter x e t item path lists).2.groups.filter
            (fun el => el.hasTagName "ResourceCompile")
          = lists.groups.filter (fun el => el.hasTagName "ResourceCompile") := by
  rw [addFilesToFilter_eq]
  simp only [appendFilterEntries, List.filter_append]
  refine ⟨?_, ?_, ?_, ?_⟩
  · rw [filter_resourceCompile_map _ _
      (fun a => by simp [filterEntry, XmlElement.hasTagName]), List.append_nil]
  · rw [filter_resourceCompile_map _ _
      (fun a => by simp [filterEntry, XmlElement.hasTagName]), List.append_nil]
  · rw [filter_resourceCompile_map _ _
      (fun a => by simp [filterEntry, XmlElement.hasTagName]), List.append_nil]
  · have hg : (item.filterGroups x e t path).filter
        (fun el => el.hasTagName "ResourceCompile") = [] := by
      rw [List.filter_eq_nil_iff]
      intro d hd
      simp [filterGroups_tags x e t item path d hd]
    rw [hg, List.append_nil]

theorem filter_resourceCompile_filterLists (x : Externals) (e : MSVCProjectExporterBase)
    (t : MSVCTargetBase) (allGroups : List Item) :
    (fillInFiltersXml_fileLists x e t allGroups).cpps.filter
        (fun el => el.hasTagName "ResourceCompile") = []
      ∧ (fillInFiltersXml_fileLists x e t allGroups).headers.filter
          (fun el => el.hasTagName "ResourceCompile") = []
      ∧ (fillInFiltersXml_fileLists x e t allGroups).otherFiles.filter
          (fun el => el.hasTagName "ResourceCompile") = []
      ∧ (fillInFiltersXml_fileLists x e t allGroups).groups.filter
          (fun el => el.hasTagName "ResourceCompile") = [] := by
  unfold fillInFiltersXml_fileLists
  have h : ∀ (groups : List Item) (lists : FileLists),
      (lists.cpps.filter (fun el => el.hasTagName "ResourceCompile") = []
        ∧ lists.headers.filter (fun el => el.hasTagName "ResourceCompile") = []
        ∧ lists.otherFiles.filter (fun el => el.hasTagName "ResourceCompile") = []
        ∧ lists.groups.filter (fun el => el.hasTagName "ResourceCompile") = []) →
      ((groups.foldl (fun lists group =>
          if group.getNumChildren > 0 then
            (addFilesToFilter x e t group group.getName lists).2
          else lists) lists).cpps.filter (fun el => el.hasTagName "ResourceCompile") = []
        ∧ (groups.foldl (fun lists group =>
          if group.getNumChildren > 0 then
            (addFilesToFilter x e t group group.getName lists).2
          else lists) lists).headers.filter (fun el => el.hasTagName "ResourceCompile") = []
        ∧ (groups.foldl (fun lists group =>
          if group.getNumChildren > 0 then
            (addFilesToFilter x e t group group.getName lists).2
          else lists) lists).otherFiles.filter
            (fun el => el.hasTagName "ResourceCompile") = []
        ∧ (groups.foldl (fun lists group =>
          if group.getNumChildren > 0 then
            (addFilesToFilter x e t group group.getName lists).2
          else lists) lists).groups.filter
            (fun el => el.hasTagName "ResourceCompile") = []) := by
    intro groups
    induction groups with
    | nil => intro lists hl; exact hl
    | cons g rest ih =>
      intro lists hl
      rw [List.foldl_cons]
      apply ih
      by_cases hg : g.getNumChildren > 0
      · rw [if_pos hg]
        have hc := filter_resourceCompile_filter x e t g g.getName lists
        exact ⟨hc.1.trans hl.1, hc.2.1.trans hl.2.1, hc.2.2.1.trans hl.2.2.1,
          hc.2.2.2.trans hl.2.2.2⟩
      · rw [if_neg hg]
        exact hl
  exact h allGroups {} ⟨rfl, rfl, rfl, rfl⟩

theorem resourceCompileItems_project (x : Externals) (e : MSVCProjectExporterBase)
    (t : MSVCTargetBase) (allGroups : List Item) :
    resourceCompileItems (fillInProjectXml_files x e t allGroups)
      = (if hasResourceFile e then
          [XmlElement.element "ResourceCompile"
            [("Include", prependDot x (x.getFileName e.rcFile))] []]
         else []) := by
  obtain ⟨h1, h2, h3⟩ := filter_resourceCompile_fileLists x e t allGroups
  unfold resourceCompileItems fillInProjectXml_files
  dsimp only
  simp only [List.flatMap_append, List.filter_append, List.flatMap_cons, List.flatMap_nil,
    XmlElement.childElements, List.append_nil, h1, h2, List.nil_append]
  have hother : ((if (if e.iconFile ≠ ⟨""⟩ then
            (fillInProjectXml_fileLists x e t allGroups).otherFiles
              ++ [(XmlElement.element "None" [] []).setAttribute "Include"
                    (prependDot x (x.getFileName e.iconFile))]
          else (fillInProjectXml_fileLists x e t allGroups).otherFiles).length > 0 then
        [XmlElement.element "ItemGroup" []
          (if e.iconFile ≠ ⟨""⟩ then
            (fillInProjectXml_fileLists x e t allGroups).otherFiles
              ++ [(XmlElement.element "None" [] []).setAttribute "Include"
                    (prependDot x (x.getFileName e.iconFile))]
          else (fillInProjectXml_fileLists x e t allGroups).otherFiles)]
        else []).flatMap XmlElement.childElements).filter
          (fun el => el.hasTagName "ResourceCompile") = [] := by
    split_ifs <;>
      simp only [List.flatMap_cons, List.flatMap_nil, XmlElement.childElements,
        List.append_nil, List.filter_append, h3, List.nil_append, List.filter_nil]
    rfl
  rw [hother]
  cases hasResourceFile e <;>
    simp [XmlElement.childElements, XmlElement.setAttribute, XmlElement.hasTagName,
      StringPairArray.setPairs]

theorem resourceCompileItems_filters (x : Externals) (e : MSVCProjectExporterBase)
    (t : MSVCTargetBase) (allGroups : List Item) :
    resourceCompileItems (fillInFiltersXml_groups x e t allGroups)
      = (if hasResourceFile e then
          [XmlElement.element "ResourceCompile"
            [("Include", prependDot x (x.getFileName e.rcFile))]
            [XmlElement.element "Filter" [] [XmlElement.text x.getJuceCodeGroupName]]]
         else []) := by
  obtain ⟨h1, h2, h3, h4⟩ := filter_resourceCompile_filterLists x e t allGroups
  unfold resourceCompileItems fillInFiltersXml_groups
  dsimp only
  simp only [List.flatMap_append, List.filter_append, List.flatMap_cons, List.flatMap_nil,
    XmlElement.childElements, List.append_nil, h1, h2, h4, List.nil_append]
  have hother : ((if (if x.fileExists e.iconFile = true then
            (fillInFiltersXml_fileLists x e t allGroups).otherFiles
              ++ [((XmlElement.element "None" [] []).setAttribute "Include"
                    (prependDot x (x.getFileName e.iconFile))).addChildElement
                    (XmlElement.element "Filter" []
                      [XmlElement.text x.getJuceCodeGroupName])]
          else (fillInFiltersXml_fileLists x e t allGroups).otherFiles).length > 0 then
        [XmlElement.element "ItemGroup" []
          (if x.fileExists e.iconFile = true then
            (fillInFiltersXml_fileLists x e t allGroups).otherFiles
              ++ [((XmlElement.element "None" [] []).setAttribute "Include"
                    (prependDot x (x.getFileName e.iconFile))).addChildElement
                    (XmlElement.element "Filter" []
                      [XmlElement.text x.getJuceCodeGroupName])]
          else (fillInFiltersXml_fileLists x e t allGroups).otherFiles)]
        else []).flatMap XmlElement.childElements).filter
          (fun el => el.hasTagName "ResourceCompile") = [] := by
    split_ifs <;>
      simp only [List.flatMap_cons, List.flatMap_nil, XmlElement.childElements,
        List.append_nil, List.filter_append, h3, List.nil_append, List.filter_nil]
    rfl
  rw [hother]
  cases hasResourceFile e <;>
    simp [XmlElement.childElements, XmlElement.setAttribute, XmlElement.addChildElement,
      XmlElement.hasTagName, StringPairArray.setPairs]

/-- C31: for a static library `createResourcesAndIcon` changes nothing: it hands no file to
`overwriteFileIfDifferentOrThrow` and leaves `iconFile` and `rcFile` as they are, and the
item groups of the project document and of the filter document hold no `ResourceCompile`
item. For any other project, as long as writing a file does not throw, it hands the
resource file `resources.rc` to be written in every case, after the icon container
`icon.ico`, which it hands to be written exactly when the best icon of at least one of the
sizes 16, 32, 48 and 256 is a valid image; each document then holds one `ResourceCompile`
item. -/
theorem createResourcesAndIcon_cases (x : Externals) (e : MSVCProjectExporterBase)
    (t : MSVCTargetBase) (allGroups : List Item) (s : ResourceState)
    (hok : ∀ file data, x.overwriteThrows file data = false) :
    (e.projectType.isStaticLibrary = true →
        createResourcesAndIcon x e s = s
          ∧ resourceCompileItems (fillInProjectXml_files x e t allGroups) = []
          ∧ resourceCompileItems (fillInFiltersXml_groups x e t allGroups) = [])
      ∧ (e.projectType.isStaticLibrary = false →
          (createResourcesAndIcon x e s).written
              = s.written
                ++ (if (validIcons x).length > 0 then
                      [⟨x.getChildFile e.targetFolder "icon.ico",
                        StreamData.bytes (writeIconFile x (validIcons x) []).1⟩]
                    else [])
                ++ [⟨x.getChildFile e.targetFolder "resources.rc",
                      StreamData.text (createRCFile_text x e
                        (createResourcesAndIcon x e s).iconFile)⟩]
            ∧ (createResourcesAndIcon x e s).rcFile
                = x.getChildFile e.targetFolder "resources.rc"
            ∧ (createResourcesAndIcon x e s).iconFile
                = (if (validIcons x).length > 0 then x.getChildFile e.targetFolder "icon.ico"
                   else s.iconFile)
            ∧ (createResourcesAndIcon x e s).thrown = s.thrown
            ∧ ((validIcons x).length > 0
                ↔ ∃ size ∈ [16, 32, 48, 256],
                    x.imageIsValid (x.getBestIconForSize size true) = true)
            ∧ resourceCompileItems (fillInProjectXml_files x e t allGroups)
                = [XmlElement.element "ResourceCompile"
                    [("Include", prependDot x (x.getFileName e.rcFile))] []]
            ∧ resourceCompileItems (fillInFiltersXml_groups x e t allGroups)
                = [XmlElement.element "ResourceCompile"
                    [("Include", prependDot x (x.getFileName e.rcFile))]
                    [XmlElement.element "Filter" []
                      [XmlElement.text x.getJuceCodeGroupName]]]) := by
  refine ⟨?_, ?_⟩
  · intro hs
    have hres : hasResourceFile e = false := by simp [hasResourceFile, hs]
    refine ⟨?_, ?_, ?_⟩
    · unfold createResourcesAndIcon
      rw [hres]
      rfl
    · rw [resourceCompileItems_project, hres]
      rfl
    · rw [resourceCompileItems_filters, hres]
      rfl
  · intro hs
    have hres : hasResourceFile e = true := by simp [hasResourceFile, hs]
    have hvalid : ((validIcons x).length > 0
        ↔ ∃ size ∈ [16, 32, 48, 256],
            x.imageIsValid (x.getBestIconForSize size true) = true) := by
      constructor
      · intro h
        obtain ⟨im, him⟩ := List.exists_mem_of_length_pos h
        unfold validIcons at him
        obtain ⟨hm, hv⟩ := List.mem_filter.1 him
        obtain ⟨size, hsize, rfl⟩ := List.mem_map.1 hm
        exact ⟨size, hsize, hv⟩
      · rintro ⟨size, hsize, hv⟩
        have hm : x.getBestIconForSize size true ∈ validIcons x := by
          unfold validIcons
          exact List.mem_filter.2 ⟨List.mem_map.2 ⟨size, hsize, rfl⟩, hv⟩
        exact List.length_pos_of_mem hm
    rw [createResourcesAndIcon_eq x e s hok hres]
    refine ⟨?_, ?_, ?_, ?_, hvalid, ?_, ?_⟩
    · by_cases hv : (validIcons x).length > 0
      · simp only [if_pos hv, createRCFile_eq x e _ hok, List.append_assoc]
      · simp only [if_neg hv, createRCFile_eq x e _ hok, List.append_nil]
    · by_cases hv : (validIcons x).length > 0
      · simp only [if_pos hv, createRCFile_eq x e _ hok]
      · simp only [if_neg hv, createRCFile_eq x e _ hok]
    · by_cases hv : (validIcons x).length > 0
      · simp only [if_pos hv, createRCFile_eq x e _ hok]
      · simp only [if_neg hv, createRCFile_eq x e _ hok]
    · by_cases hv : (validIcons x).length > 0
      · simp only [if_pos hv, createRCFile_eq x e _ hok]
      · simp only [if_neg hv, createRCFile_eq x e _ hok]
    · rw [resourceCompileItems_project, hres]
      rfl
    · rw [resourceCompileItems_filters, hres]
      rfl

theorem createResourcesAndIcon_cases_witness :
    (∀ file data, sampleExternals.overwriteThrows file data = false)
      ∧ createResourcesAndIcon sampleExternals sampleStaticLibExporter {} = {}
      ∧ (createResourcesAndIcon sampleExternals sampleAppExporter {}).written.map
            (fun w => w.file.fullPath)
          = ["Builds\\icon.ico", "Builds\\resources.rc"]
      ∧ (createResourcesAndIcon sampleExternals sampleAppExporter {}).rcFile
          = ⟨"Builds\\resources.rc"⟩
      ∧ resourceCompileItems (fillInProjectXml_files sampleExternals sampleStaticLibExporter
          sampleSharedTarget [sampleTree]) = [] :=
  ⟨fun _ _ => rfl,
    ((createResourcesAndIcon_cases sampleExternals sampleStaticLibExporter sampleSharedTarget
      [sampleTree] {} (fun _ _ => rfl)).1 rfl).1,
    by decide,
    ((createResourcesAndIcon_cases sampleExternals sampleAppExporter sampleSharedTarget
      [sampleTree] {} (fun _ _ => rfl)).2 rfl).2.1,
    ((createResourcesAndIcon_cases sampleExternals sampleStaticLibExporter sampleSharedTarget
      [sampleTree] {} (fun _ _ => rfl)).1 rfl).2.1⟩

theorem fillInFiltersXml_childElements (x : Externals) (e : MSVCProjectExporterBase)
    (t : MSVCTargetBase) (allGroups : List Item) (tagName : String)
    (attributes : List (String × String)) (children : List XmlElement) :
    (fillInFiltersXml x e t allGroups tagName attributes children).childElements
      = children ++ fillInFiltersXml_groups x e t allGroups := by
  simp [fillInFiltersXml, XmlElement.setAttribute, XmlElement.childElements]

end MSVC
